import Mathlib

/-!
Verification development for the directory-manager entity lifecycle and
membership engine.  The Go sources are shallowly embedded: the LDAP
directory content is a `Directory` value, every directory call is a
function in the state-with-errors monad `LdapM`, and the per-module
operations (`pirg`, `cephfs`, `software`) are translated statement by
statement from the corresponding Go functions.
-/

deriving instance DecidableEq for Except

namespace DirMan

/-! String helpers mirroring the Go standard-library functions that the
source uses (`strings.Split`, `strings.HasPrefix`, `strings.TrimPrefix`,
`strings.Contains` with a one-character pattern). They operate on the
character list underlying a `String`. -/

/-- Splitting a character list at every occurrence of `sep`, mirroring
Go `strings.Split` with a one-character separator (the result is never
empty; splitting the empty string yields `[[]]`, as in Go). -/
def goSplit (sep : Char) : List Char → List (List Char)
  | [] => [[]]
  | c :: rest =>
    if c = sep then [] :: goSplit sep rest
    else (c :: (goSplit sep rest).headI) :: (goSplit sep rest).tail

/-- Go `strings.Split s (String.singleton sep)`. -/
def stringsSplit (s : String) (sep : Char) : List String :=
  (goSplit sep s.data).map String.mk

/-- Go `strings.HasPrefix s p`. -/
def hasPfx (s p : String) : Bool := p.data.isPrefixOf s.data

/-- Go `strings.TrimPrefix s p`. -/
def trimPfx (s p : String) : String :=
  if hasPfx s p then String.mk (s.data.drop p.data.length) else s

/-- Go `strings.Contains s (String.singleton c)`. -/
def containsChar (s : String) (c : Char) : Bool := s.data.contains c

/-! The configuration record (internal/config/config.go), restricted to the
fields the embedded operations read. -/

structure Config where
  LDAPUsersBaseDN : String
  LDAPGroupsBaseDN : String
  LDAPPirgDN : String
  LDAPCephfsDN : String
  LDAPSoftwareDN : String
  LDAPMinGid : Int
  LDAPMaxGid : Int
deriving DecidableEq

/-! The directory state.  Every managed group object is a `GroupEntry`
(common name, parent container DN, numeric gid, member DNs); its DN is
derived the way the source builds DNs (`CN=<cn>,<parent>`).  OUs and user
objects are tracked as well, since existence checks and user-DN lookups
read them. -/

structure GroupEntry where
  cn : String
  ou : String
  gid : Int
  members : List String
deriving DecidableEq

/-- The distinguished name of a group entry, as the source constructs it. -/
def GroupEntry.dn (g : GroupEntry) : String := "CN=" ++ g.cn ++ "," ++ g.ou

structure Directory where
  groups : List GroupEntry
  ous : List String
  users : List (String × String)
deriving DecidableEq

/-- State-with-errors monad for directory operations: a failing call
reports an error but the directory keeps whatever state the preceding
calls produced (there is no transactional rollback in LDAP). -/
def LdapM (α : Type) : Type := Directory → Except String α × Directory

instance : Monad LdapM where
  pure a := fun s => (Except.ok a, s)
  bind x f := fun s =>
    match x s with
    | (Except.ok a, s2) => f a s2
    | (Except.error e, s2) => (Except.error e, s2)

/-- A directory call that only reads. -/
def readOnly {α : Type} (f : Directory → Except String α) : LdapM α :=
  fun s => (f s, s)

/-- A directory call that fails outright. -/
def ldapError {α : Type} (e : String) : LdapM α := fun s => (Except.error e, s)

/-- Lifting a pure `Except` computation (used for the pure DN-parsing
helper, whose failure aborts the enclosing operation). -/
def liftE {α : Type} (r : Except String α) : LdapM α := fun s => (r, s)

/-- First group object stored at the given DN. -/
def findGroup? (s : Directory) (dn : String) : Option GroupEntry :=
  s.groups.find? (fun g => g.dn == dn)

/-- Rewriting the member list of every group stored at `dn`. -/
def updateMembers (s : Directory) (dn : String) (f : List String → List String) : Directory :=
  ⟨s.groups.map (fun g => if g.dn = dn then ⟨g.cn, g.ou, g.gid, f g.members⟩ else g),
    s.ous, s.users⟩

namespace ldap

/-- internal/ldap/ldap.go ConvertDNToObjectName: first `,`-component,
then the part after `=` (exactly two `=`-parts required). -/
def ConvertDNToObjectName (dn : String) : Except String String :=
  let parts := stringsSplit dn ','
  match parts with
  | [] => Except.error "invalid DN format"
  | head :: _ =>
    let hparts := stringsSplit head '='
    if hparts.length = 2 then Except.ok (hparts.getD 1 "")
    else Except.error "invalid DN format"

/-- internal/ldap/ldap.go UserInGroup: base-scope search of the group
object filtered on the member value; searching a missing DN is an LDAP
error that the function propagates. -/
def UserInGroup (groupDN userDN : String) : LdapM Bool :=
  readOnly fun s =>
    match findGroup? s groupDN with
    | none => Except.error ("failed to search LDAP: " ++ groupDN)
    | some g => Except.ok (g.members.contains userDN)

/-- internal/ldap/ldap.go AddUserToGroup: a modify-add of the member
value; the server rejects a duplicate value with EntryAlreadyExists,
which the client treats as success, so the net effect is a set-insert. -/
def AddUserToGroup (groupDN userDN : String) : LdapM Unit := fun s =>
  match findGroup? s groupDN with
  | none => (Except.error ("failed to add user " ++ userDN ++ " to group " ++ groupDN), s)
  | some g =>
    if g.members.contains userDN then (Except.ok (), s)
    else (Except.ok (), updateMembers s groupDN (fun m => m ++ [userDN]))

/-- internal/ldap/ldap.go RemoveUserFromGroup: a modify-delete of the
member value; deleting a value that is not present is an LDAP error that
the function propagates. -/
def RemoveUserFromGroup (groupDN userDN : String) : LdapM Unit := fun s =>
  match findGroup? s groupDN with
  | none => (Except.error ("failed to remove user " ++ userDN ++ " from group " ++ groupDN), s)
  | some g =>
    if g.members.contains userDN then
      (Except.ok (), updateMembers s groupDN (fun m => m.erase userDN))
    else (Except.error ("failed to remove user " ++ userDN ++ " from group " ++ groupDN), s)

/-- internal/ldap/ldap.go GetGroupMemberDNs. -/
def GetGroupMemberDNs (groupDN : String) : LdapM (List String) :=
  readOnly fun s =>
    match findGroup? s groupDN with
    | none => Except.error ("group " ++ groupDN ++ " not found")
    | some g => Except.ok g.members

/-- internal/ldap/ldap.go GetGroupMemberUsernames: member DNs resolved to
object names; the first malformed member DN aborts. -/
def GetGroupMemberUsernames (groupDN : String) : LdapM (List String) :=
  readOnly fun s =>
    match findGroup? s groupDN with
    | none => Except.error ("group " ++ groupDN ++ " not found")
    | some g => g.members.mapM ConvertDNToObjectName

/-- internal/ldap/ldap.go GetGroupsForUser: the memberOf attribute of the
user object, i.e. the DNs of the groups holding the user. -/
def GetGroupsForUser (userDN : String) : LdapM (List String) :=
  readOnly fun s =>
    if (s.users.map Prod.snd).contains userDN then
      Except.ok ((s.groups.filter (fun g => g.members.contains userDN)).map GroupEntry.dn)
    else Except.error ("user " ++ userDN ++ " not found")

/-- internal/ldap/ldap.go GetUserDN: sAMAccountName search under the
users base, first match. -/
def GetUserDN (username : String) : LdapM String :=
  readOnly fun s =>
    match s.users.find? (fun p => p.1 == username) with
    | none => Except.error ("user " ++ username ++ " not found")
    | some p => Except.ok p.2

/-- internal/ldap/ldap.go GetGroupDN: cn search under the groups base;
absence is reported through the boolean, not as an error. -/
def GetGroupDN (groupname : String) : LdapM (String × Bool) :=
  readOnly fun s =>
    match s.groups.find? (fun g => g.cn == groupname) with
    | none => Except.ok ("", false)
    | some g => Except.ok (g.dn, true)

/-- internal/ldap/ldap.go DNExists. -/
def DNExists (dn : String) : LdapM Bool :=
  readOnly fun s =>
    Except.ok (s.ous.contains dn || s.groups.any (fun g => g.dn == dn)
      || (s.users.map Prod.snd).contains dn)

/-- internal/ldap/ldap.go GetGroupDNsInOU (single-level scope: the groups
whose parent container is the given OU). -/
def GetGroupDNsInOU (ouDN : String) : LdapM (List String) :=
  readOnly fun s =>
    Except.ok ((s.groups.filter (fun g => g.ou == ouDN)).map GroupEntry.dn)

/-- Appending a fresh OU object (the add request of CreateOU). -/
def addOU (dn : String) : LdapM Unit := fun s =>
  (Except.ok (), ⟨s.groups, s.ous ++ [dn], s.users⟩)

/-- Appending a fresh group object (the add request of CreateGroup). -/
def addGroup (g : GroupEntry) : LdapM Unit := fun s =>
  (Except.ok (), ⟨s.groups ++ [g], s.ous, s.users⟩)

/-- internal/ldap/ldap.go CreateOU: skipped silently when the DN already
exists. -/
def CreateOU (baseDN name : String) : LdapM Unit := do
  let ouDN := "OU=" ++ name ++ "," ++ baseDN
  let ex ← DNExists ouDN
  if ex then pure () else addOU ouDN

/-- internal/ldap/ldap.go CreateGroup: skipped silently when the DN
already exists; otherwise a new group with the given gidNumber and no
members. -/
def CreateGroup (baseDN name : String) (gidNumber : Int) : LdapM Unit := do
  let groupDN := "CN=" ++ name ++ "," ++ baseDN
  let ex ← DNExists groupDN
  if ex then pure () else addGroup ⟨name, baseDN, gidNumber, []⟩

/-- internal/ldap/ldap.go DeleteOURecursively: subtree delete; deleting a
missing DN is an LDAP error. -/
def DeleteOURecursively (dn : String) : LdapM Unit := fun s =>
  let inSub : String → Bool := fun x => x == dn || ("," ++ dn).data.isSuffixOf x.data
  if s.ous.contains dn || s.groups.any (fun g => g.dn == dn) then
    (Except.ok (),
      ⟨s.groups.filter (fun g => !(inSub g.dn)), s.ous.filter (fun o => !(inSub o)), s.users⟩)
  else (Except.error ("failed to delete OU " ++ dn), s)

/-- internal/ldap/ldap.go DeleteGroup: deleting a missing DN is an LDAP
error. -/
def DeleteGroup (groupDN : String) : LdapM Unit := fun s =>
  if s.groups.any (fun g => g.dn == groupDN) then
    (Except.ok (), ⟨s.groups.filter (fun g => !(g.dn == groupDN)), s.ous, s.users⟩)
  else (Except.error ("failed to delete group " ++ groupDN), s)

/-- internal/ldap/gid.go GetNextGidNumber: highest gidNumber over all
directory groups under the groups base (every group tracked here carries
one), starting from 0; exhaustion is checked against the highest value
itself, then the successor is checked against the minimum. -/
def GetNextGidNumber (cfg : Config) : LdapM Int :=
  readOnly fun s =>
    let highestGid := s.groups.foldl (fun h g => if g.gid > h then g.gid else h) 0
    if highestGid ≥ cfg.LDAPMaxGid then Except.error "no available GID numbers"
    else
      let nextGid := highestGid + 1
      if nextGid < cfg.LDAPMinGid then
        Except.error "next GID number is less than minimum GID number"
      else Except.ok nextGid

end ldap

/-! The three loop shapes that appear inline in the Go module functions,
written as recursive helpers over the pre-fetched lists they range over. -/

/-- The subgroup cascade of PirgRemoveMember / CephfsRemoveMember: for
each listed group, remove the user when present, continue otherwise. -/
def removeUserFromEach (userDN : String) : List String → LdapM Unit
  | [] => pure ()
  | subgroupDN :: rest => do
    let inG ← ldap.UserInGroup subgroupDN userDN
    if inG then do
      ldap.RemoveUserFromGroup subgroupDN userDN
      removeUserFromEach userDN rest
    else removeUserFromEach userDN rest

/-- The owner-clearing loop of PirgSetPI / CEPHFSSetOWNER: remove every
listed member DN from the group, unconditionally. -/
def removeEachMemberFrom (groupDN : String) : List String → LdapM Unit
  | [] => pure ()
  | memberDN :: rest => do
    ldap.RemoveUserFromGroup groupDN memberDN
    removeEachMemberFrom groupDN rest

/-- The loop of userInAnyPIRG / userInAnyCEPHFS over the user's groups:
true as soon as one group name carries the module prefix. -/
def anyGroupWithPfx (pfx : String) : List String → LdapM Bool
  | [] => pure false
  | groupDN :: rest => do
    let name ← liftE (ldap.ConvertDNToObjectName groupDN)
    if hasPfx name pfx then pure true else anyGroupWithPfx pfx rest

/-- The loop of userIsAdminInAnyPIRG / userIsAdminInAnyCEPHFS: for each
group of the user carrying the prefix and naming an entity (no further
dot), check the user against that entity's admins group. -/
def anyAdminGroupWithPfx (pfx : String) (adminsDnOf : String → String) (userDN : String) :
    List String → LdapM Bool
  | [] => pure false
  | groupDN :: rest => do
    let name ← liftE (ldap.ConvertDNToObjectName groupDN)
    if hasPfx name pfx then
      let entName := trimPfx name pfx
      if containsChar entName '.' then anyAdminGroupWithPfx pfx adminsDnOf userDN rest
      else do
        let inG ← ldap.UserInGroup (adminsDnOf entName) userDN
        if inG then pure true else anyAdminGroupWithPfx pfx adminsDnOf userDN rest
    else anyAdminGroupWithPfx pfx adminsDnOf userDN rest

namespace pirg

/-- internal/pirg/pirg.go package variable groupPrefix. -/
def groupPrefixStr : String := "is.racs.pirg."

/-- internal/pirg/pirg.go package variable topLevelUsersGroupDN. -/
def topLevelUsersGroupDN : String :=
  "CN=IS.RACS.Talapas.Users,OU=RACS,OU=Groups,OU=IS,OU=Units,DC=ad,DC=uoregon,DC=edu"

/-- internal/pirg/pirg.go package variable topLevelAdminsGroupDN. -/
def topLevelAdminsGroupDN : String :=
  "CN=IS.RACS.Talapas.PirgAdmins,OU=RACS,OU=Groups,OU=IS,OU=Units,DC=ad,DC=uoregon,DC=edu"

/-- internal/pirg/pirg.go getPIRGFullName (the nil-config error path of the
Go function cannot arise here, so the result is the derived name). -/
def getPIRGFullName (pirgName : String) : String := groupPrefixStr ++ pirgName

/-- internal/pirg/pirg.go getPIRGAdminsGroupFullName. -/
def getPIRGAdminsGroupFullName (pirgName : String) : String :=
  groupPrefixStr ++ pirgName ++ ".admins"

/-- internal/pirg/pirg.go getPIRGPIGroupFullName. -/
def getPIRGPIGroupFullName (pirgName : String) : String :=
  groupPrefixStr ++ pirgName ++ ".pi"

/-- internal/pirg/pirg.go getPIRGOUDN. -/
def getPIRGOUDN (cfg : Config) (name : String) : String :=
  "OU=" ++ name ++ "," ++ cfg.LDAPPirgDN

/-- internal/pirg/pirg.go getPIRGDN. -/
def getPIRGDN (cfg : Config) (name : String) : String :=
  "CN=" ++ getPIRGFullName name ++ "," ++ getPIRGOUDN cfg name

/-- internal/pirg/pirg.go getPIRGSubgroupOUDN. -/
def getPIRGSubgroupOUDN (cfg : Config) (pirgName : String) : String :=
  "OU=Groups," ++ getPIRGOUDN cfg pirgName

/-- internal/pirg/pirg.go getPIRGAdminsGroupDN. -/
def getPIRGAdminsGroupDN (cfg : Config) (pirgName : String) : String :=
  "CN=" ++ getPIRGAdminsGroupFullName pirgName ++ "," ++ getPIRGOUDN cfg pirgName

/-- internal/pirg/pirg.go getPIRGPIGroupDN. -/
def getPIRGPIGroupDN (cfg : Config) (pirgName : String) : String :=
  "CN=" ++ getPIRGPIGroupFullName pirgName ++ "," ++ getPIRGOUDN cfg pirgName

/-- internal/pirg/pirg.go getPIRGSubgroupName. -/
def getPIRGSubgroupName (pirgName subgroupName : String) : String :=
  getPIRGFullName pirgName ++ "." ++ subgroupName

/-- internal/pirg/pirg.go ConvertPIRGGroupNametoShortName: last
dot-delimited component. -/
def ConvertPIRGGroupNametoShortName (pirgName : String) : Except String String :=
  let parts := stringsSplit pirgName '.'
  match parts with
  | [] => Except.error ("invalid PIRG group name: " ++ pirgName)
  | p :: ps => Except.ok ((p :: ps).getLast (List.cons_ne_nil p ps))

/-- internal/pirg/pirg.go getUserDN (module-level wrapper that treats an
empty DN as not-found). -/
def getUserDN (name : String) : LdapM String := do
  let dn ← ldap.GetUserDN name
  if dn = "" then ldapError ("user " ++ name ++ " not found") else pure dn

/-- internal/pirg/pirg.go findPIRGDN: cn lookup of the derived full name;
absence reported through the boolean. -/
def findPIRGDN (cfg : Config) (name : String) : LdapM (String × Bool) :=
  ldap.GetGroupDN (getPIRGFullName name)

/-- internal/pirg/pirg.go addUserToTopLevelUsersGroup. -/
def addUserToTopLevelUsersGroup (member : String) : LdapM Unit := do
  let userDN ← getUserDN member
  let inGroup ← ldap.UserInGroup topLevelUsersGroupDN userDN
  if inGroup then pure ()
  else ldap.AddUserToGroup topLevelUsersGroupDN userDN

/-- internal/pirg/pirg.go addUsertoTopLevelAdminsGroup. -/
def addUsertoTopLevelAdminsGroup (member : String) : LdapM Unit := do
  let userDN ← getUserDN member
  let inGroup ← ldap.UserInGroup topLevelAdminsGroupDN userDN
  if inGroup then pure ()
  else ldap.AddUserToGroup topLevelAdminsGroupDN userDN

/-- internal/pirg/pirg.go removeUserFromTopLevelUsersGroup. -/
def removeUserFromTopLevelUsersGroup (member : String) : LdapM Unit := do
  let userDN ← getUserDN member
  let inGroup ← ldap.UserInGroup topLevelUsersGroupDN userDN
  if inGroup then ldap.RemoveUserFromGroup topLevelUsersGroupDN userDN
  else pure ()

/-- internal/pirg/pirg.go removeUserFromTopLevelAdminsGroup. -/
def removeUserFromTopLevelAdminsGroup (member : String) : LdapM Unit := do
  let userDN ← getUserDN member
  let inGroup ← ldap.UserInGroup topLevelAdminsGroupDN userDN
  if inGroup then ldap.RemoveUserFromGroup topLevelAdminsGroupDN userDN
  else pure ()

/-- internal/pirg/pirg.go userInAnyPIRG. -/
def userInAnyPIRG (username : String) : LdapM Bool := do
  let userDN ← getUserDN username
  let userGroups ← ldap.GetGroupsForUser userDN
  anyGroupWithPfx groupPrefixStr userGroups

/-- internal/pirg/pirg.go userIsAdminInAnyPIRG. -/
def userIsAdminInAnyPIRG (cfg : Config) (username : String) : LdapM Bool := do
  let userDN ← getUserDN username
  let userGroups ← ldap.GetGroupsForUser userDN
  anyAdminGroupWithPfx groupPrefixStr (getPIRGAdminsGroupDN cfg) userDN userGroups

/-- internal/pirg/pirg.go PirgSetPI: clear the PI group, then add the new
PI to the PIRG group, the PI group, and the admins group. -/
def PirgSetPI (cfg : Config) (pirgName piUsername : String) : LdapM Unit := do
  let pirgDN := getPIRGDN cfg pirgName
  let piDN ← getUserDN piUsername
  let pirgPIGroupDN := getPIRGPIGroupDN cfg pirgName
  let existingMemberDNs ← ldap.GetGroupMemberDNs pirgPIGroupDN
  removeEachMemberFrom pirgPIGroupDN existingMemberDNs
  ldap.AddUserToGroup pirgDN piDN
  ldap.AddUserToGroup pirgPIGroupDN piDN
  let pirgAdminsGroupDN := getPIRGAdminsGroupDN cfg pirgName
  ldap.AddUserToGroup pirgAdminsGroupDN piDN

/-- internal/pirg/pirg.go PirgAddMember. -/
def PirgAddMember (cfg : Config) (pirgName member : String) : LdapM Unit := do
  let pirgDN := getPIRGDN cfg pirgName
  let userDN ← getUserDN member
  let inGroup ← ldap.UserInGroup pirgDN userDN
  if inGroup then pure ()
  else do
    ldap.AddUserToGroup pirgDN userDN
    addUserToTopLevelUsersGroup member

/-- internal/pirg/pirg.go PirgAddAdmin. -/
def PirgAddAdmin (cfg : Config) (pirgName adminUsername : String) : LdapM Unit := do
  let adminGroupDN := getPIRGAdminsGroupDN cfg pirgName
  let userDN ← getUserDN adminUsername
  let fr ← findPIRGDN cfg pirgName
  if !fr.2 then ldapError ("PIRG " ++ pirgName ++ " not found")
  else do
    let inPIRG ← ldap.UserInGroup fr.1 userDN
    if !inPIRG then
      ldapError ("user " ++ adminUsername ++ " is not a member of PIRG " ++ pirgName)
    else do
      let inAdminsGroup ← ldap.UserInGroup adminGroupDN userDN
      if inAdminsGroup then pure ()
      else do
        ldap.AddUserToGroup adminGroupDN userDN
        addUsertoTopLevelAdminsGroup adminUsername

/-- internal/pirg/pirg.go PirgRemoveMember: membership check, PI guard,
cascade through primary group, subgroups and admins group, then the
top-level roster demotion. -/
def PirgRemoveMember (cfg : Config) (name member : String) : LdapM Unit := do
  let pirgDN := getPIRGDN cfg name
  let userDN ← getUserDN member
  let inGroup ← ldap.UserInGroup pirgDN userDN
  if !inGroup then pure ()
  else do
    let pirgPIGroupDN := getPIRGPIGroupDN cfg name
    let isPI ← ldap.UserInGroup pirgPIGroupDN userDN
    if isPI then
      ldapError ("user " ++ member ++ " is the PI of PIRG " ++ name ++
        ", cannot remove without setting a new PI")
    else do
      ldap.RemoveUserFromGroup pirgDN userDN
      let pirgSubgroupOUDN := getPIRGSubgroupOUDN cfg name
      let subgroups ← ldap.GetGroupDNsInOU pirgSubgroupOUDN
      removeUserFromEach userDN subgroups
      let pirgAdminsGroupDN := getPIRGAdminsGroupDN cfg name
      let isAdmin ← ldap.UserInGroup pirgAdminsGroupDN userDN
      if isAdmin then ldap.RemoveUserFromGroup pirgAdminsGroupDN userDN else pure ()
      let isPI2 ← ldap.UserInGroup pirgPIGroupDN userDN
      if isPI2 then ldap.RemoveUserFromGroup pirgPIGroupDN userDN else pure ()
      let adminInAnyPIRG ← userIsAdminInAnyPIRG cfg member
      if !adminInAnyPIRG then removeUserFromTopLevelAdminsGroup member else pure ()
      let inAnyPIRG ← userInAnyPIRG member
      if !inAnyPIRG then removeUserFromTopLevelUsersGroup member else pure ()

/-- internal/pirg/pirg.go PirgCreate: no-op when the PIRG exists; one gid
allocation, the two OUs, the three groups at gid, gid+1, gid+2, then
PirgSetPI, PirgAddAdmin, PirgAddMember for the PI. -/
def PirgCreate (cfg : Config) (pirgName piUsername : String) : LdapM Unit := do
  let fr ← findPIRGDN cfg pirgName
  if fr.2 then pure ()
  else do
    let gidNumber ← ldap.GetNextGidNumber cfg
    let allPirgsDN := cfg.LDAPPirgDN
    ldap.CreateOU allPirgsDN pirgName
    let pirgOUDN := getPIRGOUDN cfg pirgName
    ldap.CreateOU pirgOUDN "Groups"
    ldap.CreateGroup pirgOUDN (getPIRGFullName pirgName) gidNumber
    ldap.CreateGroup pirgOUDN (getPIRGAdminsGroupFullName pirgName) (gidNumber + 1)
    ldap.CreateGroup pirgOUDN (getPIRGPIGroupFullName pirgName) (gidNumber + 2)
    PirgSetPI cfg pirgName piUsername
    PirgAddAdmin cfg pirgName piUsername
    PirgAddMember cfg pirgName piUsername

/-- internal/pirg/pirg.go PirgDelete: no-op when absent; refuses when the
PIRG group has more than one member; otherwise recursive delete of the
PIRG OU. -/
def PirgDelete (cfg : Config) (pirgName : String) : LdapM Unit := do
  let pirgOUDN := getPIRGOUDN cfg pirgName
  let fr ← findPIRGDN cfg pirgName
  if !fr.2 then pure ()
  else do
    let members ← ldap.GetGroupMemberUsernames fr.1
    if members.length > 1 then
      ldapError ("PIRG " ++ pirgName ++ " has non-PI members, cannot delete")
    else ldap.DeleteOURecursively pirgOUDN

end pirg

namespace cephfs

/-- internal/cephfs/cephfs.go package variable groupPrefix. -/
def groupPrefixStr : String := "is.racs.cephfs."

/-- internal/cephfs/cephfs.go package variable topLevelUsersGroupDN. -/
def topLevelUsersGroupDN : String :=
  "CN=IS.RACS.Talapas.Users,OU=RACS,OU=Groups,OU=IS,OU=Units,DC=ad,DC=uoregon,DC=edu"

/-- internal/cephfs/cephfs.go package variable topLevelAdminsGroupDN. -/
def topLevelAdminsGroupDN : String :=
  "CN=IS.RACS.Talapas.CephAdmins,OU=RACS,OU=Groups,OU=IS,OU=Units,DC=ad,DC=uoregon,DC=edu"

/-- internal/cephfs/cephfs.go getCEPHFSFullName. -/
def getCEPHFSFullName (cephfsName : String) : String := groupPrefixStr ++ cephfsName

/-- internal/cephfs/cephfs.go getCEPHFSAdminsGroupFullName. -/
def getCEPHFSAdminsGroupFullName (cephfsName : String) : String :=
  groupPrefixStr ++ cephfsName ++ ".admins"

/-- internal/cephfs/cephfs.go getCEPHFSOWNERGroupFullName. -/
def getCEPHFSOWNERGroupFullName (cephfsName : String) : String :=
  groupPrefixStr ++ cephfsName ++ ".owner"

/-- internal/cephfs/cephfs.go getCEPHFSOUDN. -/
def getCEPHFSOUDN (cfg : Config) (name : String) : String :=
  "OU=" ++ name ++ "," ++ cfg.LDAPCephfsDN

/-- internal/cephfs/cephfs.go getCEPHFSDN. -/
def getCEPHFSDN (cfg : Config) (name : String) : String :=
  "CN=" ++ getCEPHFSFullName name ++ "," ++ getCEPHFSOUDN cfg name

/-- internal/cephfs/cephfs.go getCEPHFSSubgroupOUDN. -/
def getCEPHFSSubgroupOUDN (cfg : Config) (cephfsName : String) : String :=
  "OU=Groups," ++ getCEPHFSOUDN cfg cephfsName

/-- internal/cephfs/cephfs.go getCEPHFSAdminsGroupDN. -/
def getCEPHFSAdminsGroupDN (cfg : Config) (cephfsName : String) : String :=
  "CN=" ++ getCEPHFSAdminsGroupFullName cephfsName ++ "," ++ getCEPHFSOUDN cfg cephfsName

/-- internal/cephfs/cephfs.go getCEPHFSOWNERGroupDN. -/
def getCEPHFSOWNERGroupDN (cfg : Config) (cephfsName : String) : String :=
  "CN=" ++ getCEPHFSOWNERGroupFullName cephfsName ++ "," ++ getCEPHFSOUDN cfg cephfsName

/-- internal/cephfs/cephfs.go getUserDN (same wrapper as the pirg module). -/
def getUserDN (name : String) : LdapM String := do
  let dn ← ldap.GetUserDN name
  if dn = "" then ldapError ("user " ++ name ++ " not found") else pure dn

/-- internal/cephfs/cephfs.go CEPHFSSetOWNER: clear the Owner group, then
add the new owner to the CEPHFS group, the Owner group, and the admins
group. -/
def CEPHFSSetOWNER (cfg : Config) (cephfsName ownerUsername : String) : LdapM Unit := do
  let cephDN := getCEPHFSDN cfg cephfsName
  let ownerDN ← getUserDN ownerUsername
  let cephfsOwnerGroupDN := getCEPHFSOWNERGroupDN cfg cephfsName
  let existingMemberDNs ← ldap.GetGroupMemberDNs cephfsOwnerGroupDN
  removeEachMemberFrom cephfsOwnerGroupDN existingMemberDNs
  ldap.AddUserToGroup cephDN ownerDN
  ldap.AddUserToGroup cephfsOwnerGroupDN ownerDN
  let cephfsAdminsGroupDN := getCEPHFSAdminsGroupDN cfg cephfsName
  ldap.AddUserToGroup cephfsAdminsGroupDN ownerDN

/-- internal/cephfs/cephfs.go CephfsRemoveMember: same cascade as the pirg
module (membership check, Owner guard, primary group, subgroups, admins
group, then a second Owner-group removal); the whole top-level roster
demotion block is commented out in the source, so the operation ends after
the Owner-group step. -/
def CephfsRemoveMember (cfg : Config) (name member : String) : LdapM Unit := do
  let cephfsDN := getCEPHFSDN cfg name
  let userDN ← getUserDN member
  let inGroup ← ldap.UserInGroup cephfsDN userDN
  if !inGroup then pure ()
  else do
    let cephfsOWNERGroupDN := getCEPHFSOWNERGroupDN cfg name
    let isOwner ← ldap.UserInGroup cephfsOWNERGroupDN userDN
    if isOwner then
      ldapError ("user " ++ member ++ " is the Owner of cephfs " ++ name ++
        ", cannot remove without setting a new Owner")
    else do
      ldap.RemoveUserFromGroup cephfsDN userDN
      let cephfsSubgroupOUDN := getCEPHFSSubgroupOUDN cfg name
      let subgroups ← ldap.GetGroupDNsInOU cephfsSubgroupOUDN
      removeUserFromEach userDN subgroups
      let cephfsAdminsGroupDN := getCEPHFSAdminsGroupDN cfg name
      let isAdmin ← ldap.UserInGroup cephfsAdminsGroupDN userDN
      if isAdmin then ldap.RemoveUserFromGroup cephfsAdminsGroupDN userDN else pure ()
      let isOwner2 ← ldap.UserInGroup cephfsOWNERGroupDN userDN
      if isOwner2 then ldap.RemoveUserFromGroup cephfsOWNERGroupDN userDN else pure ()

end cephfs

namespace software

/-- internal/software/software.go package variable groupPrefix. -/
def groupPrefixStr : String := "is.racs.software."

/-- internal/software/software.go getSOFTWAREFullName. -/
def getSOFTWAREFullName (swName : String) : String := groupPrefixStr ++ swName

/-- internal/software/software.go findSWDN: cn lookup of the derived full
name. -/
def findSWDN (cfg : Config) (name : String) : LdapM (String × Bool) :=
  ldap.GetGroupDN (getSOFTWAREFullName name)

/-- internal/software/software.go SoftwareDelete: no-op when absent;
refuses when the group has any member; otherwise the group object is
deleted.  The source spells the member-lookup DN with a lowercase
attribute name (`cn=...`); Active Directory compares DNs
case-insensitively, so it is normalized to the `CN=` spelling used
everywhere else in this embedding. -/
def SoftwareDelete (cfg : Config) (softwareName : String) : LdapM Unit := do
  let fr ← findSWDN cfg softwareName
  if !fr.2 then pure ()
  else do
    let baseDN := cfg.LDAPSoftwareDN
    let fullName := getSOFTWAREFullName softwareName
    let fullNameCN := "CN=" ++ fullName ++ "," ++ baseDN
    let members ← ldap.GetGroupMemberUsernames fullNameCN
    if members.length > 0 then
      ldapError ("software group is not empty. There are " ++ toString members.length ++
        " members. Please remove all members and try again")
    else ldap.DeleteGroup fr.1

end software

/-! Well-formedness predicates used as hypotheses of the general theorems. -/

/-- A string free of commas (a common name that parses back out of a DN). -/
def noComma (s : String) : Prop := ',' ∉ s.data

/-- A valid entity short name in the sense of the naming convention:
nonempty and drawn from `[A-Za-z0-9_-]`. -/
def validShortName (s : String) : Prop :=
  s.data ≠ [] ∧ ∀ c ∈ s.data, c.isAlphanum = true ∨ c = '_' ∨ c = '-'

/-- A tidy directory: every group's common name parses back out of its DN
(no comma, no equals sign) and member lists are duplicate-free, as the
directory server itself guarantees for attribute values. -/
def TidyDir (s : Directory) : Prop :=
  ∀ g ∈ s.groups, noComma g.cn ∧ '=' ∉ g.cn.data ∧ g.members.Nodup

instance (s : String) : Decidable (noComma s) := by
  unfold noComma; infer_instance

instance (s : String) : Decidable (validShortName s) := by
  unfold validShortName; infer_instance

instance (s : Directory) : Decidable (TidyDir s) := by
  unfold TidyDir noComma; infer_instance

/-- Frame relation: `s'` differs from `s` at most in the member lists of
the groups whose DNs are listed in `touched`. -/
def FrameEq (s s' : Directory) (touched : List String) : Prop :=
  s'.ous = s.ous ∧ s'.users = s.users ∧
    ∀ dn, dn ∉ touched → findGroup? s' dn = findGroup? s dn

/-- A user belongs to some group whose common name carries the given
naming prefix (the semantic content of userInAnyPIRG's scan). -/
def inSomePfxGroup (s : Directory) (pfx userDN : String) : Prop :=
  ∃ g ∈ s.groups, g.members.contains userDN = true ∧ hasPfx g.cn pfx = true

/-- A user belongs to some prefix-named entity group whose short name is
dot-free and whose admins group also holds the user (the semantic content
of userIsAdminInAnyPIRG's scan). -/
def adminOfSomePfxGroup (s : Directory) (pfx : String) (adminsDnOf : String → String)
    (userDN : String) : Prop :=
  ∃ g ∈ s.groups, g.members.contains userDN = true ∧ hasPfx g.cn pfx = true ∧
    containsChar (trimPfx g.cn pfx) '.' = false ∧
    ∃ ga, findGroup? s (adminsDnOf (trimPfx g.cn pfx)) = some ga ∧
      ga.members.contains userDN = true

/-- The highest gid scanned by the allocator (0 when no group carries a
larger one), as computed by GetNextGidNumber's loop. -/
def highestGid (s : Directory) : Int :=
  s.groups.foldl (fun h g => if g.gid > h then g.gid else h) 0

/-! Concrete fixtures used by counterexamples and witnesses. -/

/-- A configuration with gid range `[1000, 2000)` for the allocator
counterexample. -/
def gidCfgCX : Config := ⟨"UB", "GB", "PB", "CB", "SB", 1000, 2000⟩

/-- A directory whose highest allocated gid is 1999. -/
def gidDirCX : Directory := ⟨[⟨"is.racs.pirg.old", "OU=old,PB", 1999, []⟩], [], []⟩

/-- DN of the fixture user alice. -/
def aliceDN : String := "CN=alice,OU=people,UB"

/-- DN of the fixture user bob. -/
def bobDN : String := "CN=bob,OU=people,UB"

/-- Fixture configuration. -/
def cfgW : Config := ⟨"UB", "GB", "OU=PIRGS,GB", "OU=CEPH,GB", "OU=SW,GB", 1000, 2000⟩

/-- Roster container DN used by the top-level groups. -/
def rosterOU : String := "OU=RACS,OU=Groups,OU=IS,OU=Units,DC=ad,DC=uoregon,DC=edu"

/-- Fixture directory: PIRG acme (owner alice, admin+member bob, two
subgroups), CEPHFS vault (owner alice, admin+member bob, two subgroups),
and the two top-level roster groups holding both users. -/
def dirW : Directory :=
  ⟨[⟨"is.racs.pirg.acme", "OU=acme,OU=PIRGS,GB", 1500, [aliceDN, bobDN]⟩,
    ⟨"is.racs.pirg.acme.admins", "OU=acme,OU=PIRGS,GB", 1501, [aliceDN, bobDN]⟩,
    ⟨"is.racs.pirg.acme.pi", "OU=acme,OU=PIRGS,GB", 1502, [aliceDN]⟩,
    ⟨"is.racs.pirg.acme.lab", "OU=Groups,OU=acme,OU=PIRGS,GB", 1503, [bobDN]⟩,
    ⟨"is.racs.pirg.acme.sim", "OU=Groups,OU=acme,OU=PIRGS,GB", 1504, []⟩,
    ⟨"is.racs.cephfs.vault", "OU=vault,OU=CEPH,GB", 1600, [aliceDN, bobDN]⟩,
    ⟨"is.racs.cephfs.vault.admins", "OU=vault,OU=CEPH,GB", 1601, [aliceDN, bobDN]⟩,
    ⟨"is.racs.cephfs.vault.owner", "OU=vault,OU=CEPH,GB", 1602, [aliceDN]⟩,
    ⟨"is.racs.cephfs.vault.s1", "OU=Groups,OU=vault,OU=CEPH,GB", 1603, [bobDN]⟩,
    ⟨"is.racs.cephfs.vault.s2", "OU=Groups,OU=vault,OU=CEPH,GB", 1604, []⟩,
    ⟨"IS.RACS.Talapas.Users", rosterOU, 900, [aliceDN, bobDN]⟩,
    ⟨"IS.RACS.Talapas.PirgAdmins", rosterOU, 901, [aliceDN, bobDN]⟩,
    ⟨"IS.RACS.Talapas.CephAdmins", rosterOU, 902, [aliceDN, bobDN]⟩],
   ["OU=PIRGS,GB", "OU=CEPH,GB", "OU=acme,OU=PIRGS,GB", "OU=Groups,OU=acme,OU=PIRGS,GB",
    "OU=vault,OU=CEPH,GB", "OU=Groups,OU=vault,OU=CEPH,GB"],
   [("alice", aliceDN), ("bob", bobDN)]⟩

/-- Fixture for the delete guard: PIRG acme whose primary group holds a
single member who is not the PI. -/
def dirD : Directory :=
  ⟨[⟨"is.racs.pirg.acme", "OU=acme,OU=PIRGS,GB", 1500, [bobDN]⟩,
    ⟨"is.racs.pirg.acme.admins", "OU=acme,OU=PIRGS,GB", 1501, [aliceDN]⟩,
    ⟨"is.racs.pirg.acme.pi", "OU=acme,OU=PIRGS,GB", 1502, [aliceDN]⟩],
   ["OU=PIRGS,GB", "OU=acme,OU=PIRGS,GB", "OU=Groups,OU=acme,OU=PIRGS,GB"],
   [("alice", aliceDN), ("bob", bobDN)]⟩

/-- Fixture for the creation gid bounds: one existing group at gid 1999
just under the configured maximum 2000, and a user to appoint as PI. -/
def dirC : Directory :=
  ⟨[⟨"is.racs.pirg.old", "OU=old,OU=PIRGS,GB", 1999, []⟩],
   ["OU=PIRGS,GB"],
   [("alice", aliceDN)]⟩

/-- The net effect of the directory's modify-add of a member value:
membership as a set-insert. -/
def addMem (m : List String) (u : String) : List String :=
  if u ∈ m then m else m ++ [u]

/-- The fourth character of a string (used to separate the lowercase
`CN=is.racs.`-derived DNs from the uppercase `CN=IS.RACS.` roster DNs). -/
def char3 (s : String) : Char :=
  match s.data with
  | _ :: _ :: _ :: c :: _ => c
  | _ => ' '

/-- One state evolved from another by member-list changes only, each
group keeping its name, container, gid and at most its old members. -/
def ShrinkOf (s s' : Directory) : Prop :=
  s'.ous = s.ous ∧ s'.users = s.users ∧
  ∃ F : GroupEntry → GroupEntry, s'.groups = s.groups.map F ∧
    ∀ g, (F g).cn = g.cn ∧ (F g).ou = g.ou ∧ (F g).gid = g.gid ∧ (F g).members ⊆ g.members

/-- One state evolved from another by member-list rewrites only: the
group list is a pointwise image keeping each group's name, container and
gid; OUs and users are untouched. -/
def EvolveOf (s s' : Directory) : Prop :=
  s'.ous = s.ous ∧ s'.users = s.users ∧
  ∃ F : GroupEntry → GroupEntry, s'.groups = s.groups.map F ∧
    ∀ g, (F g).cn = g.cn ∧ (F g).ou = g.ou ∧ (F g).gid = g.gid

/-- A DN entirely absent from the directory: no OU, group or user object
carries it (what a false DNExists probe certifies). -/
def freshDN (s : Directory) (d : String) : Prop :=
  d ∉ s.ous ∧ (∀ g ∈ s.groups, g.dn ≠ d) ∧ d ∉ s.users.map Prod.snd

instance (s : Directory) (d : String) : Decidable (freshDN s d) := by
  unfold freshDN
  infer_instance

/-- The admins-group membership probe performed per candidate entity by
the userIsAdminInAny* scans. -/
def adminProbe (s : Directory) (adminsDnOf : String → String) (u : String) (n : String) : Bool :=
  match findGroup? s (adminsDnOf n) with
  | some ga => ga.members.contains u
  | none => false

instance (s : Directory) (pfx userDN : String) : Decidable (inSomePfxGroup s pfx userDN) := by
  unfold inSomePfxGroup; infer_instance

instance (s : Directory) (pfx : String) (adminsDnOf : String → String) (userDN : String) :
    Decidable (adminOfSomePfxGroup s pfx adminsDnOf userDN) := by
  unfold adminOfSomePfxGroup; infer_instance

/-! ### Lemmas -/

/-! Monad plumbing. -/

theorem run_bind {α β : Type} (x : LdapM α) (f : α → LdapM β) (s : Directory) :
    (x >>= f) s = match x s with
      | (Except.ok a, s2) => f a s2
      | (Except.error e, s2) => (Except.error e, s2) := rfl

theorem run_pure {α : Type} (a : α) (s : Directory) :
    (pure a : LdapM α) s = (Except.ok a, s) := rfl

theorem run_readOnly {α : Type} (f : Directory → Except String α) (s : Directory) :
    readOnly f s = (f s, s) := rfl

theorem run_ldapError {α : Type} (e : String) (s : Directory) :
    (ldapError e : LdapM α) s = (Except.error e, s) := rfl

theorem run_liftE {α : Type} (r : Except String α) (s : Directory) :
    liftE r s = (r, s) := rfl

/-! Group lookup and update. -/

theorem dn_mk (cn ou : String) (gid : Int) (m : List String) :
    GroupEntry.dn ⟨cn, ou, gid, m⟩ = "CN=" ++ cn ++ "," ++ ou := rfl

theorem dn_update (g : GroupEntry) (dn : String) (f : List String → List String) :
    GroupEntry.dn (if g.dn = dn then ⟨g.cn, g.ou, g.gid, f g.members⟩ else g) =
      GroupEntry.dn g := by
  by_cases h : g.dn = dn
  · rw [if_pos h]; rfl
  · rw [if_neg h]

theorem findGroup?_dn {s : Directory} {dn : String} {g : GroupEntry}
    (h : findGroup? s dn = some g) : g.dn = dn := by
  have h2 : s.groups.find? (fun g => g.dn == dn) = some g := h
  have h3 := List.find?_some h2
  simpa using h3

theorem findGroup?_updateMembers (s : Directory) (dn : String)
    (f : List String → List String) (dn' : String) :
    findGroup? (updateMembers s dn f) dn' =
      (findGroup? s dn').map
        (fun g => if g.dn = dn then ⟨g.cn, g.ou, g.gid, f g.members⟩ else g) := by
  unfold findGroup? updateMembers
  induction s.groups with
  | nil => rfl
  | cons g l ih =>
    simp only [List.map_cons, List.find?_cons, dn_update]
    by_cases h : (g.dn == dn') = true
    · simp [h]
    · simp only [h]
      simpa using ih

theorem findGroup?_updateMembers_self (s : Directory) (dn : String)
    (f : List String → List String) (g : GroupEntry) (h : findGroup? s dn = some g) :
    findGroup? (updateMembers s dn f) dn = some ⟨g.cn, g.ou, g.gid, f g.members⟩ := by
  have hdn : g.dn = dn := findGroup?_dn h
  simp [findGroup?_updateMembers, h, hdn]

theorem findGroup?_updateMembers_ne (s : Directory) (dn : String)
    (f : List String → List String) (dn' : String) (h : dn' ≠ dn) :
    findGroup? (updateMembers s dn f) dn' = findGroup? s dn' := by
  rw [findGroup?_updateMembers]
  cases hf : findGroup? s dn' with
  | none => rfl
  | some g =>
    have hdn : g.dn = dn' := findGroup?_dn hf
    simp [hdn, h]

theorem updateMembers_ous (s : Directory) (dn : String) (f : List String → List String) :
    (updateMembers s dn f).ous = s.ous := rfl

theorem updateMembers_users (s : Directory) (dn : String) (f : List String → List String) :
    (updateMembers s dn f).users = s.users := rfl

/-! Frame relation. -/

theorem frameEq_refl (s : Directory) (t : List String) : FrameEq s s t :=
  ⟨rfl, rfl, fun _ _ => rfl⟩

theorem frameEq_trans {s1 s2 s3 : Directory} {t : List String}
    (h12 : FrameEq s1 s2 t) (h23 : FrameEq s2 s3 t) : FrameEq s1 s3 t :=
  ⟨h23.1.trans h12.1, h23.2.1.trans h12.2.1,
    fun dn hdn => (h23.2.2 dn hdn).trans (h12.2.2 dn hdn)⟩

theorem frameEq_mono {s1 s2 : Directory} {t t' : List String}
    (h : FrameEq s1 s2 t) (hsub : ∀ x ∈ t, x ∈ t') : FrameEq s1 s2 t' :=
  ⟨h.1, h.2.1, fun dn hdn => h.2.2 dn (fun hx => hdn (hsub dn hx))⟩

theorem frameEq_updateMembers (s : Directory) (dn : String)
    (f : List String → List String) (t : List String) (hdn : dn ∈ t) :
    FrameEq s (updateMembers s dn f) t :=
  ⟨rfl, rfl, fun dn' hdn' =>
    findGroup?_updateMembers_ne s dn f dn' (fun h => hdn' (h ▸ hdn))⟩

/-! Run equations for the primitives, conditional on what the state holds. -/

theorem UserInGroup_run {s : Directory} {dn : String} {g : GroupEntry}
    (h : findGroup? s dn = some g) (u : String) :
    ldap.UserInGroup dn u s = (Except.ok (g.members.contains u), s) := by
  simp [ldap.UserInGroup, readOnly, h]

theorem AddUserToGroup_run_mem {s : Directory} {dn : String} {g : GroupEntry}
    (h : findGroup? s dn = some g) {u : String} (hu : u ∈ g.members) :
    ldap.AddUserToGroup dn u s = (Except.ok (), s) := by
  simp [ldap.AddUserToGroup, h, hu]

theorem AddUserToGroup_run_new {s : Directory} {dn : String} {g : GroupEntry}
    (h : findGroup? s dn = some g) {u : String} (hu : u ∉ g.members) :
    ldap.AddUserToGroup dn u s =
      (Except.ok (), updateMembers s dn (fun m => m ++ [u])) := by
  simp [ldap.AddUserToGroup, h, hu]

theorem RemoveUserFromGroup_run_mem {s : Directory} {dn : String} {g : GroupEntry}
    (h : findGroup? s dn = some g) {u : String} (hu : u ∈ g.members) :
    ldap.RemoveUserFromGroup dn u s =
      (Except.ok (), updateMembers s dn (fun m => m.erase u)) := by
  simp [ldap.RemoveUserFromGroup, h, hu]

theorem RemoveUserFromGroup_run_absent {s : Directory} {dn : String} {g : GroupEntry}
    (h : findGroup? s dn = some g) {u : String} (hu : u ∉ g.members) :
    ldap.RemoveUserFromGroup dn u s =
      (Except.error ("failed to remove user " ++ u ++ " from group " ++ dn), s) := by
  simp [ldap.RemoveUserFromGroup, h, hu]

theorem GetGroupMemberDNs_run {s : Directory} {dn : String} {g : GroupEntry}
    (h : findGroup? s dn = some g) :
    ldap.GetGroupMemberDNs dn s = (Except.ok g.members, s) := by
  simp [ldap.GetGroupMemberDNs, readOnly, h]

theorem GetUserDN_run {s : Directory} {name dn : String}
    (h : s.users.find? (fun p => p.1 == name) = some (name, dn)) :
    ldap.GetUserDN name s = (Except.ok dn, s) := by
  simp [ldap.GetUserDN, readOnly, h]

theorem GetGroupDNsInOU_run (ou : String) (s : Directory) :
    ldap.GetGroupDNsInOU ou s =
      (Except.ok ((s.groups.filter (fun g => g.ou == ou)).map GroupEntry.dn), s) := rfl

theorem GetGroupDN_run_none {s : Directory} {cn : String}
    (h : s.groups.find? (fun g => g.cn == cn) = none) :
    ldap.GetGroupDN cn s = (Except.ok ("", false), s) := by
  simp [ldap.GetGroupDN, readOnly, h]

theorem GetGroupDN_run_some {s : Directory} {cn : String} {g : GroupEntry}
    (h : s.groups.find? (fun g => g.cn == cn) = some g) :
    ldap.GetGroupDN cn s = (Except.ok (g.dn, true), s) := by
  simp [ldap.GetGroupDN, readOnly, h]

/-! The gid allocator. -/

theorem foldlMax_init_le (l : List GroupEntry) (a : Int) :
    a ≤ l.foldl (fun h g => if g.gid > h then g.gid else h) a := by
  induction l generalizing a with
  | nil => exact le_refl a
  | cons g l ih =>
    refine le_trans ?_ (ih (if g.gid > a then g.gid else a))
    by_cases h : g.gid > a
    · simp [h]; omega
    · simp [h]

theorem foldlMax_mem_le (l : List GroupEntry) (a : Int) (g : GroupEntry) (hg : g ∈ l) :
    g.gid ≤ l.foldl (fun h g => if g.gid > h then g.gid else h) a := by
  induction l generalizing a with
  | nil => cases hg
  | cons x l ih =>
    rcases List.mem_cons.1 hg with h | h
    · subst h
      refine le_trans ?_ (foldlMax_init_le l (if g.gid > a then g.gid else a))
      by_cases hx : g.gid > a
      · simp [hx]
      · simp [hx]; omega
    · exact ih (if x.gid > a then x.gid else a) h

theorem GetNextGidNumber_run (cfg : Config) (s : Directory) :
    ldap.GetNextGidNumber cfg s =
      ((if highestGid s ≥ cfg.LDAPMaxGid then Except.error "no available GID numbers"
        else if highestGid s + 1 < cfg.LDAPMinGid then
          Except.error "next GID number is less than minimum GID number"
        else Except.ok (highestGid s + 1)), s) := rfl

/-- C2: the allocator returns max+1 where max is the maximum numeric id
observed (clamped below at 0); it fails with the exhausted-range error
exactly when that maximum already reaches `maxGid` (not when `max+1`
does), with the below-range error when the successor is below `minGid`,
and on success the returned value `v` satisfies
`minGid ≤ v ∧ v ≤ maxGid` - the upper bound is inclusive, `v = maxGid`
being reachable. -/
theorem C2_nextGid_amended (cfg : Config) (s : Directory) :
    (0 ≤ highestGid s ∧ ∀ g ∈ s.groups, g.gid ≤ highestGid s) ∧
    (highestGid s ≥ cfg.LDAPMaxGid →
      ldap.GetNextGidNumber cfg s = (Except.error "no available GID numbers", s)) ∧
    (highestGid s < cfg.LDAPMaxGid → highestGid s + 1 < cfg.LDAPMinGid →
      ldap.GetNextGidNumber cfg s =
        (Except.error "next GID number is less than minimum GID number", s)) ∧
    (highestGid s < cfg.LDAPMaxGid → cfg.LDAPMinGid ≤ highestGid s + 1 →
      ldap.GetNextGidNumber cfg s = (Except.ok (highestGid s + 1), s) ∧
        cfg.LDAPMinGid ≤ highestGid s + 1 ∧ highestGid s + 1 ≤ cfg.LDAPMaxGid) := by
  refine ⟨⟨foldlMax_init_le s.groups 0, fun g hg => foldlMax_mem_le s.groups 0 g hg⟩, ?_, ?_, ?_⟩
  · intro h
    rw [GetNextGidNumber_run, if_pos h]
  · intro h1 h2
    rw [GetNextGidNumber_run, if_neg (by omega), if_pos h2]
  · intro h1 h2
    refine ⟨?_, h2, by omega⟩
    rw [GetNextGidNumber_run, if_neg (by omega), if_neg (by omega)]

/-- C2 counterexample: with range `[1000, 2000)` and highest observed gid
1999, the claim demands the exhausted-range failure (`max+1 = 2000 ≥
maxGid`), yet the allocator succeeds and returns 2000, which also violates
`v < maxGid`. -/
theorem C2_nextGid_cx :
    highestGid gidDirCX = 1999 ∧
    highestGid gidDirCX + 1 ≥ gidCfgCX.LDAPMaxGid ∧
    (ldap.GetNextGidNumber gidCfgCX gidDirCX).1 = Except.ok 2000 ∧
    ¬(2000 < gidCfgCX.LDAPMaxGid) := by decide

/-- C2 witness: the amended characterization applied at the
counterexample configuration. -/
theorem C2_nextGid_amended_witness :
    highestGid gidDirCX < gidCfgCX.LDAPMaxGid ∧
    ldap.GetNextGidNumber gidCfgCX gidDirCX = (Except.ok (highestGid gidDirCX + 1), gidDirCX) ∧
    gidCfgCX.LDAPMinGid ≤ highestGid gidDirCX + 1 ∧
    highestGid gidDirCX + 1 ≤ gidCfgCX.LDAPMaxGid :=
  ⟨by decide,
    (C2_nextGid_amended gidCfgCX gidDirCX).2.2.2 (by decide) (by decide)⟩

/-! Symbolic execution of monadic chains. -/

theorem bind_run_ok {α β : Type} {x : LdapM α} {s s' : Directory} {a : α}
    (f : α → LdapM β) (h : x s = (Except.ok a, s')) :
    (x >>= f) s = f a s' := by
  rw [run_bind, h]

theorem bind_run_error {α β : Type} {x : LdapM α} {s s' : Directory} {e : String}
    (f : α → LdapM β) (h : x s = (Except.error e, s')) :
    (x >>= f) s = (Except.error e, s') := by
  rw [run_bind, h]

theorem pirg_getUserDN_run {s : Directory} {name dn : String}
    (h : s.users.find? (fun p => p.1 == name) = some (name, dn)) (hne : dn ≠ "") :
    pirg.getUserDN name s = (Except.ok dn, s) := by
  simp only [pirg.getUserDN]
  rw [bind_run_ok _ (GetUserDN_run h), if_neg hne]
  rfl

theorem cephfs_getUserDN_run {s : Directory} {name dn : String}
    (h : s.users.find? (fun p => p.1 == name) = some (name, dn)) (hne : dn ≠ "") :
    cephfs.getUserDN name s = (Except.ok dn, s) := by
  simp only [cephfs.getUserDN]
  rw [bind_run_ok _ (GetUserDN_run h), if_neg hne]
  rfl

/-! C3: removing the current owner is refused before any write. -/

theorem pirg_remove_owner_guard
    (cfg : Config) (s : Directory) (name member udn : String) (gP gPI : GroupEntry)
    (husr : s.users.find? (fun p => p.1 == member) = some (member, udn))
    (hudn : udn ≠ "")
    (hP : findGroup? s (pirg.getPIRGDN cfg name) = some gP)
    (hPmem : udn ∈ gP.members)
    (hPI : findGroup? s (pirg.getPIRGPIGroupDN cfg name) = some gPI)
    (hPImem : udn ∈ gPI.members) :
    pirg.PirgRemoveMember cfg name member s =
      (Except.error ("user " ++ member ++ " is the PI of PIRG " ++ name ++
        ", cannot remove without setting a new PI"), s) := by
  have hcP : gP.members.contains udn = true := List.elem_iff.2 hPmem
  have hcPI : gPI.members.contains udn = true := List.elem_iff.2 hPImem
  simp only [pirg.PirgRemoveMember]
  rw [bind_run_ok _ (pirg_getUserDN_run husr hudn),
    bind_run_ok _ (UserInGroup_run hP udn), hcP]
  rw [if_neg (show ¬((!true : Bool) = true) from by decide)]
  rw [bind_run_ok _ (UserInGroup_run hPI udn), hcPI]
  rw [if_pos (show (true : Bool) = true from rfl)]
  rfl

theorem cephfs_remove_owner_guard
    (cfg : Config) (s : Directory) (name member udn : String) (gP gO : GroupEntry)
    (husr : s.users.find? (fun p => p.1 == member) = some (member, udn))
    (hudn : udn ≠ "")
    (hP : findGroup? s (cephfs.getCEPHFSDN cfg name) = some gP)
    (hPmem : udn ∈ gP.members)
    (hO : findGroup? s (cephfs.getCEPHFSOWNERGroupDN cfg name) = some gO)
    (hOmem : udn ∈ gO.members) :
    cephfs.CephfsRemoveMember cfg name member s =
      (Except.error ("user " ++ member ++ " is the Owner of cephfs " ++ name ++
        ", cannot remove without setting a new Owner"), s) := by
  have hcP : gP.members.contains udn = true := List.elem_iff.2 hPmem
  have hcO : gO.members.contains udn = true := List.elem_iff.2 hOmem
  simp only [cephfs.CephfsRemoveMember]
  rw [bind_run_ok _ (cephfs_getUserDN_run husr hudn),
    bind_run_ok _ (UserInGroup_run hP udn), hcP]
  rw [if_neg (show ¬((!true : Bool) = true) from by decide)]
  rw [bind_run_ok _ (UserInGroup_run hO udn), hcO]
  rw [if_pos (show (true : Bool) = true from rfl)]
  rfl

/-- C3: in both entity modules, removing a user who is the current owner
(a member of the owner group and of the primary group) fails with the
cannot-remove-owner error, and the directory state is returned exactly as
it was - no membership is touched. -/
theorem C3_remove_owner_fails_unchanged :
    (∀ (cfg : Config) (s : Directory) (name member udn : String) (gP gPI : GroupEntry),
      s.users.find? (fun p => p.1 == member) = some (member, udn) → udn ≠ "" →
      findGroup? s (pirg.getPIRGDN cfg name) = some gP → udn ∈ gP.members →
      findGroup? s (pirg.getPIRGPIGroupDN cfg name) = some gPI → udn ∈ gPI.members →
      pirg.PirgRemoveMember cfg name member s =
        (Except.error ("user " ++ member ++ " is the PI of PIRG " ++ name ++
          ", cannot remove without setting a new PI"), s)) ∧
    (∀ (cfg : Config) (s : Directory) (name member udn : String) (gP gO : GroupEntry),
      s.users.find? (fun p => p.1 == member) = some (member, udn) → udn ≠ "" →
      findGroup? s (cephfs.getCEPHFSDN cfg name) = some gP → udn ∈ gP.members →
      findGroup? s (cephfs.getCEPHFSOWNERGroupDN cfg name) = some gO → udn ∈ gO.members →
      cephfs.CephfsRemoveMember cfg name member s =
        (Except.error ("user " ++ member ++ " is the Owner of cephfs " ++ name ++
          ", cannot remove without setting a new Owner"), s)) :=
  ⟨fun cfg s name member udn gP gPI h1 h2 h3 h4 h5 h6 =>
    pirg_remove_owner_guard cfg s name member udn gP gPI h1 h2 h3 h4 h5 h6,
   fun cfg s name member udn gP gO h1 h2 h3 h4 h5 h6 =>
    cephfs_remove_owner_guard cfg s name member udn gP gO h1 h2 h3 h4 h5 h6⟩

/-- C3 witness: removing the owner alice from PIRG acme in the fixture
directory fails and leaves the state untouched. -/
theorem C3_remove_owner_fails_unchanged_witness :
    pirg.PirgRemoveMember cfgW "acme" "alice" dirW =
      (Except.error ("user " ++ "alice" ++ " is the PI of PIRG " ++ "acme" ++
        ", cannot remove without setting a new PI"), dirW) :=
  C3_remove_owner_fails_unchanged.1 cfgW dirW "acme" "alice" aliceDN
    ⟨"is.racs.pirg.acme", "OU=acme,OU=PIRGS,GB", 1500, [aliceDN, bobDN]⟩
    ⟨"is.racs.pirg.acme.pi", "OU=acme,OU=PIRGS,GB", 1502, [aliceDN]⟩
    (by decide) (by decide) (by decide) (by decide) (by decide) (by decide)

/-! Derived-DN disambiguation: the three group DNs of one entity differ. -/

theorem pirg_dn_ne_pi (cfg : Config) (n : String) :
    pirg.getPIRGDN cfg n ≠ pirg.getPIRGPIGroupDN cfg n := by
  intro h
  have hl := congrArg String.length h
  have h3 : (".pi" : String).length = 3 := rfl
  simp only [pirg.getPIRGDN, pirg.getPIRGPIGroupDN, pirg.getPIRGFullName,
    pirg.getPIRGPIGroupFullName, String.length_append] at hl
  omega

theorem pirg_dn_ne_admins (cfg : Config) (n : String) :
    pirg.getPIRGDN cfg n ≠ pirg.getPIRGAdminsGroupDN cfg n := by
  intro h
  have hl := congrArg String.length h
  have h7 : (".admins" : String).length = 7 := rfl
  simp only [pirg.getPIRGDN, pirg.getPIRGAdminsGroupDN, pirg.getPIRGFullName,
    pirg.getPIRGAdminsGroupFullName, String.length_append] at hl
  omega

theorem pirg_pi_ne_admins (cfg : Config) (n : String) :
    pirg.getPIRGPIGroupDN cfg n ≠ pirg.getPIRGAdminsGroupDN cfg n := by
  intro h
  have hl := congrArg String.length h
  have h3 : (".pi" : String).length = 3 := rfl
  have h7 : (".admins" : String).length = 7 := rfl
  simp only [pirg.getPIRGPIGroupDN, pirg.getPIRGAdminsGroupDN,
    pirg.getPIRGPIGroupFullName, pirg.getPIRGAdminsGroupFullName, String.length_append] at hl
  omega

theorem cephfs_dn_ne_owner (cfg : Config) (n : String) :
    cephfs.getCEPHFSDN cfg n ≠ cephfs.getCEPHFSOWNERGroupDN cfg n := by
  intro h
  have hl := congrArg String.length h
  have h6 : (".owner" : String).length = 6 := rfl
  simp only [cephfs.getCEPHFSDN, cephfs.getCEPHFSOWNERGroupDN, cephfs.getCEPHFSFullName,
    cephfs.getCEPHFSOWNERGroupFullName, String.length_append] at hl
  omega

theorem cephfs_dn_ne_admins (cfg : Config) (n : String) :
    cephfs.getCEPHFSDN cfg n ≠ cephfs.getCEPHFSAdminsGroupDN cfg n := by
  intro h
  have hl := congrArg String.length h
  have h7 : (".admins" : String).length = 7 := rfl
  simp only [cephfs.getCEPHFSDN, cephfs.getCEPHFSAdminsGroupDN, cephfs.getCEPHFSFullName,
    cephfs.getCEPHFSAdminsGroupFullName, String.length_append] at hl
  omega

theorem cephfs_owner_ne_admins (cfg : Config) (n : String) :
    cephfs.getCEPHFSOWNERGroupDN cfg n ≠ cephfs.getCEPHFSAdminsGroupDN cfg n := by
  intro h
  have hl := congrArg String.length h
  have h6 : (".owner" : String).length = 6 := rfl
  have h7 : (".admins" : String).length = 7 := rfl
  simp only [cephfs.getCEPHFSOWNERGroupDN, cephfs.getCEPHFSAdminsGroupDN,
    cephfs.getCEPHFSOWNERGroupFullName, cephfs.getCEPHFSAdminsGroupFullName,
    String.length_append] at hl
  omega

/-! The set-insert effect of AddUserToGroup. -/

theorem mem_addMem (m : List String) (u : String) : u ∈ addMem m u := by
  by_cases h : u ∈ m <;> simp [addMem, h]

theorem mem_addMem_of_mem (m : List String) (u v : String) (h : v ∈ m) :
    v ∈ addMem m u := by
  by_cases h2 : u ∈ m <;> simp [addMem, h2, h]

theorem FrameEq.find {s s' : Directory} {t : List String} (h : FrameEq s s' t)
    {dn : String} (hdn : dn ∉ t) : findGroup? s' dn = findGroup? s dn :=
  h.2.2 dn hdn

theorem evolveOf_refl (s : Directory) : EvolveOf s s :=
  ⟨rfl, rfl, ⟨id, (List.map_id s.groups).symm, fun _ => ⟨rfl, rfl, rfl⟩⟩⟩

theorem evolveOf_trans {s1 s2 s3 : Directory} (h12 : EvolveOf s1 s2)
    (h23 : EvolveOf s2 s3) : EvolveOf s1 s3 := by
  obtain ⟨ho1, hu1, F1, hm1, hp1⟩ := h12
  obtain ⟨ho2, hu2, F2, hm2, hp2⟩ := h23
  refine ⟨ho2.trans ho1, hu2.trans hu1, F2 ∘ F1, ?_, fun g => ?_⟩
  · rw [hm2, hm1, List.map_map]
  · exact ⟨((hp2 (F1 g)).1).trans (hp1 g).1, ((hp2 (F1 g)).2.1).trans (hp1 g).2.1,
      ((hp2 (F1 g)).2.2).trans (hp1 g).2.2⟩

theorem evolveOf_updateMembers (s : Directory) (dn : String)
    (f : List String → List String) : EvolveOf s (updateMembers s dn f) := by
  refine ⟨rfl, rfl, fun g => if g.dn = dn then ⟨g.cn, g.ou, g.gid, f g.members⟩ else g,
    rfl, fun g => ?_⟩
  have hF : (fun g => if g.dn = dn then
      (⟨g.cn, g.ou, g.gid, f g.members⟩ : GroupEntry) else g) g =
      if g.dn = dn then ⟨g.cn, g.ou, g.gid, f g.members⟩ else g := rfl
  rw [hF]
  by_cases h : g.dn = dn
  · rw [if_pos h]
    exact ⟨rfl, rfl, rfl⟩
  · rw [if_neg h]
    exact ⟨rfl, rfl, rfl⟩

theorem AddUserToGroup_run_addMem {s : Directory} {dn : String} {g : GroupEntry}
    (h : findGroup? s dn = some g) (u : String) :
    ∃ s', ldap.AddUserToGroup dn u s = (Except.ok (), s') ∧
      findGroup? s' dn = some ⟨g.cn, g.ou, g.gid, addMem g.members u⟩ ∧
      FrameEq s s' [dn] ∧ EvolveOf s s' := by
  by_cases hm : u ∈ g.members
  · refine ⟨s, AddUserToGroup_run_mem h hm, ?_, frameEq_refl s _, evolveOf_refl s⟩
    rw [h]
    cases g
    simp [addMem, hm]
  · refine ⟨updateMembers s dn (fun m => m ++ [u]), AddUserToGroup_run_new h hm, ?_, ?_,
      evolveOf_updateMembers s dn _⟩
    · rw [findGroup?_updateMembers_self s dn _ g h]
      simp [addMem, hm]
    · exact frameEq_updateMembers s dn _ [dn] (by simp)

/-! The owner-clearing loop empties the group it ranges over. -/

theorem removeEachMemberFrom_run (dn : String) (l : List String) :
    ∀ (s : Directory) (g : GroupEntry),
      findGroup? s dn = some g → g.members = l → l.Nodup →
      ∃ s', removeEachMemberFrom dn l s = (Except.ok (), s') ∧
        findGroup? s' dn = some ⟨g.cn, g.ou, g.gid, []⟩ ∧ FrameEq s s' [dn] ∧
        EvolveOf s s' := by
  induction l with
  | nil =>
    intro s g hg hm _
    refine ⟨s, rfl, ?_, frameEq_refl s _, evolveOf_refl s⟩
    rw [hg]
    cases g
    simp only at hm
    subst hm
    rfl
  | cons x t ih =>
    intro s g hg hm hnd
    have hx : x ∈ g.members := by rw [hm]; exact List.mem_cons_self x t
    have hrun := RemoveUserFromGroup_run_mem hg hx
    have hfind1 : findGroup? (updateMembers s dn (fun m => m.erase x)) dn =
        some ⟨g.cn, g.ou, g.gid, t⟩ := by
      rw [findGroup?_updateMembers_self s dn _ g hg, hm, List.erase_cons_head x t]
    obtain ⟨s', hrun', hfind', hframe', hev'⟩ :=
      ih (updateMembers s dn (fun m => m.erase x)) ⟨g.cn, g.ou, g.gid, t⟩ hfind1 rfl hnd.of_cons
    refine ⟨s', ?_, hfind', ?_, evolveOf_trans (evolveOf_updateMembers s dn _) hev'⟩
    · simp only [removeEachMemberFrom]
      rw [bind_run_ok _ hrun]
      exact hrun'
    · exact frameEq_trans (frameEq_updateMembers s dn _ [dn] (by simp)) hframe'

/-! Master lemma for PirgSetPI / CEPHFSSetOWNER: the owner group ends with
exactly the new owner, who is inserted into the primary and admins groups;
nothing else changes. -/

theorem PirgSetPI_run (cfg : Config) (s : Directory) (name member udn : String)
    (gP gA gPI : GroupEntry)
    (husr : s.users.find? (fun p => p.1 == member) = some (member, udn))
    (hudn : udn ≠ "")
    (hP : findGroup? s (pirg.getPIRGDN cfg name) = some gP)
    (hA : findGroup? s (pirg.getPIRGAdminsGroupDN cfg name) = some gA)
    (hPI : findGroup? s (pirg.getPIRGPIGroupDN cfg name) = some gPI)
    (hnd : gPI.members.Nodup) :
    ∃ s', pirg.PirgSetPI cfg name member s = (Except.ok (), s') ∧
      findGroup? s' (pirg.getPIRGDN cfg name) =
        some ⟨gP.cn, gP.ou, gP.gid, addMem gP.members udn⟩ ∧
      findGroup? s' (pirg.getPIRGPIGroupDN cfg name) =
        some ⟨gPI.cn, gPI.ou, gPI.gid, [udn]⟩ ∧
      findGroup? s' (pirg.getPIRGAdminsGroupDN cfg name) =
        some ⟨gA.cn, gA.ou, gA.gid, addMem gA.members udn⟩ ∧
      FrameEq s s' [pirg.getPIRGDN cfg name, pirg.getPIRGPIGroupDN cfg name,
        pirg.getPIRGAdminsGroupDN cfg name] ∧ EvolveOf s s' := by
  have hne1 := pirg_dn_ne_pi cfg name
  have hne2 := pirg_dn_ne_admins cfg name
  have hne3 := pirg_pi_ne_admins cfg name
  obtain ⟨s1, hrun1, hfind1, hframe1, hev1⟩ :=
    removeEachMemberFrom_run (pirg.getPIRGPIGroupDN cfg name) gPI.members s gPI hPI rfl hnd
  have hPs1 : findGroup? s1 (pirg.getPIRGDN cfg name) = some gP := by
    rw [hframe1.find (by simp [hne1]), hP]
  obtain ⟨s2, hrun2, hfind2, hframe2, hev2⟩ := AddUserToGroup_run_addMem hPs1 udn
  have hPIs2 : findGroup? s2 (pirg.getPIRGPIGroupDN cfg name) =
      some ⟨gPI.cn, gPI.ou, gPI.gid, []⟩ := by
    rw [hframe2.find (by simp; exact fun hh => hne1 hh.symm), hfind1]
  obtain ⟨s3, hrun3, hfind3, hframe3, hev3⟩ := AddUserToGroup_run_addMem hPIs2 udn
  have hAs3 : findGroup? s3 (pirg.getPIRGAdminsGroupDN cfg name) = some gA := by
    rw [hframe3.find (by simp; exact fun hh => hne3 hh.symm),
      hframe2.find (by simp; exact fun hh => hne2 hh.symm),
      hframe1.find (by simp; exact fun hh => hne3 hh.symm), hA]
  obtain ⟨s4, hrun4, hfind4, hframe4, hev4⟩ := AddUserToGroup_run_addMem hAs3 udn
  refine ⟨s4, ?_, ?_, ?_, ?_, ?_,
    evolveOf_trans hev1 (evolveOf_trans hev2 (evolveOf_trans hev3 hev4))⟩
  · simp only [pirg.PirgSetPI]
    rw [bind_run_ok _ (pirg_getUserDN_run husr hudn),
      bind_run_ok _ (GetGroupMemberDNs_run hPI),
      bind_run_ok _ hrun1, bind_run_ok _ hrun2, bind_run_ok _ hrun3]
    exact hrun4
  · rw [hframe4.find (by simp [hne2]), hframe3.find (by simp [hne1]), hfind2]
  · rw [hframe4.find (by simp [hne3]), hfind3]
    simp [addMem]
  · rw [hfind4]
  · refine frameEq_trans (frameEq_mono hframe1 ?_)
      (frameEq_trans (frameEq_mono hframe2 ?_)
        (frameEq_trans (frameEq_mono hframe3 ?_) (frameEq_mono hframe4 ?_))) <;> simp

theorem CEPHFSSetOWNER_run (cfg : Config) (s : Directory) (name member udn : String)
    (gP gA gO : GroupEntry)
    (husr : s.users.find? (fun p => p.1 == member) = some (member, udn))
    (hudn : udn ≠ "")
    (hP : findGroup? s (cephfs.getCEPHFSDN cfg name) = some gP)
    (hA : findGroup? s (cephfs.getCEPHFSAdminsGroupDN cfg name) = some gA)
    (hO : findGroup? s (cephfs.getCEPHFSOWNERGroupDN cfg name) = some gO)
    (hnd : gO.members.Nodup) :
    ∃ s', cephfs.CEPHFSSetOWNER cfg name member s = (Except.ok (), s') ∧
      findGroup? s' (cephfs.getCEPHFSDN cfg name) =
        some ⟨gP.cn, gP.ou, gP.gid, addMem gP.members udn⟩ ∧
      findGroup? s' (cephfs.getCEPHFSOWNERGroupDN cfg name) =
        some ⟨gO.cn, gO.ou, gO.gid, [udn]⟩ ∧
      findGroup? s' (cephfs.getCEPHFSAdminsGroupDN cfg name) =
        some ⟨gA.cn, gA.ou, gA.gid, addMem gA.members udn⟩ ∧
      FrameEq s s' [cephfs.getCEPHFSDN cfg name, cephfs.getCEPHFSOWNERGroupDN cfg name,
        cephfs.getCEPHFSAdminsGroupDN cfg name] ∧ EvolveOf s s' := by
  have hne1 := cephfs_dn_ne_owner cfg name
  have hne2 := cephfs_dn_ne_admins cfg name
  have hne3 := cephfs_owner_ne_admins cfg name
  obtain ⟨s1, hrun1, hfind1, hframe1, hev1⟩ :=
    removeEachMemberFrom_run (cephfs.getCEPHFSOWNERGroupDN cfg name) gO.members s gO hO rfl hnd
  have hPs1 : findGroup? s1 (cephfs.getCEPHFSDN cfg name) = some gP := by
    rw [hframe1.find (by simp [hne1]), hP]
  obtain ⟨s2, hrun2, hfind2, hframe2, hev2⟩ := AddUserToGroup_run_addMem hPs1 udn
  have hOs2 : findGroup? s2 (cephfs.getCEPHFSOWNERGroupDN cfg name) =
      some ⟨gO.cn, gO.ou, gO.gid, []⟩ := by
    rw [hframe2.find (by simp; exact fun hh => hne1 hh.symm), hfind1]
  obtain ⟨s3, hrun3, hfind3, hframe3, hev3⟩ := AddUserToGroup_run_addMem hOs2 udn
  have hAs3 : findGroup? s3 (cephfs.getCEPHFSAdminsGroupDN cfg name) = some gA := by
    rw [hframe3.find (by simp; exact fun hh => hne3 hh.symm),
      hframe2.find (by simp; exact fun hh => hne2 hh.symm),
      hframe1.find (by simp; exact fun hh => hne3 hh.symm), hA]
  obtain ⟨s4, hrun4, hfind4, hframe4, hev4⟩ := AddUserToGroup_run_addMem hAs3 udn
  refine ⟨s4, ?_, ?_, ?_, ?_, ?_,
    evolveOf_trans hev1 (evolveOf_trans hev2 (evolveOf_trans hev3 hev4))⟩
  · simp only [cephfs.CEPHFSSetOWNER]
    rw [bind_run_ok _ (cephfs_getUserDN_run husr hudn),
      bind_run_ok _ (GetGroupMemberDNs_run hO),
      bind_run_ok _ hrun1, bind_run_ok _ hrun2, bind_run_ok _ hrun3]
    exact hrun4
  · rw [hframe4.find (by simp [hne2]), hframe3.find (by simp [hne1]), hfind2]
  · rw [hframe4.find (by simp [hne3]), hfind3]
    simp [addMem]
  · rw [hfind4]
  · refine frameEq_trans (frameEq_mono hframe1 ?_)
      (frameEq_trans (frameEq_mono hframe2 ?_)
        (frameEq_trans (frameEq_mono hframe3 ?_) (frameEq_mono hframe4 ?_))) <;> simp

/-- C4: in both entity modules, after a successful setOwner the new owner
is a member of the primary, admins and owner groups, and the owner group
holds exactly that one member, every previously present owner-group
member having been removed. -/
theorem C4_setOwner_post :
    (∀ (cfg : Config) (s : Directory) (name member udn : String) (gP gA gPI : GroupEntry),
      s.users.find? (fun p => p.1 == member) = some (member, udn) → udn ≠ "" →
      findGroup? s (pirg.getPIRGDN cfg name) = some gP →
      findGroup? s (pirg.getPIRGAdminsGroupDN cfg name) = some gA →
      findGroup? s (pirg.getPIRGPIGroupDN cfg name) = some gPI →
      gPI.members.Nodup →
      ∃ s' gP' gPI' gA',
        pirg.PirgSetPI cfg name member s = (Except.ok (), s') ∧
        findGroup? s' (pirg.getPIRGDN cfg name) = some gP' ∧ udn ∈ gP'.members ∧
        findGroup? s' (pirg.getPIRGPIGroupDN cfg name) = some gPI' ∧
        gPI'.members = [udn] ∧
        findGroup? s' (pirg.getPIRGAdminsGroupDN cfg name) = some gA' ∧
        udn ∈ gA'.members) ∧
    (∀ (cfg : Config) (s : Directory) (name member udn : String) (gP gA gO : GroupEntry),
      s.users.find? (fun p => p.1 == member) = some (member, udn) → udn ≠ "" →
      findGroup? s (cephfs.getCEPHFSDN cfg name) = some gP →
      findGroup? s (cephfs.getCEPHFSAdminsGroupDN cfg name) = some gA →
      findGroup? s (cephfs.getCEPHFSOWNERGroupDN cfg name) = some gO →
      gO.members.Nodup →
      ∃ s' gP' gO' gA',
        cephfs.CEPHFSSetOWNER cfg name member s = (Except.ok (), s') ∧
        findGroup? s' (cephfs.getCEPHFSDN cfg name) = some gP' ∧ udn ∈ gP'.members ∧
        findGroup? s' (cephfs.getCEPHFSOWNERGroupDN cfg name) = some gO' ∧
        gO'.members = [udn] ∧
        findGroup? s' (cephfs.getCEPHFSAdminsGroupDN cfg name) = some gA' ∧
        udn ∈ gA'.members) := by
  constructor
  · intro cfg s name member udn gP gA gPI h1 h2 h3 h4 h5 h6
    obtain ⟨s', hrun, hfP, hfPI, hfA, _, _⟩ :=
      PirgSetPI_run cfg s name member udn gP gA gPI h1 h2 h3 h4 h5 h6
    exact ⟨s', _, _, _, hrun, hfP, mem_addMem gP.members udn, hfPI, rfl, hfA,
      mem_addMem gA.members udn⟩
  · intro cfg s name member udn gP gA gO h1 h2 h3 h4 h5 h6
    obtain ⟨s', hrun, hfP, hfO, hfA, _, _⟩ :=
      CEPHFSSetOWNER_run cfg s name member udn gP gA gO h1 h2 h3 h4 h5 h6
    exact ⟨s', _, _, _, hrun, hfP, mem_addMem gP.members udn, hfO, rfl, hfA,
      mem_addMem gA.members udn⟩

/-- C4 witness: setting bob as PI of the fixture PIRG acme. -/
theorem C4_setOwner_post_witness :
    ∃ s' gP' gPI' gA',
      pirg.PirgSetPI cfgW "acme" "bob" dirW = (Except.ok (), s') ∧
      findGroup? s' (pirg.getPIRGDN cfgW "acme") = some gP' ∧ bobDN ∈ gP'.members ∧
      findGroup? s' (pirg.getPIRGPIGroupDN cfgW "acme") = some gPI' ∧
      gPI'.members = [bobDN] ∧
      findGroup? s' (pirg.getPIRGAdminsGroupDN cfgW "acme") = some gA' ∧
      bobDN ∈ gA'.members :=
  C4_setOwner_post.1 cfgW dirW "acme" "bob" bobDN
    ⟨"is.racs.pirg.acme", "OU=acme,OU=PIRGS,GB", 1500, [aliceDN, bobDN]⟩
    ⟨"is.racs.pirg.acme.admins", "OU=acme,OU=PIRGS,GB", 1501, [aliceDN, bobDN]⟩
    ⟨"is.racs.pirg.acme.pi", "OU=acme,OU=PIRGS,GB", 1502, [aliceDN]⟩
    (by decide) (by decide) (by decide) (by decide) (by decide) (by decide)

/-- C10: ownership reassignment does not demote the previous owner: the
previous owner stays in the primary and admins groups, the owner group
ends with exactly the new owner, and every group other than those three is
untouched. -/
theorem C10_setOwner_no_demotion :
    (∀ (cfg : Config) (s : Directory) (name member udn uold : String)
      (gP gA gPI : GroupEntry),
      s.users.find? (fun p => p.1 == member) = some (member, udn) → udn ≠ "" →
      findGroup? s (pirg.getPIRGDN cfg name) = some gP →
      findGroup? s (pirg.getPIRGAdminsGroupDN cfg name) = some gA →
      findGroup? s (pirg.getPIRGPIGroupDN cfg name) = some gPI →
      gPI.members.Nodup → uold ∈ gP.members → uold ∈ gA.members →
      ∃ s' gP' gPI' gA',
        pirg.PirgSetPI cfg name member s = (Except.ok (), s') ∧
        findGroup? s' (pirg.getPIRGDN cfg name) = some gP' ∧
        uold ∈ gP'.members ∧ udn ∈ gP'.members ∧
        findGroup? s' (pirg.getPIRGAdminsGroupDN cfg name) = some gA' ∧
        uold ∈ gA'.members ∧ udn ∈ gA'.members ∧
        findGroup? s' (pirg.getPIRGPIGroupDN cfg name) = some gPI' ∧
        gPI'.members = [udn] ∧
        (∀ dn, dn ∉ [pirg.getPIRGDN cfg name, pirg.getPIRGPIGroupDN cfg name,
            pirg.getPIRGAdminsGroupDN cfg name] →
          findGroup? s' dn = findGroup? s dn)) ∧
    (∀ (cfg : Config) (s : Directory) (name member udn uold : String)
      (gP gA gO : GroupEntry),
      s.users.find? (fun p => p.1 == member) = some (member, udn) → udn ≠ "" →
      findGroup? s (cephfs.getCEPHFSDN cfg name) = some gP →
      findGroup? s (cephfs.getCEPHFSAdminsGroupDN cfg name) = some gA →
      findGroup? s (cephfs.getCEPHFSOWNERGroupDN cfg name) = some gO →
      gO.members.Nodup → uold ∈ gP.members → uold ∈ gA.members →
      ∃ s' gP' gO' gA',
        cephfs.CEPHFSSetOWNER cfg name member s = (Except.ok (), s') ∧
        findGroup? s' (cephfs.getCEPHFSDN cfg name) = some gP' ∧
        uold ∈ gP'.members ∧ udn ∈ gP'.members ∧
        findGroup? s' (cephfs.getCEPHFSAdminsGroupDN cfg name) = some gA' ∧
        uold ∈ gA'.members ∧ udn ∈ gA'.members ∧
        findGroup? s' (cephfs.getCEPHFSOWNERGroupDN cfg name) = some gO' ∧
        gO'.members = [udn] ∧
        (∀ dn, dn ∉ [cephfs.getCEPHFSDN cfg name, cephfs.getCEPHFSOWNERGroupDN cfg name,
            cephfs.getCEPHFSAdminsGroupDN cfg name] →
          findGroup? s' dn = findGroup? s dn)) := by
  constructor
  · intro cfg s name member udn uold gP gA gPI h1 h2 h3 h4 h5 h6 h7 h8
    obtain ⟨s', hrun, hfP, hfPI, hfA, hframe, _⟩ :=
      PirgSetPI_run cfg s name member udn gP gA gPI h1 h2 h3 h4 h5 h6
    exact ⟨s', _, _, _, hrun, hfP, mem_addMem_of_mem gP.members udn uold h7,
      mem_addMem gP.members udn, hfA, mem_addMem_of_mem gA.members udn uold h8,
      mem_addMem gA.members udn, hfPI, rfl, fun dn hdn => hframe.2.2 dn hdn⟩
  · intro cfg s name member udn uold gP gA gO h1 h2 h3 h4 h5 h6 h7 h8
    obtain ⟨s', hrun, hfP, hfO, hfA, hframe, _⟩ :=
      CEPHFSSetOWNER_run cfg s name member udn gP gA gO h1 h2 h3 h4 h5 h6
    exact ⟨s', _, _, _, hrun, hfP, mem_addMem_of_mem gP.members udn uold h7,
      mem_addMem gP.members udn, hfA, mem_addMem_of_mem gA.members udn uold h8,
      mem_addMem gA.members udn, hfO, rfl, fun dn hdn => hframe.2.2 dn hdn⟩

/-- C10 witness: reassigning the fixture CEPHFS vault from alice to bob
keeps alice in the primary and admins groups. -/
theorem C10_setOwner_no_demotion_witness :
    ∃ s' gP' gO' gA',
      cephfs.CEPHFSSetOWNER cfgW "vault" "bob" dirW = (Except.ok (), s') ∧
      findGroup? s' (cephfs.getCEPHFSDN cfgW "vault") = some gP' ∧
      aliceDN ∈ gP'.members ∧ bobDN ∈ gP'.members ∧
      findGroup? s' (cephfs.getCEPHFSAdminsGroupDN cfgW "vault") = some gA' ∧
      aliceDN ∈ gA'.members ∧ bobDN ∈ gA'.members ∧
      findGroup? s' (cephfs.getCEPHFSOWNERGroupDN cfgW "vault") = some gO' ∧
      gO'.members = [bobDN] ∧
      (∀ dn, dn ∉ [cephfs.getCEPHFSDN cfgW "vault",
          cephfs.getCEPHFSOWNERGroupDN cfgW "vault",
          cephfs.getCEPHFSAdminsGroupDN cfgW "vault"] →
        findGroup? s' dn = findGroup? dirW dn) :=
  C10_setOwner_no_demotion.2 cfgW dirW "vault" "bob" bobDN aliceDN
    ⟨"is.racs.cephfs.vault", "OU=vault,OU=CEPH,GB", 1600, [aliceDN, bobDN]⟩
    ⟨"is.racs.cephfs.vault.admins", "OU=vault,OU=CEPH,GB", 1601, [aliceDN, bobDN]⟩
    ⟨"is.racs.cephfs.vault.owner", "OU=vault,OU=CEPH,GB", 1602, [aliceDN]⟩
    (by decide) (by decide) (by decide) (by decide) (by decide) (by decide)
    (by decide) (by decide)

/-! Name derivation: the Go `strings.Split` model. -/

theorem goSplit_cons_sep (sep : Char) (l : List Char) :
    goSplit sep (sep :: l) = [] :: goSplit sep l := by
  simp [goSplit]

theorem goSplit_cons_ne (sep c : Char) (l : List Char) (h : c ≠ sep) :
    goSplit sep (c :: l) =
      (c :: (goSplit sep l).headI) :: (goSplit sep l).tail := by
  simp [goSplit, h]

theorem goSplit_no_sep (sep : Char) (l : List Char) (h : sep ∉ l) :
    goSplit sep l = [l] := by
  induction l with
  | nil => rfl
  | cons c t ih =>
    have hc : c ≠ sep := fun hc => h (hc ▸ List.mem_cons_self c t)
    have ht : sep ∉ t := fun hh => h (List.mem_cons_of_mem c hh)
    rw [goSplit_cons_ne sep c t hc, ih ht]
    rfl

theorem goSplit_append_sep (sep : Char) (l₁ l₂ : List Char) (h : sep ∉ l₁) :
    goSplit sep (l₁ ++ sep :: l₂) = l₁ :: goSplit sep l₂ := by
  induction l₁ with
  | nil => simp [goSplit_cons_sep]
  | cons c t ih =>
    have hc : c ≠ sep := fun hc => h (hc ▸ List.mem_cons_self c t)
    have ht : sep ∉ t := fun hh => h (List.mem_cons_of_mem c hh)
    rw [List.cons_append, goSplit_cons_ne sep c _ hc, ih ht]
    rfl

theorem validShortName_no_dot {s : String} (h : validShortName s) : '.' ∉ s.data := by
  intro hc
  rcases h.2 '.' hc with h1 | h1 | h1 <;> exact absurd h1 (by decide)

/-- C9: for every valid short name, converting the derived full PIRG
group name back yields the short name again. -/
theorem C9_shortName_roundtrip (s : String) (h : validShortName s) :
    pirg.ConvertPIRGGroupNametoShortName (pirg.getPIRGFullName s) = Except.ok s := by
  have hdot : '.' ∉ s.data := validShortName_no_dot h
  have hsplit : goSplit '.' ("is.racs.pirg." ++ s).data =
      [['i', 's'], ['r', 'a', 'c', 's'], ['p', 'i', 'r', 'g'], s.data] := by
    rw [String.data_append "is.racs.pirg." s]
    show goSplit '.'
      (['i', 's'] ++ '.' :: (['r', 'a', 'c', 's'] ++ '.' ::
        (['p', 'i', 'r', 'g'] ++ '.' :: s.data))) = _
    rw [goSplit_append_sep _ _ _ (by decide), goSplit_append_sep _ _ _ (by decide),
      goSplit_append_sep _ _ _ (by decide), goSplit_no_sep _ _ hdot]
  unfold pirg.ConvertPIRGGroupNametoShortName pirg.getPIRGFullName pirg.groupPrefixStr
    stringsSplit
  rw [hsplit]
  rfl

/-- C9 witness: the round trip at the concrete short name acme. -/
theorem C9_shortName_roundtrip_witness :
    validShortName "acme" ∧
    pirg.ConvertPIRGGroupNametoShortName (pirg.getPIRGFullName "acme") = Except.ok "acme" :=
  ⟨by decide, C9_shortName_roundtrip "acme" (by decide)⟩

/-- C8: the name deriver accepts the dotted short name a.b without any
error, producing a full name identical to the one derived for sub-group b
of entity a - exactly the ambiguity the contract says must be rejected
(the spec itself flags this validation gap in the source). -/
theorem C8_dot_name_accepted :
    pirg.getPIRGFullName "a.b" = "is.racs.pirg.a.b" ∧
    pirg.getPIRGSubgroupName "a" "b" = "is.racs.pirg.a.b" ∧
    ("a.b" : String) ≠ "a" := by
  refine ⟨by decide, by decide, by decide⟩

/-! DN parsing: a comma-free common name and the container are recovered
uniquely from a DN. -/

theorem strData_inj {s t : String} (h : s.data = t.data) : s = t := by
  cases s; cases t; exact congrArg String.mk h

theorem sepAppend_inj (sep : Char) (a : List Char) : ∀ (b x y : List Char), sep ∉ a →
    sep ∉ b → a ++ sep :: x = b ++ sep :: y → a = b ∧ x = y := by
  induction a with
  | nil =>
    intro b x y _ hb h
    cases b with
    | nil => simpa using h
    | cons c b' =>
      simp only [List.nil_append, List.cons_append, List.cons.injEq] at h
      exact absurd (by rw [h.1]; exact List.mem_cons_self c b') hb
  | cons c a' ih =>
    intro b x y ha hb h
    cases b with
    | nil =>
      simp only [List.nil_append, List.cons_append, List.cons.injEq] at h
      exact absurd (by rw [← h.1]; exact List.mem_cons_self c a') ha
    | cons c' b' =>
      simp only [List.cons_append, List.cons.injEq] at h
      have ha' : sep ∉ a' := fun hm => ha (List.mem_cons_of_mem c hm)
      have hb' : sep ∉ b' := fun hm => hb (List.mem_cons_of_mem c' hm)
      obtain ⟨h1, h2⟩ := ih b' x y ha' hb' h.2
      exact ⟨by rw [h.1, h1], h2⟩

theorem dnParse_inj {cn1 ou1 cn2 ou2 : String} (h1 : noComma cn1) (h2 : noComma cn2)
    (h : "CN=" ++ cn1 ++ "," ++ ou1 = "CN=" ++ cn2 ++ "," ++ ou2) :
    cn1 = cn2 ∧ ou1 = ou2 := by
  have hd := congrArg String.data h
  simp only [String.data_append] at hd
  have hd2 : ("CN=".data ++ cn1.data) ++ ',' :: ou1.data =
      ("CN=".data ++ cn2.data) ++ ',' :: ou2.data := by
    simpa [List.append_assoc] using hd
  have hna : ',' ∉ "CN=".data ++ cn1.data := by
    intro hm
    rcases List.mem_append.1 hm with hx | hx
    · exact absurd hx (by simp)
    · exact h1 hx
  have hnb : ',' ∉ "CN=".data ++ cn2.data := by
    intro hm
    rcases List.mem_append.1 hm with hx | hx
    · exact absurd hx (by simp)
    · exact h2 hx
  obtain ⟨hcn, hou⟩ := sepAppend_inj ',' _ _ _ _ hna hnb hd2
  exact ⟨strData_inj (List.append_cancel_left hcn), strData_inj hou⟩

/-! The lowercase module-derived DNs can never collide with the uppercase
roster DNs: their fourth characters differ. -/

theorem char3_getPIRGDN (cfg : Config) (n : String) :
    char3 (pirg.getPIRGDN cfg n) = 'i' := by
  simp [char3, pirg.getPIRGDN, pirg.getPIRGFullName, pirg.groupPrefixStr, String.data_append]

theorem char3_getPIRGAdminsGroupDN (cfg : Config) (n : String) :
    char3 (pirg.getPIRGAdminsGroupDN cfg n) = 'i' := by
  simp [char3, pirg.getPIRGAdminsGroupDN, pirg.getPIRGAdminsGroupFullName,
    pirg.groupPrefixStr, String.data_append]

theorem char3_getPIRGPIGroupDN (cfg : Config) (n : String) :
    char3 (pirg.getPIRGPIGroupDN cfg n) = 'i' := by
  simp [char3, pirg.getPIRGPIGroupDN, pirg.getPIRGPIGroupFullName,
    pirg.groupPrefixStr, String.data_append]

theorem char3_getCEPHFSDN (cfg : Config) (n : String) :
    char3 (cephfs.getCEPHFSDN cfg n) = 'i' := by
  simp [char3, cephfs.getCEPHFSDN, cephfs.getCEPHFSFullName, cephfs.groupPrefixStr,
    String.data_append]

theorem char3_getCEPHFSAdminsGroupDN (cfg : Config) (n : String) :
    char3 (cephfs.getCEPHFSAdminsGroupDN cfg n) = 'i' := by
  simp [char3, cephfs.getCEPHFSAdminsGroupDN, cephfs.getCEPHFSAdminsGroupFullName,
    cephfs.groupPrefixStr, String.data_append]

theorem char3_getCEPHFSOWNERGroupDN (cfg : Config) (n : String) :
    char3 (cephfs.getCEPHFSOWNERGroupDN cfg n) = 'i' := by
  simp [char3, cephfs.getCEPHFSOWNERGroupDN, cephfs.getCEPHFSOWNERGroupFullName,
    cephfs.groupPrefixStr, String.data_append]

theorem char3_pirg_topUsers : char3 pirg.topLevelUsersGroupDN = 'I' := rfl

theorem char3_pirg_topAdmins : char3 pirg.topLevelAdminsGroupDN = 'I' := rfl

theorem pirg_dn_ne_topUsers (cfg : Config) (n : String) :
    pirg.getPIRGDN cfg n ≠ pirg.topLevelUsersGroupDN := by
  intro h
  have := (char3_getPIRGDN cfg n).symm.trans (congrArg char3 h)
  rw [char3_pirg_topUsers] at this
  exact absurd this (by decide)

theorem pirg_dn_ne_topAdmins (cfg : Config) (n : String) :
    pirg.getPIRGDN cfg n ≠ pirg.topLevelAdminsGroupDN := by
  intro h
  have := (char3_getPIRGDN cfg n).symm.trans (congrArg char3 h)
  rw [char3_pirg_topAdmins] at this
  exact absurd this (by decide)

theorem pirg_admins_ne_topUsers (cfg : Config) (n : String) :
    pirg.getPIRGAdminsGroupDN cfg n ≠ pirg.topLevelUsersGroupDN := by
  intro h
  have := (char3_getPIRGAdminsGroupDN cfg n).symm.trans (congrArg char3 h)
  rw [char3_pirg_topUsers] at this
  exact absurd this (by decide)

theorem pirg_admins_ne_topAdmins (cfg : Config) (n : String) :
    pirg.getPIRGAdminsGroupDN cfg n ≠ pirg.topLevelAdminsGroupDN := by
  intro h
  have := (char3_getPIRGAdminsGroupDN cfg n).symm.trans (congrArg char3 h)
  rw [char3_pirg_topAdmins] at this
  exact absurd this (by decide)

theorem pirg_pi_ne_topUsers (cfg : Config) (n : String) :
    pirg.getPIRGPIGroupDN cfg n ≠ pirg.topLevelUsersGroupDN := by
  intro h
  have := (char3_getPIRGPIGroupDN cfg n).symm.trans (congrArg char3 h)
  rw [char3_pirg_topUsers] at this
  exact absurd this (by decide)

theorem pirg_pi_ne_topAdmins (cfg : Config) (n : String) :
    pirg.getPIRGPIGroupDN cfg n ≠ pirg.topLevelAdminsGroupDN := by
  intro h
  have := (char3_getPIRGPIGroupDN cfg n).symm.trans (congrArg char3 h)
  rw [char3_pirg_topAdmins] at this
  exact absurd this (by decide)

/-! The subgroup cascade: after the loop, the user is erased from every
listed group, and nothing else changes. -/

theorem findGroup?_updateMembers_isSome (s : Directory) (dn : String)
    (f : List String → List String) (dn' : String) :
    (findGroup? (updateMembers s dn f) dn').isSome = (findGroup? s dn').isSome := by
  rw [findGroup?_updateMembers]
  cases findGroup? s dn' <;> rfl

/-! The DN-to-object-name parser on canonical group DNs. -/

theorem stringsSplit_eq_cn (cn : String) (h2 : '=' ∉ cn.data) :
    stringsSplit ("CN=" ++ cn) '=' = ["CN", cn] := by
  unfold stringsSplit
  have hd : ("CN=" ++ cn).data = ['C', 'N'] ++ '=' :: cn.data := by
    simp [String.data_append]
  rw [hd, goSplit_append_sep '=' _ _ (by decide), goSplit_no_sep '=' _ h2]
  rfl

theorem convertDN_wf (cn ou : String) (h1 : noComma cn) (h2 : '=' ∉ cn.data) :
    ldap.ConvertDNToObjectName ("CN=" ++ cn ++ "," ++ ou) = Except.ok cn := by
  have hnc : ',' ∉ ('C' :: 'N' :: '=' :: cn.data : List Char) := by
    intro hm
    rcases List.mem_cons.1 hm with h | hm
    · exact absurd h (by decide)
    rcases List.mem_cons.1 hm with h | hm
    · exact absurd h (by decide)
    rcases List.mem_cons.1 hm with h | hm
    · exact absurd h (by decide)
    exact h1 hm
  have hdata : ("CN=" ++ cn ++ "," ++ ou).data =
      ('C' :: 'N' :: '=' :: cn.data) ++ ',' :: ou.data := by
    simp [String.data_append]
  have hparts : stringsSplit ("CN=" ++ cn ++ "," ++ ou) ',' =
      ("CN=" ++ cn) :: (goSplit ',' ou.data).map String.mk := by
    unfold stringsSplit
    rw [hdata, goSplit_append_sep ',' _ _ hnc]
    simp only [List.map_cons]
    congr 1
  simp only [ldap.ConvertDNToObjectName]
  rw [hparts]
  show (if (stringsSplit ("CN=" ++ cn) '=').length = 2 then
      Except.ok ((stringsSplit ("CN=" ++ cn) '=').getD 1 "")
    else Except.error "invalid DN format") = Except.ok cn
  rw [stringsSplit_eq_cn cn h2]
  rfl

theorem convertDN_entry (g : GroupEntry) (h1 : noComma g.cn) (h2 : '=' ∉ g.cn.data) :
    ldap.ConvertDNToObjectName g.dn = Except.ok g.cn :=
  convertDN_wf g.cn g.ou h1 h2

/-! The roster scans: loop characterizations over the user's groups. -/

theorem GetGroupsForUser_run {s : Directory} {udn : String} (h : udn ∈ s.users.map Prod.snd) :
    ldap.GetGroupsForUser udn s =
      (Except.ok ((s.groups.filter (fun g => g.members.contains udn)).map GroupEntry.dn), s) := by
  have hc : (s.users.map Prod.snd).contains udn = true := List.elem_iff.2 h
  unfold ldap.GetGroupsForUser readOnly
  show ((if (s.users.map Prod.snd).contains udn = true then
      Except.ok ((s.groups.filter (fun g => g.members.contains udn)).map GroupEntry.dn)
    else Except.error ("user " ++ udn ++ " not found")), s) = _
  rw [hc, if_pos rfl]

theorem anyGroupWithPfx_over_groups (pfx : String) (gl : List GroupEntry) (s : Directory)
    (htidy : ∀ g ∈ gl, noComma g.cn ∧ '=' ∉ g.cn.data) :
    anyGroupWithPfx pfx (gl.map GroupEntry.dn) s =
      (Except.ok (gl.any (fun g => hasPfx g.cn pfx)), s) := by
  induction gl with
  | nil => rfl
  | cons g t ih =>
    have hg := htidy g (List.mem_cons_self g t)
    simp only [List.map_cons, anyGroupWithPfx]
    rw [bind_run_ok _ (show liftE (ldap.ConvertDNToObjectName g.dn) s = (Except.ok g.cn, s)
      from by rw [run_liftE, convertDN_entry g hg.1 hg.2])]
    by_cases hp : hasPfx g.cn pfx = true
    · rw [if_pos hp]
      show (Except.ok true, s) = _
      simp [hp]
    · rw [if_neg hp, ih (fun g' hg' => htidy g' (List.mem_cons_of_mem g hg'))]
      have hp' : hasPfx g.cn pfx = false := Bool.eq_false_iff.2 hp
      simp [hp']

theorem anyAdminGroupWithPfx_over_groups (pfx : String) (adminsDnOf : String → String)
    (u : String) (gl : List GroupEntry) (s : Directory)
    (htidy : ∀ g ∈ gl, noComma g.cn ∧ '=' ∉ g.cn.data)
    (hex : ∀ g ∈ gl, hasPfx g.cn pfx = true → containsChar (trimPfx g.cn pfx) '.' = false →
      (findGroup? s (adminsDnOf (trimPfx g.cn pfx))).isSome) :
    anyAdminGroupWithPfx pfx adminsDnOf u (gl.map GroupEntry.dn) s =
      (Except.ok (gl.any (fun g => hasPfx g.cn pfx &&
        !containsChar (trimPfx g.cn pfx) '.' &&
        adminProbe s adminsDnOf u (trimPfx g.cn pfx))), s) := by
  induction gl with
  | nil => rfl
  | cons g t ih =>
    have hg := htidy g (List.mem_cons_self g t)
    have iht := ih (fun g' hg' => htidy g' (List.mem_cons_of_mem g hg'))
      (fun g' hg' => hex g' (List.mem_cons_of_mem g hg'))
    simp only [List.map_cons, anyAdminGroupWithPfx]
    rw [bind_run_ok _ (show liftE (ldap.ConvertDNToObjectName g.dn) s = (Except.ok g.cn, s)
      from by rw [run_liftE, convertDN_entry g hg.1 hg.2])]
    by_cases hp : hasPfx g.cn pfx = true
    · rw [if_pos hp]
      by_cases hdot : containsChar (trimPfx g.cn pfx) '.' = true
      · rw [if_pos hdot, iht]
        have hPg : (hasPfx g.cn pfx && !containsChar (trimPfx g.cn pfx) '.' &&
            adminProbe s adminsDnOf u (trimPfx g.cn pfx)) = false := by
          rw [hp, hdot]
          rfl
        rw [List.any_cons, hPg, Bool.false_or]
      · rw [if_neg hdot]
        have hdot' : containsChar (trimPfx g.cn pfx) '.' = false := Bool.eq_false_iff.2 hdot
        obtain ⟨ga, hga⟩ := Option.isSome_iff_exists.1
          (hex g (List.mem_cons_self g t) hp hdot')
        rw [bind_run_ok _ (UserInGroup_run hga u)]
        have hprobe : adminProbe s adminsDnOf u (trimPfx g.cn pfx) = ga.members.contains u := by
          simp [adminProbe, hga]
        by_cases hcu : ga.members.contains u = true
        · rw [hcu, if_pos (show (true : Bool) = true from rfl)]
          have hPg : (hasPfx g.cn pfx && !containsChar (trimPfx g.cn pfx) '.' &&
              adminProbe s adminsDnOf u (trimPfx g.cn pfx)) = true := by
            rw [hp, hdot', hprobe, hcu]
            rfl
          show (Except.ok true, s) = _
          rw [List.any_cons, hPg, Bool.true_or]
        · have hcu' : ga.members.contains u = false := Bool.eq_false_iff.2 hcu
          rw [hcu', if_neg (show ¬((false : Bool) = true) from by decide), iht]
          have hPg : (hasPfx g.cn pfx && !containsChar (trimPfx g.cn pfx) '.' &&
              adminProbe s adminsDnOf u (trimPfx g.cn pfx)) = false := by
            rw [hp, hdot', hprobe, hcu']
            rfl
          rw [List.any_cons, hPg, Bool.false_or]
    · rw [if_neg hp, iht]
      have hp' : hasPfx g.cn pfx = false := Bool.eq_false_iff.2 hp
      have hPg : (hasPfx g.cn pfx && !containsChar (trimPfx g.cn pfx) '.' &&
          adminProbe s adminsDnOf u (trimPfx g.cn pfx)) = false := by
        rw [hp']
        rfl
      rw [List.any_cons, hPg, Bool.false_or]

theorem pirg_userInAnyPIRG_run {s : Directory} {member udn : String}
    (husr : s.users.find? (fun p => p.1 == member) = some (member, udn)) (hudn : udn ≠ "")
    (htidy : ∀ g ∈ s.groups, noComma g.cn ∧ '=' ∉ g.cn.data) :
    pirg.userInAnyPIRG member s =
      (Except.ok ((s.groups.filter (fun g => g.members.contains udn)).any
        (fun g => hasPfx g.cn pirg.groupPrefixStr)), s) := by
  have hmem : udn ∈ s.users.map Prod.snd :=
    List.mem_map.2 ⟨(member, udn), List.mem_of_find?_eq_some husr, rfl⟩
  simp only [pirg.userInAnyPIRG]
  rw [bind_run_ok _ (pirg_getUserDN_run husr hudn),
    bind_run_ok _ (GetGroupsForUser_run hmem),
    anyGroupWithPfx_over_groups pirg.groupPrefixStr _ s
      (fun g hg => htidy g (List.mem_of_mem_filter hg))]

theorem pirg_userIsAdminInAnyPIRG_run (cfg : Config) {s : Directory} {member udn : String}
    (husr : s.users.find? (fun p => p.1 == member) = some (member, udn)) (hudn : udn ≠ "")
    (htidy : ∀ g ∈ s.groups, noComma g.cn ∧ '=' ∉ g.cn.data)
    (hex : ∀ g ∈ s.groups, g.members.contains udn = true →
      hasPfx g.cn pirg.groupPrefixStr = true →
      containsChar (trimPfx g.cn pirg.groupPrefixStr) '.' = false →
      (findGroup? s
        (pirg.getPIRGAdminsGroupDN cfg (trimPfx g.cn pirg.groupPrefixStr))).isSome) :
    pirg.userIsAdminInAnyPIRG cfg member s =
      (Except.ok ((s.groups.filter (fun g => g.members.contains udn)).any
        (fun g => hasPfx g.cn pirg.groupPrefixStr &&
          !containsChar (trimPfx g.cn pirg.groupPrefixStr) '.' &&
          adminProbe s (pirg.getPIRGAdminsGroupDN cfg) udn
            (trimPfx g.cn pirg.groupPrefixStr))), s) := by
  have hmem : udn ∈ s.users.map Prod.snd :=
    List.mem_map.2 ⟨(member, udn), List.mem_of_find?_eq_some husr, rfl⟩
  simp only [pirg.userIsAdminInAnyPIRG]
  rw [bind_run_ok _ (pirg_getUserDN_run husr hudn),
    bind_run_ok _ (GetGroupsForUser_run hmem),
    anyAdminGroupWithPfx_over_groups pirg.groupPrefixStr _ udn _ s
      (fun g hg => htidy g (List.mem_of_mem_filter hg))
      (fun g hg => hex g (List.mem_of_mem_filter hg) (List.mem_filter.1 hg).2)]

/-! Shrinking evolution: erasures preserve every group's identity. -/

theorem findGroup?_map_dnPreserving (l : List GroupEntry) (F : GroupEntry → GroupEntry)
    (hF : ∀ g, (F g).dn = g.dn) (dn : String) :
    (l.map F).find? (fun g => g.dn == dn) = (l.find? (fun g => g.dn == dn)).map F := by
  induction l with
  | nil => rfl
  | cons g t ih =>
    simp only [List.map_cons, List.find?_cons, hF g]
    by_cases h : (g.dn == dn) = true
    · simp [h]
    · simp only [h]
      simpa using ih

theorem shrinkOf_refl (s : Directory) : ShrinkOf s s :=
  ⟨rfl, rfl, id, (List.map_id s.groups).symm,
    fun g => ⟨rfl, rfl, rfl, fun _ hx => hx⟩⟩

theorem shrinkOf_trans {s1 s2 s3 : Directory} (h12 : ShrinkOf s1 s2) (h23 : ShrinkOf s2 s3) :
    ShrinkOf s1 s3 := by
  obtain ⟨ho1, hu1, F1, hm1, hp1⟩ := h12
  obtain ⟨ho2, hu2, F2, hm2, hp2⟩ := h23
  refine ⟨ho2.trans ho1, hu2.trans hu1, F2 ∘ F1, ?_, fun g => ?_⟩
  · rw [hm2, hm1, List.map_map]
  · refine ⟨((hp2 (F1 g)).1).trans (hp1 g).1, ((hp2 (F1 g)).2.1).trans (hp1 g).2.1,
      ((hp2 (F1 g)).2.2.1).trans (hp1 g).2.2.1, fun x hx => (hp1 g).2.2.2 ((hp2 (F1 g)).2.2.2 hx)⟩

theorem shrinkOf_updateErase (s : Directory) (dn u : String) :
    ShrinkOf s (updateMembers s dn (fun m => m.erase u)) := by
  refine ⟨rfl, rfl, fun g => if g.dn = dn then ⟨g.cn, g.ou, g.gid, g.members.erase u⟩ else g,
    rfl, fun g => ?_⟩
  have hF : (fun g => if g.dn = dn then
      (⟨g.cn, g.ou, g.gid, g.members.erase u⟩ : GroupEntry) else g) g =
      if g.dn = dn then ⟨g.cn, g.ou, g.gid, g.members.erase u⟩ else g := rfl
  rw [hF]
  by_cases h : g.dn = dn
  · rw [if_pos h]
    exact ⟨rfl, rfl, rfl, List.erase_subset u g.members⟩
  · rw [if_neg h]
    exact ⟨rfl, rfl, rfl, fun _ hx => hx⟩

theorem removeUserFromEach_run (u : String) (l : List String) :
    ∀ s : Directory, (∀ dn ∈ l, (findGroup? s dn).isSome) → l.Nodup →
    ∃ s', removeUserFromEach u l s = (Except.ok (), s') ∧
      (∀ dn ∈ l, findGroup? s' dn = (findGroup? s dn).map
        (fun g => ⟨g.cn, g.ou, g.gid, g.members.erase u⟩)) ∧
      FrameEq s s' l ∧ ShrinkOf s s' := by
  induction l with
  | nil =>
    intro s _ _
    exact ⟨s, rfl, by simp, frameEq_refl s [], shrinkOf_refl s⟩
  | cons dn t ih =>
    intro s hex hnd
    obtain ⟨g, hg⟩ := Option.isSome_iff_exists.1 (hex dn (List.mem_cons_self dn t))
    have hdnt : dn ∉ t := (List.nodup_cons.1 hnd).1
    by_cases hm : u ∈ g.members
    · have hc : g.members.contains u = true := List.elem_iff.2 hm
      obtain ⟨s', hrun', hfinds', hframe', hshrink'⟩ :=
        ih (updateMembers s dn (fun m => m.erase u))
          (fun dn0 hdn0 => by
            rw [findGroup?_updateMembers_isSome]
            exact hex dn0 (List.mem_cons_of_mem dn hdn0))
          (List.nodup_cons.1 hnd).2
      refine ⟨s', ?_, ?_, ?_, shrinkOf_trans (shrinkOf_updateErase s dn u) hshrink'⟩
      · simp only [removeUserFromEach]
        rw [bind_run_ok _ (UserInGroup_run hg u), hc,
          if_pos (show (true : Bool) = true from rfl),
          bind_run_ok _ (RemoveUserFromGroup_run_mem hg hm)]
        exact hrun'
      · intro dn0 hdn0
        rcases List.mem_cons.1 hdn0 with h0 | h0
        · subst h0
          rw [hframe'.find hdnt, findGroup?_updateMembers_self s dn0 _ g hg, hg]
          rfl
        · rw [hfinds' dn0 h0,
            findGroup?_updateMembers_ne s dn _ dn0 (fun hh => hdnt (hh ▸ h0))]
      · exact frameEq_trans (frameEq_updateMembers s dn _ (dn :: t) (by simp))
          (frameEq_mono hframe' (by intro x hx; exact List.mem_cons_of_mem dn hx))
    · have hc : g.members.contains u = false :=
        Bool.eq_false_iff.2 (fun hcc => hm (List.elem_iff.1 hcc))
      obtain ⟨s', hrun', hfinds', hframe', hshrink'⟩ :=
        ih s (fun dn0 hdn0 => hex dn0 (List.mem_cons_of_mem dn hdn0)) (List.nodup_cons.1 hnd).2
      refine ⟨s', ?_, ?_, ?_, hshrink'⟩
      · simp only [removeUserFromEach]
        rw [bind_run_ok _ (UserInGroup_run hg u), hc,
          if_neg (show ¬((false : Bool) = true) from by decide)]
        exact hrun'
      · intro dn0 hdn0
        rcases List.mem_cons.1 hdn0 with h0 | h0
        · subst h0
          rw [hframe'.find hdnt, hg]
          show some g = some ⟨g.cn, g.ou, g.gid, g.members.erase u⟩
          rw [List.erase_of_not_mem hm]
        · exact hfinds' dn0 h0
      · exact frameEq_mono hframe' (by intro x hx; exact List.mem_cons_of_mem dn hx)

theorem ShrinkOf.dn_preserved {s s' : Directory} (h : ShrinkOf s s') :
    ∃ F : GroupEntry → GroupEntry, s'.groups = s.groups.map F ∧
      (∀ g, (F g).dn = g.dn) ∧ ∀ g, (F g).cn = g.cn ∧ (F g).members ⊆ g.members := by
  obtain ⟨_, _, F, hm, hp⟩ := h
  refine ⟨F, hm, fun g => ?_, fun g => ⟨(hp g).1, (hp g).2.2.2⟩⟩
  show "CN=" ++ (F g).cn ++ "," ++ (F g).ou = "CN=" ++ g.cn ++ "," ++ g.ou
  rw [(hp g).1, (hp g).2.1]

theorem ShrinkOf.find_isSome {s s' : Directory} (h : ShrinkOf s s') (dn : String) :
    (findGroup? s' dn).isSome = (findGroup? s dn).isSome := by
  obtain ⟨F, hm, hdn, _⟩ := h.dn_preserved
  show (s'.groups.find? (fun g => g.dn == dn)).isSome = _
  rw [hm, findGroup?_map_dnPreserving s.groups F hdn dn]
  show (Option.map F (s.groups.find? (fun g => g.dn == dn))).isSome =
    (s.groups.find? (fun g => g.dn == dn)).isSome
  cases s.groups.find? (fun g => g.dn == dn) <;> rfl

/-! Exclusion facts: which DNs can appear among an entity's sub-groups. -/

theorem validShortName_noComma {n : String} (h : validShortName n) : noComma n := by
  intro hc
  rcases h.2 ',' hc with h1 | h1 | h1 <;> exact absurd h1 (by decide)

theorem noComma_append {a b : String} (ha : noComma a) (hb : noComma b) :
    noComma (a ++ b) := by
  intro hm
  rw [String.data_append] at hm
  rcases List.mem_append.1 hm with hx | hx
  · exact ha hx
  · exact hb hx

theorem noComma_pirg_full {n : String} (h : validShortName n) :
    noComma (pirg.getPIRGFullName n) :=
  noComma_append (by decide) (validShortName_noComma h)

theorem noComma_pirg_admins {n : String} (h : validShortName n) :
    noComma (pirg.getPIRGAdminsGroupFullName n) := by
  show noComma (pirg.groupPrefixStr ++ n ++ ".admins")
  exact noComma_append (noComma_append (by decide) (validShortName_noComma h)) (by decide)

theorem noComma_pirg_pi {n : String} (h : validShortName n) :
    noComma (pirg.getPIRGPIGroupFullName n) := by
  show noComma (pirg.groupPrefixStr ++ n ++ ".pi")
  exact noComma_append (noComma_append (by decide) (validShortName_noComma h)) (by decide)

theorem noComma_cephfs_full {n : String} (h : validShortName n) :
    noComma (cephfs.getCEPHFSFullName n) :=
  noComma_append (by decide) (validShortName_noComma h)

theorem noComma_cephfs_admins {n : String} (h : validShortName n) :
    noComma (cephfs.getCEPHFSAdminsGroupFullName n) := by
  show noComma (cephfs.groupPrefixStr ++ n ++ ".admins")
  exact noComma_append (noComma_append (by decide) (validShortName_noComma h)) (by decide)

theorem noComma_cephfs_owner {n : String} (h : validShortName n) :
    noComma (cephfs.getCEPHFSOWNERGroupFullName n) := by
  show noComma (cephfs.groupPrefixStr ++ n ++ ".owner")
  exact noComma_append (noComma_append (by decide) (validShortName_noComma h)) (by decide)

theorem pirg_ou_ne_subOU (cfg : Config) (n : String) :
    pirg.getPIRGOUDN cfg n ≠ pirg.getPIRGSubgroupOUDN cfg n := by
  intro h
  have hl := congrArg String.length h
  have h10 : ("OU=Groups," : String).length = 10 := rfl
  simp only [pirg.getPIRGSubgroupOUDN, String.length_append] at hl
  omega

theorem cephfs_ou_ne_subOU (cfg : Config) (n : String) :
    cephfs.getCEPHFSOUDN cfg n ≠ cephfs.getCEPHFSSubgroupOUDN cfg n := by
  intro h
  have hl := congrArg String.length h
  have h10 : ("OU=Groups," : String).length = 10 := rfl
  simp only [cephfs.getCEPHFSSubgroupOUDN, String.length_append] at hl
  omega

theorem char3_pirg_subOU (cfg : Config) (n : String) :
    char3 (pirg.getPIRGSubgroupOUDN cfg n) = 'G' := by
  simp [char3, pirg.getPIRGSubgroupOUDN, String.data_append]

theorem char3_cephfs_subOU (cfg : Config) (n : String) :
    char3 (cephfs.getCEPHFSSubgroupOUDN cfg n) = 'G' := by
  simp [char3, cephfs.getCEPHFSSubgroupOUDN, String.data_append]

theorem topUsers_decomp :
    pirg.topLevelUsersGroupDN = "CN=" ++ "IS.RACS.Talapas.Users" ++ "," ++ rosterOU := by
  decide

theorem topAdmins_decomp :
    pirg.topLevelAdminsGroupDN = "CN=" ++ "IS.RACS.Talapas.PirgAdmins" ++ "," ++ rosterOU := by
  decide

theorem cephfs_topUsers_decomp :
    cephfs.topLevelUsersGroupDN = "CN=" ++ "IS.RACS.Talapas.Users" ++ "," ++ rosterOU := by
  decide

theorem cephfs_topAdmins_decomp :
    cephfs.topLevelAdminsGroupDN =
      "CN=" ++ "IS.RACS.Talapas.CephAdmins" ++ "," ++ rosterOU := by
  decide

theorem rosterOU_ne_pirg_subOU (cfg : Config) (n : String) :
    rosterOU ≠ pirg.getPIRGSubgroupOUDN cfg n := by
  intro h
  have := (congrArg char3 h).symm.trans (show char3 rosterOU = 'R' from rfl)
  rw [char3_pirg_subOU] at this
  exact absurd this (by decide)

theorem rosterOU_ne_cephfs_subOU (cfg : Config) (n : String) :
    rosterOU ≠ cephfs.getCEPHFSSubgroupOUDN cfg n := by
  intro h
  have := (congrArg char3 h).symm.trans (show char3 rosterOU = 'R' from rfl)
  rw [char3_cephfs_subOU] at this
  exact absurd this (by decide)

theorem canonical_dn_notin_ou_list (s : Directory) (htidy : TidyDir s)
    (cnX ouX ou0 : String) (hnc : noComma cnX) (hne : ouX ≠ ou0) :
    ("CN=" ++ cnX ++ "," ++ ouX) ∉
      (s.groups.filter (fun g => g.ou == ou0)).map GroupEntry.dn := by
  intro hmem
  obtain ⟨g, hgf, hgdn⟩ := List.mem_map.1 hmem
  have hgou : g.ou = ou0 := by simpa using (List.mem_filter.1 hgf).2
  have hgmem := List.mem_of_mem_filter hgf
  have hinj := dnParse_inj (htidy g hgmem).1 hnc hgdn
  exact hne (hinj.2 ▸ hgou)

/-! Invariance of the two roster predicates under updates of a group whose
common name does not carry the module prefix. -/

theorem cn_at_dn {s : Directory} (htidy : TidyDir s) {g : GroupEntry} (hg : g ∈ s.groups)
    {cnX ouX : String} (hnc : noComma cnX) (hdn : g.dn = "CN=" ++ cnX ++ "," ++ ouX) :
    g.cn = cnX :=
  (dnParse_inj (htidy g hg).1 hnc hdn).1

theorem inSomePfxGroup_update_irrelevant (s : Directory) (dn : String)
    (f : List String → List String) (pfx u : String)
    (hcn : ∀ g ∈ s.groups, g.dn = dn → hasPfx g.cn pfx = false) :
    inSomePfxGroup (updateMembers s dn f) pfx u ↔ inSomePfxGroup s pfx u := by
  constructor
  · rintro ⟨g', hg', hc, hp⟩
    obtain ⟨g, hg, hgeq⟩ := List.mem_map.1 hg'
    by_cases h : g.dn = dn
    · exfalso
      have : g'.cn = g.cn := by rw [← hgeq, if_pos h]
      rw [this] at hp
      exact absurd hp (by rw [hcn g hg h]; decide)
    · rw [if_neg h] at hgeq
      exact ⟨g, hg, by rw [hgeq]; exact hc, by rw [hgeq]; exact hp⟩
  · rintro ⟨g, hg, hc, hp⟩
    by_cases h : g.dn = dn
    · exact absurd hp (by rw [hcn g hg h]; decide)
    · refine ⟨g, ?_, hc, hp⟩
      have : (if g.dn = dn then
          (⟨g.cn, g.ou, g.gid, f g.members⟩ : GroupEntry) else g) = g := if_neg h
      exact this ▸ List.mem_map.2 ⟨g, hg, rfl⟩

theorem adminProbe_eq_true_iff (s : Directory) (adminsDnOf : String → String)
    (u n : String) :
    adminProbe s adminsDnOf u n = true ↔
      ∃ ga, findGroup? s (adminsDnOf n) = some ga ∧ ga.members.contains u = true := by
  unfold adminProbe
  cases h : findGroup? s (adminsDnOf n) <;> simp

theorem adminOfSomePfxGroup_update_irrelevant (s : Directory) (dn : String)
    (f : List String → List String) (pfx : String) (adminsDnOf : String → String)
    (u : String)
    (hcn : ∀ g ∈ s.groups, g.dn = dn → hasPfx g.cn pfx = false)
    (hne : ∀ n, adminsDnOf n ≠ dn) :
    adminOfSomePfxGroup (updateMembers s dn f) pfx adminsDnOf u ↔
      adminOfSomePfxGroup s pfx adminsDnOf u := by
  constructor
  · rintro ⟨g', hg', hc, hp, hdot, ga, hga, hgac⟩
    obtain ⟨g, hg, hgeq⟩ := List.mem_map.1 hg'
    by_cases h : g.dn = dn
    · exfalso
      have : g'.cn = g.cn := by rw [← hgeq, if_pos h]
      rw [this] at hp
      exact absurd hp (by rw [hcn g hg h]; decide)
    · rw [if_neg h] at hgeq
      subst hgeq
      rw [findGroup?_updateMembers_ne s dn f _ (hne (trimPfx g.cn pfx))] at hga
      exact ⟨g, hg, hc, hp, hdot, ga, hga, hgac⟩
  · rintro ⟨g, hg, hc, hp, hdot, ga, hga, hgac⟩
    by_cases h : g.dn = dn
    · exact absurd hp (by rw [hcn g hg h]; decide)
    · refine ⟨g, ?_, hc, hp, hdot, ga, ?_, hgac⟩
      · have : (if g.dn = dn then
            (⟨g.cn, g.ou, g.gid, f g.members⟩ : GroupEntry) else g) = g := if_neg h
        exact this ▸ List.mem_map.2 ⟨g, hg, rfl⟩
      · rw [findGroup?_updateMembers_ne s dn f _ (hne (trimPfx g.cn pfx))]
        exact hga

theorem boolIn_iff (s : Directory) (udn pfx : String) :
    ((s.groups.filter (fun g => g.members.contains udn)).any
      (fun g => hasPfx g.cn pfx) = true) ↔ inSomePfxGroup s pfx udn := by
  rw [List.any_filter, List.any_eq_true]
  unfold inSomePfxGroup
  simp [Bool.and_eq_true]

theorem boolAdm_iff (s : Directory) (udn pfx : String) (adminsDnOf : String → String) :
    ((s.groups.filter (fun g => g.members.contains udn)).any
      (fun g => hasPfx g.cn pfx && !containsChar (trimPfx g.cn pfx) '.' &&
        adminProbe s adminsDnOf udn (trimPfx g.cn pfx)) = true) ↔
      adminOfSomePfxGroup s pfx adminsDnOf udn := by
  rw [List.any_filter, List.any_eq_true]
  unfold adminOfSomePfxGroup
  constructor
  · rintro ⟨g, hg, hb⟩
    rw [Bool.and_eq_true, Bool.and_eq_true, Bool.and_eq_true] at hb
    obtain ⟨hc, ⟨hp, hdot⟩, hprobe⟩ := hb
    obtain ⟨ga, hga, hgac⟩ := (adminProbe_eq_true_iff s adminsDnOf udn _).1 hprobe
    exact ⟨g, hg, hc, hp, by simpa using hdot, ga, hga, hgac⟩
  · rintro ⟨g, hg, hc, hp, hdot, ga, hga, hgac⟩
    refine ⟨g, hg, ?_⟩
    rw [Bool.and_eq_true, Bool.and_eq_true, Bool.and_eq_true]
    exact ⟨hc, ⟨hp, by simp [hdot]⟩,
      (adminProbe_eq_true_iff s adminsDnOf udn _).2 ⟨ga, hga, hgac⟩⟩

/-! Transfers along a shrinking evolution. -/

theorem ShrinkOf.filter_dns {s s' : Directory} (h : ShrinkOf s s') (ou : String) :
    (s'.groups.filter (fun g => g.ou == ou)).map GroupEntry.dn =
      (s.groups.filter (fun g => g.ou == ou)).map GroupEntry.dn := by
  obtain ⟨_, _, F, hm, hp⟩ := h
  rw [hm]
  induction s.groups with
  | nil => rfl
  | cons g t ih =>
    have hou : (F g).ou = g.ou := (hp g).2.1
    have hdn : (F g).dn = g.dn := by
      show "CN=" ++ (F g).cn ++ "," ++ (F g).ou = "CN=" ++ g.cn ++ "," ++ g.ou
      rw [(hp g).1, hou]
    by_cases hc : g.ou = ou
    · rw [List.map_cons, List.filter_cons, List.filter_cons, hou,
        if_pos (show (g.ou == ou) = true by simp [hc]),
        if_pos (show (g.ou == ou) = true by simp [hc]),
        List.map_cons, List.map_cons, ih, hdn]
    · rw [List.map_cons, List.filter_cons, List.filter_cons, hou,
        if_neg (show ¬((g.ou == ou) = true) by simp [hc]),
        if_neg (show ¬((g.ou == ou) = true) by simp [hc])]
      exact ih

theorem ShrinkOf.cn_parts {s s' : Directory} (h : ShrinkOf s s')
    (htidy : TidyDir s) : ∀ g' ∈ s'.groups, noComma g'.cn ∧ '=' ∉ g'.cn.data := by
  obtain ⟨_, _, F, hm, hp⟩ := h
  intro g' hg'
  rw [hm] at hg'
  obtain ⟨g, hg, hgeq⟩ := List.mem_map.1 hg'
  have := htidy g hg
  rw [← hgeq, (hp g).1]
  exact ⟨this.1, this.2.1⟩

/-! The conditional roster removals of the pirg module. -/

theorem pirg_removeTopUsers_run {s : Directory} {member udn : String} {gT : GroupEntry}
    (husr : s.users.find? (fun p => p.1 == member) = some (member, udn)) (hudn : udn ≠ "")
    (hT : findGroup? s pirg.topLevelUsersGroupDN = some gT) :
    ∃ s', pirg.removeUserFromTopLevelUsersGroup member s = (Except.ok (), s') ∧
      findGroup? s' pirg.topLevelUsersGroupDN =
        some ⟨gT.cn, gT.ou, gT.gid, gT.members.erase udn⟩ ∧
      FrameEq s s' [pirg.topLevelUsersGroupDN] ∧ ShrinkOf s s' := by
  by_cases hm : udn ∈ gT.members
  · have hc : gT.members.contains udn = true := List.elem_iff.2 hm
    refine ⟨updateMembers s pirg.topLevelUsersGroupDN (fun m => m.erase udn), ?_, ?_, ?_, ?_⟩
    · simp only [pirg.removeUserFromTopLevelUsersGroup]
      rw [bind_run_ok _ (pirg_getUserDN_run husr hudn),
        bind_run_ok _ (UserInGroup_run hT udn), hc,
        if_pos (show (true : Bool) = true from rfl)]
      exact RemoveUserFromGroup_run_mem hT hm
    · exact findGroup?_updateMembers_self s _ _ gT hT
    · exact frameEq_updateMembers s _ _ _ (by simp)
    · exact shrinkOf_updateErase s _ udn
  · have hc : gT.members.contains udn = false :=
      Bool.eq_false_iff.2 (fun hcc => hm (List.elem_iff.1 hcc))
    refine ⟨s, ?_, ?_, frameEq_refl s _, shrinkOf_refl s⟩
    · simp only [pirg.removeUserFromTopLevelUsersGroup]
      rw [bind_run_ok _ (pirg_getUserDN_run husr hudn),
        bind_run_ok _ (UserInGroup_run hT udn), hc,
        if_neg (show ¬((false : Bool) = true) from by decide)]
      rfl
    · rw [hT, List.erase_of_not_mem hm]

theorem pirg_removeTopAdmins_run {s : Directory} {member udn : String} {gT : GroupEntry}
    (husr : s.users.find? (fun p => p.1 == member) = some (member, udn)) (hudn : udn ≠ "")
    (hT : findGroup? s pirg.topLevelAdminsGroupDN = some gT) :
    ∃ s', pirg.removeUserFromTopLevelAdminsGroup member s = (Except.ok (), s') ∧
      findGroup? s' pirg.topLevelAdminsGroupDN =
        some ⟨gT.cn, gT.ou, gT.gid, gT.members.erase udn⟩ ∧
      FrameEq s s' [pirg.topLevelAdminsGroupDN] ∧ ShrinkOf s s' := by
  by_cases hm : udn ∈ gT.members
  · have hc : gT.members.contains udn = true := List.elem_iff.2 hm
    refine ⟨updateMembers s pirg.topLevelAdminsGroupDN (fun m => m.erase udn), ?_, ?_, ?_, ?_⟩
    · simp only [pirg.removeUserFromTopLevelAdminsGroup]
      rw [bind_run_ok _ (pirg_getUserDN_run husr hudn),
        bind_run_ok _ (UserInGroup_run hT udn), hc,
        if_pos (show (true : Bool) = true from rfl)]
      exact RemoveUserFromGroup_run_mem hT hm
    · exact findGroup?_updateMembers_self s _ _ gT hT
    · exact frameEq_updateMembers s _ _ _ (by simp)
    · exact shrinkOf_updateErase s _ udn
  · have hc : gT.members.contains udn = false :=
      Bool.eq_false_iff.2 (fun hcc => hm (List.elem_iff.1 hcc))
    refine ⟨s, ?_, ?_, frameEq_refl s _, shrinkOf_refl s⟩
    · simp only [pirg.removeUserFromTopLevelAdminsGroup]
      rw [bind_run_ok _ (pirg_getUserDN_run husr hudn),
        bind_run_ok _ (UserInGroup_run hT udn), hc,
        if_neg (show ¬((false : Bool) = true) from by decide)]
      rfl
    · rw [hT, List.erase_of_not_mem hm]

/-! Plumbing for the membership-removal coordinators: executing a
conditional statement embedded with a do-notation join point, finding a
group by its own DN, and transferring the roster predicates across the
states produced by a removal cascade. -/

/-- Running a conditional statement through its join-point continuation:
once the guarded action is known to succeed, the whole statement passes
control to the continuation in the resulting state. -/
theorem ite_bind_run {β : Type} (c : Prop) [inst : Decidable c] (A B : LdapM Unit)
    (K : Unit → LdapM β) {s s' : Directory}
    (h : (if c then A else B) s = (Except.ok (), s')) :
    (if c then A >>= K else B >>= K) s = K () s' := by
  by_cases hc : c
  · rw [if_pos hc] at h ⊢
    exact bind_run_ok K h
  · rw [if_neg hc] at h ⊢
    exact bind_run_ok K h

/-- The if-member-then-remove statement always succeeds when the group
exists, and leaves the group with its member list erased of the user
(erasure being the identity when the user was absent). -/
theorem condRemove_run (s : Directory) (dn udn : String) {g : GroupEntry}
    (hfind : findGroup? s dn = some g) :
    ∃ s', ((if (g.members.contains udn) = true then ldap.RemoveUserFromGroup dn udn
        else pure () : LdapM Unit) s = (Except.ok (), s')) ∧
      findGroup? s' dn = some ⟨g.cn, g.ou, g.gid, g.members.erase udn⟩ ∧
      FrameEq s s' [dn] ∧ ShrinkOf s s' := by
  by_cases hm : udn ∈ g.members
  · have hc : g.members.contains udn = true := List.elem_iff.2 hm
    refine ⟨updateMembers s dn (fun m => m.erase udn), ?_,
      findGroup?_updateMembers_self s dn _ g hfind,
      frameEq_updateMembers s dn _ _ (by simp), shrinkOf_updateErase s dn udn⟩
    rw [if_pos hc]
    exact RemoveUserFromGroup_run_mem hfind hm
  · have hc : g.members.contains udn = false :=
      Bool.eq_false_iff.2 (fun hcc => hm (List.elem_iff.1 hcc))
    refine ⟨s, ?_, ?_, frameEq_refl s _, shrinkOf_refl s⟩
    · rw [if_neg (show ¬(g.members.contains udn = true) from by rw [hc]; decide)]
      rfl
    · rw [hfind]
      show some g = some ⟨g.cn, g.ou, g.gid, g.members.erase udn⟩
      rw [List.erase_of_not_mem hm]

/-- In a list of groups with pairwise distinct DNs, searching for a
member group by its own DN finds that very group. -/
theorem find?_dn_self : ∀ (l : List GroupEntry), (l.map GroupEntry.dn).Nodup →
    ∀ {g : GroupEntry}, g ∈ l → l.find? (fun g0 => g0.dn == g.dn) = some g := by
  intro l
  induction l with
  | nil => intro _ g hg; cases hg
  | cons a t ih =>
    intro hnd g hg
    rcases List.mem_cons.1 hg with h | h
    · subst h
      exact List.find?_cons_of_pos t (by simp)
    · have hane : ¬((fun g0 => g0.dn == g.dn) a = true) := by
        simp only [beq_iff_eq]
        intro he
        exact (List.nodup_cons.1 hnd).1 (he ▸ List.mem_map_of_mem GroupEntry.dn h)
      rw [List.find?_cons_of_neg t hane]
      exact ih (List.nodup_cons.1 hnd).2 h

/-- Directory version of find?_dn_self. -/
theorem findGroup?_self {s : Directory} (hdnd : (s.groups.map GroupEntry.dn).Nodup)
    {g : GroupEntry} (hg : g ∈ s.groups) : findGroup? s g.dn = some g :=
  find?_dn_self s.groups hdnd hg

/-- Member-shrinking evolution preserves the list of stored DNs. -/
theorem ShrinkOf.map_dn {s s' : Directory} (h : ShrinkOf s s') :
    s'.groups.map GroupEntry.dn = s.groups.map GroupEntry.dn := by
  obtain ⟨F, hm, hdn, _⟩ := h.dn_preserved
  rw [hm, List.map_map]
  exact List.map_congr_left (fun g _ => hdn g)

/-- A comma-free common name can be read off a canonical DN equation. -/
theorem cn_at_dn_parts {g : GroupEntry} (hgnc : noComma g.cn)
    {cnX ouX : String} (hnc : noComma cnX) (hdn : g.dn = "CN=" ++ cnX ++ "," ++ ouX) :
    g.cn = cnX := by
  have h : "CN=" ++ g.cn ++ "," ++ g.ou = "CN=" ++ cnX ++ "," ++ ouX := hdn
  exact (dnParse_inj hgnc hnc h).1

/-- The membership scan is invariant across a shrink step whose touched
groups all lack the naming prefix. -/
theorem inSomePfxGroup_frame_iff {s s' : Directory} {t : List String} {pfx u : String}
    (hsh : ShrinkOf s s') (hfr : FrameEq s s' t)
    (hdnd : (s.groups.map GroupEntry.dn).Nodup)
    (hcn : ∀ g ∈ s.groups, g.dn ∈ t → hasPfx g.cn pfx = false) :
    inSomePfxGroup s' pfx u ↔ inSomePfxGroup s pfx u := by
  constructor
  · rintro ⟨g', hg', hc, hp⟩
    obtain ⟨F, hm, _, hprops⟩ := hsh.dn_preserved
    rw [hm] at hg'
    obtain ⟨g0, hg0, rfl⟩ := List.mem_map.1 hg'
    refine ⟨g0, hg0, ?_, ?_⟩
    · exact List.elem_iff.2 ((hprops g0).2 (List.elem_iff.1 hc))
    · rw [← (hprops g0).1]
      exact hp
  · rintro ⟨g, hg, hc, hp⟩
    have hgt : g.dn ∉ t := by
      intro ht
      have hf := hcn g hg ht
      rw [hp] at hf
      exact absurd hf (by decide)
    have hfind : s'.groups.find? (fun g0 => g0.dn == g.dn) = some g :=
      (hfr.find hgt).trans (findGroup?_self hdnd hg)
    exact ⟨g, List.mem_of_find?_eq_some hfind, hc, hp⟩

/-- The admin scan is invariant across a shrink step whose touched groups
all lack the naming prefix and are no admins group of any entity. -/
theorem adminOfSomePfxGroup_frame_iff {s s' : Directory} {t : List String}
    {pfx u : String} {adminsDnOf : String → String}
    (hsh : ShrinkOf s s') (hfr : FrameEq s s' t)
    (hdnd : (s.groups.map GroupEntry.dn).Nodup)
    (hcn : ∀ g ∈ s.groups, g.dn ∈ t → hasPfx g.cn pfx = false)
    (hnt : ∀ n, adminsDnOf n ∉ t) :
    adminOfSomePfxGroup s' pfx adminsDnOf u ↔ adminOfSomePfxGroup s pfx adminsDnOf u := by
  constructor
  · rintro ⟨g', hg', hc, hp, hd, ga', hga', hgc⟩
    obtain ⟨F, hm, hdn, hprops⟩ := hsh.dn_preserved
    rw [hm] at hg'
    obtain ⟨g0, hg0, rfl⟩ := List.mem_map.1 hg'
    have hcn0 : (F g0).cn = g0.cn := (hprops g0).1
    rw [hcn0] at hp hd hga'
    have hmap : findGroup? s' (adminsDnOf (trimPfx g0.cn pfx)) =
        (findGroup? s (adminsDnOf (trimPfx g0.cn pfx))).map F := by
      show s'.groups.find? (fun g1 => g1.dn == adminsDnOf (trimPfx g0.cn pfx)) = _
      rw [hm]
      exact findGroup?_map_dnPreserving s.groups F hdn _
    rw [hmap] at hga'
    cases hfa : findGroup? s (adminsDnOf (trimPfx g0.cn pfx)) with
    | none => rw [hfa] at hga'; cases hga'
    | some ga0 =>
      rw [hfa] at hga'
      have hgaeq : some (F ga0) = some ga' := hga'
      refine ⟨g0, hg0, List.elem_iff.2 ((hprops g0).2 (List.elem_iff.1 hc)), hp, hd,
        ga0, hfa, ?_⟩
      rw [← Option.some.inj hgaeq] at hgc
      exact List.elem_iff.2 ((hprops ga0).2 (List.elem_iff.1 hgc))
  · rintro ⟨g, hg, hc, hp, hd, ga, hga, hgc⟩
    have hgt : g.dn ∉ t := by
      intro ht
      have hf := hcn g hg ht
      rw [hp] at hf
      exact absurd hf (by decide)
    have hfind : s'.groups.find? (fun g0 => g0.dn == g.dn) = some g :=
      (hfr.find hgt).trans (findGroup?_self hdnd hg)
    refine ⟨g, List.mem_of_find?_eq_some hfind, hc, hp, hd, ga, ?_, hgc⟩
    exact (hfr.find (hnt _)).trans hga

/-- The conditional roster demotion from the top-level admins roster:
whatever the scan returned, the statement succeeds and the roster holds
its old members when the scan was positive, the erased list otherwise. -/
theorem condRemoveTopAdmins_run {s : Directory} {member udn : String} {gT : GroupEntry}
    (b : Bool)
    (husr : s.users.find? (fun p => p.1 == member) = some (member, udn)) (hudn : udn ≠ "")
    (hT : findGroup? s pirg.topLevelAdminsGroupDN = some gT) :
    ∃ s', ((if (!b) = true then pirg.removeUserFromTopLevelAdminsGroup member
        else pure () : LdapM Unit) s = (Except.ok (), s')) ∧
      findGroup? s' pirg.topLevelAdminsGroupDN =
        some ⟨gT.cn, gT.ou, gT.gid,
          if b = true then gT.members else gT.members.erase udn⟩ ∧
      FrameEq s s' [pirg.topLevelAdminsGroupDN] ∧ ShrinkOf s s' := by
  cases b with
  | false =>
    obtain ⟨s', h1, h2, h3, h4⟩ := pirg_removeTopAdmins_run husr hudn hT
    refine ⟨s', ?_, ?_, h3, h4⟩
    · rw [if_pos (show (!false) = true from rfl)]
      exact h1
    · rw [if_neg (show ¬(false = true) from by decide)]
      exact h2
  | true =>
    refine ⟨s, ?_, ?_, frameEq_refl s _, shrinkOf_refl s⟩
    · rw [if_neg (show ¬((!true) = true) from by decide)]
      rfl
    · rw [if_pos (show true = true from rfl), hT]

/-- The conditional roster demotion from the top-level users roster. -/
theorem condRemoveTopUsers_run {s : Directory} {member udn : String} {gT : GroupEntry}
    (b : Bool)
    (husr : s.users.find? (fun p => p.1 == member) = some (member, udn)) (hudn : udn ≠ "")
    (hT : findGroup? s pirg.topLevelUsersGroupDN = some gT) :
    ∃ s', ((if (!b) = true then pirg.removeUserFromTopLevelUsersGroup member
        else pure () : LdapM Unit) s = (Except.ok (), s')) ∧
      findGroup? s' pirg.topLevelUsersGroupDN =
        some ⟨gT.cn, gT.ou, gT.gid,
          if b = true then gT.members else gT.members.erase udn⟩ ∧
      FrameEq s s' [pirg.topLevelUsersGroupDN] ∧ ShrinkOf s s' := by
  cases b with
  | false =>
    obtain ⟨s', h1, h2, h3, h4⟩ := pirg_removeTopUsers_run husr hudn hT
    refine ⟨s', ?_, ?_, h3, h4⟩
    · rw [if_pos (show (!false) = true from rfl)]
      exact h1
    · rw [if_neg (show ¬(false = true) from by decide)]
      exact h2
  | true =>
    refine ⟨s, ?_, ?_, frameEq_refl s _, shrinkOf_refl s⟩
    · rw [if_neg (show ¬((!true) = true) from by decide)]
      rfl
    · rw [if_pos (show true = true from rfl), hT]

/-- Full execution of PirgRemoveMember on a well-formed directory: the
member is erased from the primary group, from every subgroup stored in
the PIRG subgroup OU, and from the admins group; the PI group is left
alone (the member was not the PI); each top-level roster keeps the user
exactly when the corresponding scan still finds a qualifying PIRG in the
final state; nothing else changes. -/
theorem PirgRemoveMember_run (cfg : Config) (s : Directory) (name member udn : String)
    (gP gA gPI gTU gTA : GroupEntry)
    (hvn : validShortName name) (htidy : TidyDir s)
    (hdnd : (s.groups.map GroupEntry.dn).Nodup)
    (husr : s.users.find? (fun p => p.1 == member) = some (member, udn))
    (hudn : udn ≠ "")
    (hP : findGroup? s (pirg.getPIRGDN cfg name) = some gP)
    (hPmem : udn ∈ gP.members)
    (hPI : findGroup? s (pirg.getPIRGPIGroupDN cfg name) = some gPI)
    (hPInm : udn ∉ gPI.members)
    (hA : findGroup? s (pirg.getPIRGAdminsGroupDN cfg name) = some gA)
    (hTU : findGroup? s pirg.topLevelUsersGroupDN = some gTU)
    (hTA : findGroup? s pirg.topLevelAdminsGroupDN = some gTA)
    (hadm : ∀ g ∈ s.groups, g.members.contains udn = true →
      hasPfx g.cn pirg.groupPrefixStr = true →
      containsChar (trimPfx g.cn pirg.groupPrefixStr) '.' = false →
      (findGroup? s (pirg.getPIRGAdminsGroupDN cfg
        (trimPfx g.cn pirg.groupPrefixStr))).isSome) :
    ∃ s', pirg.PirgRemoveMember cfg name member s = (Except.ok (), s') ∧
      findGroup? s' (pirg.getPIRGDN cfg name) =
        some ⟨gP.cn, gP.ou, gP.gid, gP.members.erase udn⟩ ∧
      (∀ dn ∈ (s.groups.filter
          (fun g => g.ou == pirg.getPIRGSubgroupOUDN cfg name)).map GroupEntry.dn,
        findGroup? s' dn = (findGroup? s dn).map
          (fun g => ⟨g.cn, g.ou, g.gid, g.members.erase udn⟩)) ∧
      findGroup? s' (pirg.getPIRGAdminsGroupDN cfg name) =
        some ⟨gA.cn, gA.ou, gA.gid, gA.members.erase udn⟩ ∧
      findGroup? s' (pirg.getPIRGPIGroupDN cfg name) = some gPI ∧
      (∃ gTU', findGroup? s' pirg.topLevelUsersGroupDN = some gTU' ∧
        (inSomePfxGroup s' pirg.groupPrefixStr udn → gTU'.members = gTU.members) ∧
        (¬ inSomePfxGroup s' pirg.groupPrefixStr udn →
          gTU'.members = gTU.members.erase udn)) ∧
      (∃ gTA', findGroup? s' pirg.topLevelAdminsGroupDN = some gTA' ∧
        (adminOfSomePfxGroup s' pirg.groupPrefixStr
            (pirg.getPIRGAdminsGroupDN cfg) udn → gTA'.members = gTA.members) ∧
        (¬ adminOfSomePfxGroup s' pirg.groupPrefixStr
            (pirg.getPIRGAdminsGroupDN cfg) udn →
          gTA'.members = gTA.members.erase udn)) ∧
      FrameEq s s' (pirg.getPIRGDN cfg name :: pirg.getPIRGAdminsGroupDN cfg name ::
        pirg.topLevelUsersGroupDN :: pirg.topLevelAdminsGroupDN ::
        (s.groups.filter
          (fun g => g.ou == pirg.getPIRGSubgroupOUDN cfg name)).map GroupEntry.dn) := by
  have hpfx1 := pirg_dn_ne_pi cfg name
  have hpfx2 := pirg_dn_ne_admins cfg name
  have hpfx3 := pirg_pi_ne_admins cfg name
  have hTUne1 := pirg_dn_ne_topUsers cfg name
  have hTAne1 := pirg_dn_ne_topAdmins cfg name
  have hTUne2 := pirg_admins_ne_topUsers cfg name
  have hTAne2 := pirg_admins_ne_topAdmins cfg name
  have hTUne3 := pirg_pi_ne_topUsers cfg name
  have hTAne3 := pirg_pi_ne_topAdmins cfg name
  have htuta : pirg.topLevelUsersGroupDN ≠ pirg.topLevelAdminsGroupDN := by decide
  have hPc : gP.members.contains udn = true := List.elem_iff.2 hPmem
  have hPIc : gPI.members.contains udn = false :=
    Bool.eq_false_iff.2 (fun hcc => hPInm (List.elem_iff.1 hcc))
  have hLP : pirg.getPIRGDN cfg name ∉ (s.groups.filter
      (fun g => g.ou == pirg.getPIRGSubgroupOUDN cfg name)).map GroupEntry.dn :=
    canonical_dn_notin_ou_list s htidy (pirg.getPIRGFullName name)
      (pirg.getPIRGOUDN cfg name) (pirg.getPIRGSubgroupOUDN cfg name)
      (noComma_pirg_full hvn) (pirg_ou_ne_subOU cfg name)
  have hLA : pirg.getPIRGAdminsGroupDN cfg name ∉ (s.groups.filter
      (fun g => g.ou == pirg.getPIRGSubgroupOUDN cfg name)).map GroupEntry.dn :=
    canonical_dn_notin_ou_list s htidy (pirg.getPIRGAdminsGroupFullName name)
      (pirg.getPIRGOUDN cfg name) (pirg.getPIRGSubgroupOUDN cfg name)
      (noComma_pirg_admins hvn) (pirg_ou_ne_subOU cfg name)
  have hLPI : pirg.getPIRGPIGroupDN cfg name ∉ (s.groups.filter
      (fun g => g.ou == pirg.getPIRGSubgroupOUDN cfg name)).map GroupEntry.dn :=
    canonical_dn_notin_ou_list s htidy (pirg.getPIRGPIGroupFullName name)
      (pirg.getPIRGOUDN cfg name) (pirg.getPIRGSubgroupOUDN cfg name)
      (noComma_pirg_pi hvn) (pirg_ou_ne_subOU cfg name)
  have hLTU : pirg.topLevelUsersGroupDN ∉ (s.groups.filter
      (fun g => g.ou == pirg.getPIRGSubgroupOUDN cfg name)).map GroupEntry.dn := by
    rw [topUsers_decomp]
    exact canonical_dn_notin_ou_list s htidy "IS.RACS.Talapas.Users" rosterOU
      (pirg.getPIRGSubgroupOUDN cfg name) (by decide) (rosterOU_ne_pirg_subOU cfg name)
  have hLTA : pirg.topLevelAdminsGroupDN ∉ (s.groups.filter
      (fun g => g.ou == pirg.getPIRGSubgroupOUDN cfg name)).map GroupEntry.dn := by
    rw [topAdmins_decomp]
    exact canonical_dn_notin_ou_list s htidy "IS.RACS.Talapas.PirgAdmins" rosterOU
      (pirg.getPIRGSubgroupOUDN cfg name) (by decide) (rosterOU_ne_pirg_subOU cfg name)
  obtain ⟨s1, hs1⟩ : ∃ s1, updateMembers s (pirg.getPIRGDN cfg name)
      (fun m => m.erase udn) = s1 := ⟨_, rfl⟩
  have hrunP : ldap.RemoveUserFromGroup (pirg.getPIRGDN cfg name) udn s =
      (Except.ok (), s1) := by
    rw [← hs1]
    exact RemoveUserFromGroup_run_mem hP hPmem
  have hsh1 : ShrinkOf s s1 := hs1 ▸ shrinkOf_updateErase s _ udn
  have hfr1 : FrameEq s s1 [pirg.getPIRGDN cfg name] :=
    hs1 ▸ frameEq_updateMembers s _ _ _ (by simp)
  have hfind1P : findGroup? s1 (pirg.getPIRGDN cfg name) =
      some ⟨gP.cn, gP.ou, gP.gid, gP.members.erase udn⟩ := by
    rw [← hs1]
    exact findGroup?_updateMembers_self s _ _ gP hP
  have hL1 : (s1.groups.filter
      (fun g => g.ou == pirg.getPIRGSubgroupOUDN cfg name)).map GroupEntry.dn =
      (s.groups.filter
        (fun g => g.ou == pirg.getPIRGSubgroupOUDN cfg name)).map GroupEntry.dn :=
    hsh1.filter_dns _
  have hLnd : ((s.groups.filter
      (fun g => g.ou == pirg.getPIRGSubgroupOUDN cfg name)).map GroupEntry.dn).Nodup :=
    ((List.filter_sublist s.groups).map GroupEntry.dn).nodup hdnd
  have hexL : ∀ dn ∈ (s.groups.filter
      (fun g => g.ou == pirg.getPIRGSubgroupOUDN cfg name)).map GroupEntry.dn,
      (findGroup? s1 dn).isSome := by
    intro dn hdn
    obtain ⟨g, hgf, rfl⟩ := List.mem_map.1 hdn
    rw [hsh1.find_isSome, findGroup?_self hdnd (List.mem_of_mem_filter hgf)]
    rfl
  obtain ⟨s2, hrun6, hfindsL, hfrL, hsh12⟩ :=
    removeUserFromEach_run udn ((s.groups.filter
      (fun g => g.ou == pirg.getPIRGSubgroupOUDN cfg name)).map GroupEntry.dn) s1 hexL hLnd
  have hsh02 : ShrinkOf s s2 := shrinkOf_trans hsh1 hsh12
  have hfind2A : findGroup? s2 (pirg.getPIRGAdminsGroupDN cfg name) = some gA := by
    rw [hfrL.find hLA, hfr1.find (by simpa using Ne.symm hpfx2)]
    exact hA
  have hfind2PI : findGroup? s2 (pirg.getPIRGPIGroupDN cfg name) = some gPI := by
    rw [hfrL.find hLPI, hfr1.find (by simpa using Ne.symm hpfx1)]
    exact hPI
  have hfind2TU : findGroup? s2 pirg.topLevelUsersGroupDN = some gTU := by
    rw [hfrL.find hLTU, hfr1.find (by simpa using Ne.symm hTUne1)]
    exact hTU
  have hfind2TA : findGroup? s2 pirg.topLevelAdminsGroupDN = some gTA := by
    rw [hfrL.find hLTA, hfr1.find (by simpa using Ne.symm hTAne1)]
    exact hTA
  obtain ⟨s3, hrun7, hfind3A, hfr23, hsh23⟩ :=
    condRemove_run s2 (pirg.getPIRGAdminsGroupDN cfg name) udn hfind2A
  have hsh03 : ShrinkOf s s3 := shrinkOf_trans hsh02 hsh23
  have husr3 : s3.users.find? (fun p => p.1 == member) = some (member, udn) := by
    rw [hsh03.2.1]
    exact husr
  have hparts3 : ∀ g ∈ s3.groups, noComma g.cn ∧ Not (Membership.mem g.cn.data '=') :=
    hsh03.cn_parts htidy
  have hdnd3 : (s3.groups.map GroupEntry.dn).Nodup := by
    rw [hsh03.map_dn]
    exact hdnd
  have hfind3PI : findGroup? s3 (pirg.getPIRGPIGroupDN cfg name) = some gPI := by
    rw [hfr23.find (by simpa using hpfx3)]
    exact hfind2PI
  have hfind3TU : findGroup? s3 pirg.topLevelUsersGroupDN = some gTU := by
    rw [hfr23.find (by simpa using Ne.symm hTUne2)]
    exact hfind2TU
  have hfind3TA : findGroup? s3 pirg.topLevelAdminsGroupDN = some gTA := by
    rw [hfr23.find (by simpa using Ne.symm hTAne2)]
    exact hfind2TA
  have hrun8 : ((if (gPI.members.contains udn) = true then
      ldap.RemoveUserFromGroup (pirg.getPIRGPIGroupDN cfg name) udn
      else pure () : LdapM Unit) s3 = (Except.ok (), s3)) := by
    rw [if_neg (show Not (gPI.members.contains udn = true) from by rw [hPIc]; decide)]
    rfl
  have hex3 : ∀ g ∈ s3.groups, g.members.contains udn = true →
      hasPfx g.cn pirg.groupPrefixStr = true →
      containsChar (trimPfx g.cn pirg.groupPrefixStr) '.' = false →
      (findGroup? s3 (pirg.getPIRGAdminsGroupDN cfg
        (trimPfx g.cn pirg.groupPrefixStr))).isSome := by
    intro g' hg' hc hp hd
    obtain ⟨F, hmF, _, hprops⟩ := hsh03.dn_preserved
    rw [hmF] at hg'
    obtain ⟨g0, hg0, rfl⟩ := List.mem_map.1 hg'
    have hcn0 : (F g0).cn = g0.cn := (hprops g0).1
    rw [hcn0] at hp hd ⊢
    have hc0 : g0.members.contains udn = true :=
      List.elem_iff.2 ((hprops g0).2 (List.elem_iff.1 hc))
    rw [hsh03.find_isSome]
    exact hadm g0 hg0 hc0 hp hd
  have hbAdmRun := pirg_userIsAdminInAnyPIRG_run cfg husr3 hudn hparts3 hex3
  obtain ⟨s4, hrun10, hfind4TA, hfr34, hsh34⟩ :=
    condRemoveTopAdmins_run ((s3.groups.filter (fun g => g.members.contains udn)).any
      (fun g => hasPfx g.cn pirg.groupPrefixStr &&
        !containsChar (trimPfx g.cn pirg.groupPrefixStr) '.' &&
        adminProbe s3 (pirg.getPIRGAdminsGroupDN cfg) udn
          (trimPfx g.cn pirg.groupPrefixStr))) husr3 hudn hfind3TA
  have hsh04 : ShrinkOf s s4 := shrinkOf_trans hsh03 hsh34
  have husr4 : s4.users.find? (fun p => p.1 == member) = some (member, udn) := by
    rw [hsh04.2.1]
    exact husr
  have hparts4 : ∀ g ∈ s4.groups, noComma g.cn ∧ Not (Membership.mem g.cn.data '=') :=
    hsh04.cn_parts htidy
  have hdnd4 : (s4.groups.map GroupEntry.dn).Nodup := by
    rw [hsh04.map_dn]
    exact hdnd
  have hfind4TU : findGroup? s4 pirg.topLevelUsersGroupDN = some gTU := by
    rw [hfr34.find (by simpa using htuta)]
    exact hfind3TU
  have hbInRun := pirg_userInAnyPIRG_run husr4 hudn hparts4
  obtain ⟨s5, hrun12, hfind5TU, hfr45, hsh45⟩ :=
    condRemoveTopUsers_run ((s4.groups.filter (fun g => g.members.contains udn)).any
      (fun g => hasPfx g.cn pirg.groupPrefixStr)) husr4 hudn hfind4TU
  have hfind5TA : findGroup? s5 pirg.topLevelAdminsGroupDN =
      some ⟨gTA.cn, gTA.ou, gTA.gid,
        if ((s3.groups.filter (fun g => g.members.contains udn)).any
          (fun g => hasPfx g.cn pirg.groupPrefixStr &&
            !containsChar (trimPfx g.cn pirg.groupPrefixStr) '.' &&
            adminProbe s3 (pirg.getPIRGAdminsGroupDN cfg) udn
              (trimPfx g.cn pirg.groupPrefixStr))) = true
        then gTA.members else gTA.members.erase udn⟩ := by
    rw [hfr45.find (by simpa using Ne.symm htuta)]
    exact hfind4TA
  have hcnTU4 : ∀ g ∈ s4.groups, g.dn ∈ [pirg.topLevelUsersGroupDN] →
      hasPfx g.cn pirg.groupPrefixStr = false := by
    intro g hg hdn
    simp only [List.mem_singleton] at hdn
    have hcg : g.cn = "IS.RACS.Talapas.Users" :=
      cn_at_dn_parts (hparts4 g hg).1 (by decide) (by rw [hdn, topUsers_decomp])
    rw [hcg]
    decide
  have hiff45 : inSomePfxGroup s5 pirg.groupPrefixStr udn ↔
      inSomePfxGroup s4 pirg.groupPrefixStr udn :=
    inSomePfxGroup_frame_iff hsh45 hfr45 hdnd4 hcnTU4
  have hcnTA3 : ∀ g ∈ s3.groups, g.dn ∈ [pirg.topLevelAdminsGroupDN,
      pirg.topLevelUsersGroupDN] → hasPfx g.cn pirg.groupPrefixStr = false := by
    intro g hg hdn
    rcases List.mem_cons.1 hdn with h | h
    · have hcg : g.cn = "IS.RACS.Talapas.PirgAdmins" :=
        cn_at_dn_parts (hparts3 g hg).1 (by decide) (by rw [h, topAdmins_decomp])
      rw [hcg]
      decide
    · simp only [List.mem_singleton] at h
      have hcg : g.cn = "IS.RACS.Talapas.Users" :=
        cn_at_dn_parts (hparts3 g hg).1 (by decide) (by rw [h, topUsers_decomp])
      rw [hcg]
      decide
  have hfr35 : FrameEq s3 s5 [pirg.topLevelAdminsGroupDN, pirg.topLevelUsersGroupDN] :=
    frameEq_trans (frameEq_mono hfr34 (by simp)) (frameEq_mono hfr45 (by simp))
  have hsh35 : ShrinkOf s3 s5 := shrinkOf_trans hsh34 hsh45
  have hnt35 : ∀ n, pirg.getPIRGAdminsGroupDN cfg n ∉
      [pirg.topLevelAdminsGroupDN, pirg.topLevelUsersGroupDN] := by
    intro n hmem
    rcases List.mem_cons.1 hmem with h | h
    · exact pirg_admins_ne_topAdmins cfg n h
    · simp only [List.mem_singleton] at h
      exact pirg_admins_ne_topUsers cfg n h
  have hiff35 : adminOfSomePfxGroup s5 pirg.groupPrefixStr
      (pirg.getPIRGAdminsGroupDN cfg) udn ↔ adminOfSomePfxGroup s3 pirg.groupPrefixStr
      (pirg.getPIRGAdminsGroupDN cfg) udn :=
    adminOfSomePfxGroup_frame_iff hsh35 hfr35 hdnd3 hcnTA3 hnt35
  refine ⟨s5, ?_, ?_, ?_, ?_, ?_, ?_, ?_, ?_⟩
  · simp only [pirg.PirgRemoveMember]
    rw [bind_run_ok _ (pirg_getUserDN_run husr hudn)]
    rw [bind_run_ok _ (UserInGroup_run hP udn)]
    rw [hPc, if_neg (show Not ((!true) = true) from by decide)]
    rw [bind_run_ok _ (UserInGroup_run hPI udn)]
    rw [hPIc, if_neg (show Not (false = true) from by decide)]
    rw [bind_run_ok _ hrunP]
    rw [bind_run_ok _ (show ldap.GetGroupDNsInOU (pirg.getPIRGSubgroupOUDN cfg name) s1 =
      (Except.ok ((s.groups.filter
        (fun g => g.ou == pirg.getPIRGSubgroupOUDN cfg name)).map GroupEntry.dn), s1) from
      by rw [GetGroupDNsInOU_run, hL1])]
    rw [bind_run_ok _ hrun6]
    rw [bind_run_ok _ (UserInGroup_run hfind2A udn)]
    rw [ite_bind_run _ _ _ _ hrun7]
    rw [bind_run_ok _ (UserInGroup_run hfind3PI udn)]
    rw [ite_bind_run _ _ _ _ hrun8]
    rw [bind_run_ok _ hbAdmRun]
    rw [ite_bind_run _ _ _ _ hrun10]
    rw [bind_run_ok _ hbInRun]
    exact hrun12
  · rw [hfr45.find (by simpa using hTUne1), hfr34.find (by simpa using hTAne1),
      hfr23.find (by simpa using hpfx2), hfrL.find hLP]
    exact hfind1P
  · intro dn hdn
    have h1 : dn ≠ pirg.topLevelUsersGroupDN := fun he => hLTU (he ▸ hdn)
    have h2 : dn ≠ pirg.topLevelAdminsGroupDN := fun he => hLTA (he ▸ hdn)
    have h3 : dn ≠ pirg.getPIRGAdminsGroupDN cfg name := fun he => hLA (he ▸ hdn)
    have h4 : dn ≠ pirg.getPIRGDN cfg name := fun he => hLP (he ▸ hdn)
    rw [hfr45.find (by simpa using h1), hfr34.find (by simpa using h2),
      hfr23.find (by simpa using h3), hfindsL dn hdn, hfr1.find (by simpa using h4)]
  · rw [hfr45.find (by simpa using hTUne2), hfr34.find (by simpa using hTAne2)]
    exact hfind3A
  · rw [hfr45.find (by simpa using hTUne3), hfr34.find (by simpa using hTAne3)]
    exact hfind3PI
  · refine ⟨⟨gTU.cn, gTU.ou, gTU.gid,
      if ((s4.groups.filter (fun g => g.members.contains udn)).any
        (fun g => hasPfx g.cn pirg.groupPrefixStr)) = true
      then gTU.members else gTU.members.erase udn⟩, hfind5TU, ?_, ?_⟩
    · intro hin
      have hb : ((s4.groups.filter (fun g => g.members.contains udn)).any
          (fun g => hasPfx g.cn pirg.groupPrefixStr)) = true :=
        (boolIn_iff s4 udn pirg.groupPrefixStr).2 (hiff45.1 hin)
      show (if ((s4.groups.filter (fun g => g.members.contains udn)).any
          (fun g => hasPfx g.cn pirg.groupPrefixStr)) = true
        then gTU.members else gTU.members.erase udn) = gTU.members
      rw [if_pos hb]
    · intro hnin
      have hb : ((s4.groups.filter (fun g => g.members.contains udn)).any
          (fun g => hasPfx g.cn pirg.groupPrefixStr)) = false := by
        cases hbv : ((s4.groups.filter (fun g => g.members.contains udn)).any
            (fun g => hasPfx g.cn pirg.groupPrefixStr)) with
        | false => rfl
        | true =>
          exact absurd (hiff45.2 ((boolIn_iff s4 udn pirg.groupPrefixStr).1 hbv)) hnin
      show (if ((s4.groups.filter (fun g => g.members.contains udn)).any
          (fun g => hasPfx g.cn pirg.groupPrefixStr)) = true
        then gTU.members else gTU.members.erase udn) = gTU.members.erase udn
      rw [hb, if_neg (show Not (false = true) from by decide)]
  · refine ⟨⟨gTA.cn, gTA.ou, gTA.gid,
      if ((s3.groups.filter (fun g => g.members.contains udn)).any
        (fun g => hasPfx g.cn pirg.groupPrefixStr &&
          !containsChar (trimPfx g.cn pirg.groupPrefixStr) '.' &&
          adminProbe s3 (pirg.getPIRGAdminsGroupDN cfg) udn
            (trimPfx g.cn pirg.groupPrefixStr))) = true
      then gTA.members else gTA.members.erase udn⟩, hfind5TA, ?_, ?_⟩
    · intro hin
      have hb : ((s3.groups.filter (fun g => g.members.contains udn)).any
          (fun g => hasPfx g.cn pirg.groupPrefixStr &&
            !containsChar (trimPfx g.cn pirg.groupPrefixStr) '.' &&
            adminProbe s3 (pirg.getPIRGAdminsGroupDN cfg) udn
              (trimPfx g.cn pirg.groupPrefixStr))) = true :=
        (boolAdm_iff s3 udn pirg.groupPrefixStr
          (pirg.getPIRGAdminsGroupDN cfg)).2 (hiff35.1 hin)
      show (if ((s3.groups.filter (fun g => g.members.contains udn)).any
          (fun g => hasPfx g.cn pirg.groupPrefixStr &&
            !containsChar (trimPfx g.cn pirg.groupPrefixStr) '.' &&
            adminProbe s3 (pirg.getPIRGAdminsGroupDN cfg) udn
              (trimPfx g.cn pirg.groupPrefixStr))) = true
        then gTA.members else gTA.members.erase udn) = gTA.members
      rw [if_pos hb]
    · intro hnin
      have hb : ((s3.groups.filter (fun g => g.members.contains udn)).any
          (fun g => hasPfx g.cn pirg.groupPrefixStr &&
            !containsChar (trimPfx g.cn pirg.groupPrefixStr) '.' &&
            adminProbe s3 (pirg.getPIRGAdminsGroupDN cfg) udn
              (trimPfx g.cn pirg.groupPrefixStr))) = false := by
        cases hbv : ((s3.groups.filter (fun g => g.members.contains udn)).any
            (fun g => hasPfx g.cn pirg.groupPrefixStr &&
              !containsChar (trimPfx g.cn pirg.groupPrefixStr) '.' &&
              adminProbe s3 (pirg.getPIRGAdminsGroupDN cfg) udn
                (trimPfx g.cn pirg.groupPrefixStr))) with
        | false => rfl
        | true =>
          exact absurd (hiff35.2 ((boolAdm_iff s3 udn pirg.groupPrefixStr
            (pirg.getPIRGAdminsGroupDN cfg)).1 hbv)) hnin
      show (if ((s3.groups.filter (fun g => g.members.contains udn)).any
          (fun g => hasPfx g.cn pirg.groupPrefixStr &&
            !containsChar (trimPfx g.cn pirg.groupPrefixStr) '.' &&
            adminProbe s3 (pirg.getPIRGAdminsGroupDN cfg) udn
              (trimPfx g.cn pirg.groupPrefixStr))) = true
        then gTA.members else gTA.members.erase udn) = gTA.members.erase udn
      rw [hb, if_neg (show Not (false = true) from by decide)]
  · refine frameEq_trans (frameEq_mono hfr1 ?_) (frameEq_trans (frameEq_mono hfrL ?_)
      (frameEq_trans (frameEq_mono hfr23 ?_) (frameEq_trans (frameEq_mono hfr34 ?_)
        (frameEq_mono hfr45 ?_))))
    · intro x hx
      simp only [List.mem_singleton] at hx
      subst hx
      simp
    · intro x hx
      simp [hx]
    · intro x hx
      simp only [List.mem_singleton] at hx
      subst hx
      simp
    · intro x hx
      simp only [List.mem_singleton] at hx
      subst hx
      simp
    · intro x hx
      simp only [List.mem_singleton] at hx
      subst hx
      simp

/-- Full execution of CephfsRemoveMember on a well-formed directory: the
member is erased from the primary group, from every subgroup stored in
the cephfs subgroup OU and from the admins group, the owner group is
untouched, and nothing outside those groups changes — in particular no
top-level roster demotion of any kind is performed. -/
theorem CephfsRemoveMember_run (cfg : Config) (s : Directory) (name member udn : String)
    (gP gA gO : GroupEntry)
    (hvn : validShortName name) (htidy : TidyDir s)
    (hdnd : (s.groups.map GroupEntry.dn).Nodup)
    (husr : s.users.find? (fun p => p.1 == member) = some (member, udn))
    (hudn : udn ≠ "")
    (hP : findGroup? s (cephfs.getCEPHFSDN cfg name) = some gP)
    (hPmem : udn ∈ gP.members)
    (hO : findGroup? s (cephfs.getCEPHFSOWNERGroupDN cfg name) = some gO)
    (hOnm : udn ∉ gO.members)
    (hA : findGroup? s (cephfs.getCEPHFSAdminsGroupDN cfg name) = some gA) :
    ∃ s', cephfs.CephfsRemoveMember cfg name member s = (Except.ok (), s') ∧
      findGroup? s' (cephfs.getCEPHFSDN cfg name) =
        some ⟨gP.cn, gP.ou, gP.gid, gP.members.erase udn⟩ ∧
      (∀ dn ∈ (s.groups.filter
          (fun g => g.ou == cephfs.getCEPHFSSubgroupOUDN cfg name)).map GroupEntry.dn,
        findGroup? s' dn = (findGroup? s dn).map
          (fun g => ⟨g.cn, g.ou, g.gid, g.members.erase udn⟩)) ∧
      findGroup? s' (cephfs.getCEPHFSAdminsGroupDN cfg name) =
        some ⟨gA.cn, gA.ou, gA.gid, gA.members.erase udn⟩ ∧
      findGroup? s' (cephfs.getCEPHFSOWNERGroupDN cfg name) = some gO ∧
      FrameEq s s' (cephfs.getCEPHFSDN cfg name ::
        cephfs.getCEPHFSAdminsGroupDN cfg name ::
        (s.groups.filter
          (fun g => g.ou == cephfs.getCEPHFSSubgroupOUDN cfg name)).map GroupEntry.dn) := by
  have hne1 := cephfs_dn_ne_owner cfg name
  have hne2 := cephfs_dn_ne_admins cfg name
  have hne3 := cephfs_owner_ne_admins cfg name
  have hPc : gP.members.contains udn = true := List.elem_iff.2 hPmem
  have hOc : gO.members.contains udn = false :=
    Bool.eq_false_iff.2 (fun hcc => hOnm (List.elem_iff.1 hcc))
  have hLP : cephfs.getCEPHFSDN cfg name ∉ (s.groups.filter
      (fun g => g.ou == cephfs.getCEPHFSSubgroupOUDN cfg name)).map GroupEntry.dn :=
    canonical_dn_notin_ou_list s htidy (cephfs.getCEPHFSFullName name)
      (cephfs.getCEPHFSOUDN cfg name) (cephfs.getCEPHFSSubgroupOUDN cfg name)
      (noComma_cephfs_full hvn) (cephfs_ou_ne_subOU cfg name)
  have hLA : cephfs.getCEPHFSAdminsGroupDN cfg name ∉ (s.groups.filter
      (fun g => g.ou == cephfs.getCEPHFSSubgroupOUDN cfg name)).map GroupEntry.dn :=
    canonical_dn_notin_ou_list s htidy (cephfs.getCEPHFSAdminsGroupFullName name)
      (cephfs.getCEPHFSOUDN cfg name) (cephfs.getCEPHFSSubgroupOUDN cfg name)
      (noComma_cephfs_admins hvn) (cephfs_ou_ne_subOU cfg name)
  have hLO : cephfs.getCEPHFSOWNERGroupDN cfg name ∉ (s.groups.filter
      (fun g => g.ou == cephfs.getCEPHFSSubgroupOUDN cfg name)).map GroupEntry.dn :=
    canonical_dn_notin_ou_list s htidy (cephfs.getCEPHFSOWNERGroupFullName name)
      (cephfs.getCEPHFSOUDN cfg name) (cephfs.getCEPHFSSubgroupOUDN cfg name)
      (noComma_cephfs_owner hvn) (cephfs_ou_ne_subOU cfg name)
  obtain ⟨s1, hs1⟩ : ∃ s1, updateMembers s (cephfs.getCEPHFSDN cfg name)
      (fun m => m.erase udn) = s1 := ⟨_, rfl⟩
  have hrunP : ldap.RemoveUserFromGroup (cephfs.getCEPHFSDN cfg name) udn s =
      (Except.ok (), s1) := by
    rw [← hs1]
    exact RemoveUserFromGroup_run_mem hP hPmem
  have hsh1 : ShrinkOf s s1 := hs1 ▸ shrinkOf_updateErase s _ udn
  have hfr1 : FrameEq s s1 [cephfs.getCEPHFSDN cfg name] :=
    hs1 ▸ frameEq_updateMembers s _ _ _ (by simp)
  have hfind1P : findGroup? s1 (cephfs.getCEPHFSDN cfg name) =
      some ⟨gP.cn, gP.ou, gP.gid, gP.members.erase udn⟩ := by
    rw [← hs1]
    exact findGroup?_updateMembers_self s _ _ gP hP
  have hL1 : (s1.groups.filter
      (fun g => g.ou == cephfs.getCEPHFSSubgroupOUDN cfg name)).map GroupEntry.dn =
      (s.groups.filter
        (fun g => g.ou == cephfs.getCEPHFSSubgroupOUDN cfg name)).map GroupEntry.dn :=
    hsh1.filter_dns _
  have hLnd : ((s.groups.filter
      (fun g => g.ou == cephfs.getCEPHFSSubgroupOUDN cfg name)).map GroupEntry.dn).Nodup :=
    ((List.filter_sublist s.groups).map GroupEntry.dn).nodup hdnd
  have hexL : ∀ dn ∈ (s.groups.filter
      (fun g => g.ou == cephfs.getCEPHFSSubgroupOUDN cfg name)).map GroupEntry.dn,
      (findGroup? s1 dn).isSome := by
    intro dn hdn
    obtain ⟨g, hgf, rfl⟩ := List.mem_map.1 hdn
    rw [hsh1.find_isSome, findGroup?_self hdnd (List.mem_of_mem_filter hgf)]
    rfl
  obtain ⟨s2, hrun6, hfindsL, hfrL, hsh12⟩ :=
    removeUserFromEach_run udn ((s.groups.filter
      (fun g => g.ou == cephfs.getCEPHFSSubgroupOUDN cfg name)).map GroupEntry.dn)
      s1 hexL hLnd
  have hfind2A : findGroup? s2 (cephfs.getCEPHFSAdminsGroupDN cfg name) = some gA := by
    rw [hfrL.find hLA, hfr1.find (by simpa using Ne.symm hne2)]
    exact hA
  have hfind2O : findGroup? s2 (cephfs.getCEPHFSOWNERGroupDN cfg name) = some gO := by
    rw [hfrL.find hLO, hfr1.find (by simpa using Ne.symm hne1)]
    exact hO
  obtain ⟨s3, hrun7, hfind3A, hfr23, hsh23⟩ :=
    condRemove_run s2 (cephfs.getCEPHFSAdminsGroupDN cfg name) udn hfind2A
  have hfind3O : findGroup? s3 (cephfs.getCEPHFSOWNERGroupDN cfg name) = some gO := by
    rw [hfr23.find (by simpa using hne3)]
    exact hfind2O
  refine ⟨s3, ?_, ?_, ?_, ?_, hfind3O, ?_⟩
  · simp only [cephfs.CephfsRemoveMember]
    rw [bind_run_ok _ (cephfs_getUserDN_run husr hudn)]
    rw [bind_run_ok _ (UserInGroup_run hP udn)]
    rw [hPc, if_neg (show Not ((!true) = true) from by decide)]
    rw [bind_run_ok _ (UserInGroup_run hO udn)]
    rw [hOc, if_neg (show Not (false = true) from by decide)]
    rw [bind_run_ok _ hrunP]
    rw [bind_run_ok _ (show ldap.GetGroupDNsInOU (cephfs.getCEPHFSSubgroupOUDN cfg name)
      s1 = (Except.ok ((s.groups.filter
        (fun g => g.ou == cephfs.getCEPHFSSubgroupOUDN cfg name)).map GroupEntry.dn),
        s1) from by rw [GetGroupDNsInOU_run, hL1])]
    rw [bind_run_ok _ hrun6]
    rw [bind_run_ok _ (UserInGroup_run hfind2A udn)]
    rw [ite_bind_run _ _ _ _ hrun7]
    rw [bind_run_ok _ (UserInGroup_run hfind3O udn)]
    rw [hOc, if_neg (show Not (false = true) from by decide)]
    rfl
  · rw [hfr23.find (by simpa using hne2), hfrL.find hLP]
    exact hfind1P
  · intro dn hdn
    have h3 : dn ≠ cephfs.getCEPHFSAdminsGroupDN cfg name := fun he => hLA (he ▸ hdn)
    have h4 : dn ≠ cephfs.getCEPHFSDN cfg name := fun he => hLP (he ▸ hdn)
    rw [hfr23.find (by simpa using h3), hfindsL dn hdn, hfr1.find (by simpa using h4)]
  · exact hfind3A
  · refine frameEq_trans (frameEq_mono hfr1 ?_) (frameEq_trans (frameEq_mono hfrL ?_)
      (frameEq_mono hfr23 ?_))
    · intro x hx
      simp only [List.mem_singleton] at hx
      subst hx
      simp
    · intro x hx
      simp [hx]
    · intro x hx
      simp only [List.mem_singleton] at hx
      subst hx
      simp

/-- After a removal wrote back a duplicate-free member list erased of the
user, no group object found at that DN holds the user any more. -/
theorem not_mem_of_find_erase {s' : Directory} {dn udn : String} {g0 : GroupEntry}
    (hnd : g0.members.Nodup)
    (hf : findGroup? s' dn = some ⟨g0.cn, g0.ou, g0.gid, g0.members.erase udn⟩) :
    ∀ g', findGroup? s' dn = some g' → udn ∉ g'.members := by
  intro g' hg' hmem
  have he : g' = ⟨g0.cn, g0.ou, g0.gid, g0.members.erase udn⟩ :=
    (Option.some.inj (hf.symm.trans hg')).symm
  rw [he] at hmem
  have hX : udn ∈ g0.members.erase udn := hmem
  exact ((hnd.mem_erase_iff).1 hX).1 rfl

/-- C7: in both entity modules, a member of the primary group, of a
subgroup, and of the admins group, who is not the owner, is after a
successful removeMember absent from the primary group, from both listed
subgroups (the cascade passing over subgroups that do not hold the user),
and from the admins group. -/
theorem C7_remove_member_cascade :
    (∀ cfg s name member udn gP gA gPI gTU gTA g1 g2,
      validShortName name → TidyDir s → (s.groups.map GroupEntry.dn).Nodup →
      s.users.find? (fun p => p.1 == member) = some (member, udn) → udn ≠ "" →
      findGroup? s (pirg.getPIRGDN cfg name) = some gP → udn ∈ gP.members →
      findGroup? s (pirg.getPIRGPIGroupDN cfg name) = some gPI → udn ∉ gPI.members →
      findGroup? s (pirg.getPIRGAdminsGroupDN cfg name) = some gA → udn ∈ gA.members →
      findGroup? s pirg.topLevelUsersGroupDN = some gTU →
      findGroup? s pirg.topLevelAdminsGroupDN = some gTA →
      (∀ g ∈ s.groups, g.members.contains udn = true →
        hasPfx g.cn pirg.groupPrefixStr = true →
        containsChar (trimPfx g.cn pirg.groupPrefixStr) '.' = false →
        (findGroup? s (pirg.getPIRGAdminsGroupDN cfg
          (trimPfx g.cn pirg.groupPrefixStr))).isSome) →
      g1 ∈ s.groups → g1.ou = pirg.getPIRGSubgroupOUDN cfg name → udn ∈ g1.members →
      g2 ∈ s.groups → g2.ou = pirg.getPIRGSubgroupOUDN cfg name →
      ∃ s', pirg.PirgRemoveMember cfg name member s = (Except.ok (), s') ∧
        (∀ g', findGroup? s' (pirg.getPIRGDN cfg name) = some g' → udn ∉ g'.members) ∧
        (∀ g', findGroup? s' g1.dn = some g' → udn ∉ g'.members) ∧
        (∀ g', findGroup? s' g2.dn = some g' → udn ∉ g'.members) ∧
        (∀ g', findGroup? s' (pirg.getPIRGAdminsGroupDN cfg name) = some g' →
          udn ∉ g'.members)) ∧
    (∀ cfg s name member udn gP gA gO g1 g2,
      validShortName name → TidyDir s → (s.groups.map GroupEntry.dn).Nodup →
      s.users.find? (fun p => p.1 == member) = some (member, udn) → udn ≠ "" →
      findGroup? s (cephfs.getCEPHFSDN cfg name) = some gP → udn ∈ gP.members →
      findGroup? s (cephfs.getCEPHFSOWNERGroupDN cfg name) = some gO →
      udn ∉ gO.members →
      findGroup? s (cephfs.getCEPHFSAdminsGroupDN cfg name) = some gA →
      udn ∈ gA.members →
      g1 ∈ s.groups → g1.ou = cephfs.getCEPHFSSubgroupOUDN cfg name → udn ∈ g1.members →
      g2 ∈ s.groups → g2.ou = cephfs.getCEPHFSSubgroupOUDN cfg name →
      ∃ s', cephfs.CephfsRemoveMember cfg name member s = (Except.ok (), s') ∧
        (∀ g', findGroup? s' (cephfs.getCEPHFSDN cfg name) = some g' →
          udn ∉ g'.members) ∧
        (∀ g', findGroup? s' g1.dn = some g' → udn ∉ g'.members) ∧
        (∀ g', findGroup? s' g2.dn = some g' → udn ∉ g'.members) ∧
        (∀ g', findGroup? s' (cephfs.getCEPHFSAdminsGroupDN cfg name) = some g' →
          udn ∉ g'.members)) := by
  constructor
  · intro cfg s name member udn gP gA gPI gTU gTA g1 g2 hvn htidy hdnd husr hudn
      hP hPmem hPI hPInm hA hAmem hTU hTA hadm hg1mem hg1ou hg1u hg2mem hg2ou
    obtain ⟨s5, hrun, hf1, hf2, hf3, _, _, _, _⟩ :=
      PirgRemoveMember_run cfg s name member udn gP gA gPI gTU gTA hvn htidy hdnd
        husr hudn hP hPmem hPI hPInm hA hTU hTA hadm
    have hgPmem : gP ∈ s.groups := List.mem_of_find?_eq_some
      (show s.groups.find? (fun g0 => g0.dn == pirg.getPIRGDN cfg name) = some gP from hP)
    have hgAmem : gA ∈ s.groups := List.mem_of_find?_eq_some
      (show s.groups.find? (fun g0 => g0.dn == pirg.getPIRGAdminsGroupDN cfg name) =
        some gA from hA)
    have hmemL1 : g1.dn ∈ (s.groups.filter
        (fun g => g.ou == pirg.getPIRGSubgroupOUDN cfg name)).map GroupEntry.dn :=
      List.mem_map_of_mem GroupEntry.dn (List.mem_filter.2 ⟨hg1mem, by simp [hg1ou]⟩)
    have hmemL2 : g2.dn ∈ (s.groups.filter
        (fun g => g.ou == pirg.getPIRGSubgroupOUDN cfg name)).map GroupEntry.dn :=
      List.mem_map_of_mem GroupEntry.dn (List.mem_filter.2 ⟨hg2mem, by simp [hg2ou]⟩)
    have hfg1 : findGroup? s5 g1.dn =
        some ⟨g1.cn, g1.ou, g1.gid, g1.members.erase udn⟩ := by
      rw [hf2 g1.dn hmemL1, findGroup?_self hdnd hg1mem]
      rfl
    have hfg2 : findGroup? s5 g2.dn =
        some ⟨g2.cn, g2.ou, g2.gid, g2.members.erase udn⟩ := by
      rw [hf2 g2.dn hmemL2, findGroup?_self hdnd hg2mem]
      rfl
    exact ⟨s5, hrun,
      not_mem_of_find_erase (htidy gP hgPmem).2.2 hf1,
      not_mem_of_find_erase (htidy g1 hg1mem).2.2 hfg1,
      not_mem_of_find_erase (htidy g2 hg2mem).2.2 hfg2,
      not_mem_of_find_erase (htidy gA hgAmem).2.2 hf3⟩
  · intro cfg s name member udn gP gA gO g1 g2 hvn htidy hdnd husr hudn
      hP hPmem hO hOnm hA hAmem hg1mem hg1ou hg1u hg2mem hg2ou
    obtain ⟨s3, hrun, hf1, hf2, hf3, _, _⟩ :=
      CephfsRemoveMember_run cfg s name member udn gP gA gO hvn htidy hdnd
        husr hudn hP hPmem hO hOnm hA
    have hgPmem : gP ∈ s.groups := List.mem_of_find?_eq_some
      (show s.groups.find? (fun g0 => g0.dn == cephfs.getCEPHFSDN cfg name) =
        some gP from hP)
    have hgAmem : gA ∈ s.groups := List.mem_of_find?_eq_some
      (show s.groups.find? (fun g0 => g0.dn == cephfs.getCEPHFSAdminsGroupDN cfg name) =
        some gA from hA)
    have hmemL1 : g1.dn ∈ (s.groups.filter
        (fun g => g.ou == cephfs.getCEPHFSSubgroupOUDN cfg name)).map GroupEntry.dn :=
      List.mem_map_of_mem GroupEntry.dn (List.mem_filter.2 ⟨hg1mem, by simp [hg1ou]⟩)
    have hmemL2 : g2.dn ∈ (s.groups.filter
        (fun g => g.ou == cephfs.getCEPHFSSubgroupOUDN cfg name)).map GroupEntry.dn :=
      List.mem_map_of_mem GroupEntry.dn (List.mem_filter.2 ⟨hg2mem, by simp [hg2ou]⟩)
    have hfg1 : findGroup? s3 g1.dn =
        some ⟨g1.cn, g1.ou, g1.gid, g1.members.erase udn⟩ := by
      rw [hf2 g1.dn hmemL1, findGroup?_self hdnd hg1mem]
      rfl
    have hfg2 : findGroup? s3 g2.dn =
        some ⟨g2.cn, g2.ou, g2.gid, g2.members.erase udn⟩ := by
      rw [hf2 g2.dn hmemL2, findGroup?_self hdnd hg2mem]
      rfl
    exact ⟨s3, hrun,
      not_mem_of_find_erase (htidy gP hgPmem).2.2 hf1,
      not_mem_of_find_erase (htidy g1 hg1mem).2.2 hfg1,
      not_mem_of_find_erase (htidy g2 hg2mem).2.2 hfg2,
      not_mem_of_find_erase (htidy gA hgAmem).2.2 hf3⟩

/-- Witness for C7 on the fixture: removing bob from PIRG acme empties
him out of the primary group, both subgroups and the admins group. -/
theorem C7_remove_member_cascade_witness :
    ∃ s', pirg.PirgRemoveMember cfgW "acme" "bob" dirW = (Except.ok (), s') ∧
      (∀ g', findGroup? s' (pirg.getPIRGDN cfgW "acme") = some g' →
        bobDN ∉ g'.members) ∧
      (∀ g', findGroup? s'
          "CN=is.racs.pirg.acme.lab,OU=Groups,OU=acme,OU=PIRGS,GB" = some g' →
        bobDN ∉ g'.members) ∧
      (∀ g', findGroup? s'
          "CN=is.racs.pirg.acme.sim,OU=Groups,OU=acme,OU=PIRGS,GB" = some g' →
        bobDN ∉ g'.members) ∧
      (∀ g', findGroup? s' (pirg.getPIRGAdminsGroupDN cfgW "acme") = some g' →
        bobDN ∉ g'.members) :=
  C7_remove_member_cascade.1 cfgW dirW "acme" "bob" bobDN
    ⟨"is.racs.pirg.acme", "OU=acme,OU=PIRGS,GB", 1500, [aliceDN, bobDN]⟩
    ⟨"is.racs.pirg.acme.admins", "OU=acme,OU=PIRGS,GB", 1501, [aliceDN, bobDN]⟩
    ⟨"is.racs.pirg.acme.pi", "OU=acme,OU=PIRGS,GB", 1502, [aliceDN]⟩
    ⟨"IS.RACS.Talapas.Users", rosterOU, 900, [aliceDN, bobDN]⟩
    ⟨"IS.RACS.Talapas.PirgAdmins", rosterOU, 901, [aliceDN, bobDN]⟩
    ⟨"is.racs.pirg.acme.lab", "OU=Groups,OU=acme,OU=PIRGS,GB", 1503, [bobDN]⟩
    ⟨"is.racs.pirg.acme.sim", "OU=Groups,OU=acme,OU=PIRGS,GB", 1504, []⟩
    (by decide) (by decide) (by decide) (by decide) (by decide) (by decide)
    (by decide) (by decide) (by decide) (by decide) (by decide) (by decide)
    (by decide) (by decide) (by decide) (by decide) (by decide) (by decide)
    (by decide)

/-- C5 (amended): the roster demotion is not uniform across the entity
modules. PirgRemoveMember does perform it — after a successful run the
top-level users (resp. admins) roster keeps the user exactly when some
prefix-named PIRG group (resp. some dot-free PIRG whose admins group
holds the user) still lists the user, and otherwise drops them. In the
cephfs module the demotion is absent altogether: CephfsRemoveMember
leaves every group other than the entity primary group, its admins group
and its subgroups — the top-level rosters in particular — untouched. -/
theorem C5_demotion_amended :
    (∀ cfg s name member udn gP gA gPI gTU gTA,
      validShortName name → TidyDir s → (s.groups.map GroupEntry.dn).Nodup →
      s.users.find? (fun p => p.1 == member) = some (member, udn) → udn ≠ "" →
      findGroup? s (pirg.getPIRGDN cfg name) = some gP → udn ∈ gP.members →
      findGroup? s (pirg.getPIRGPIGroupDN cfg name) = some gPI → udn ∉ gPI.members →
      findGroup? s (pirg.getPIRGAdminsGroupDN cfg name) = some gA →
      findGroup? s pirg.topLevelUsersGroupDN = some gTU →
      findGroup? s pirg.topLevelAdminsGroupDN = some gTA →
      (∀ g ∈ s.groups, g.members.contains udn = true →
        hasPfx g.cn pirg.groupPrefixStr = true →
        containsChar (trimPfx g.cn pirg.groupPrefixStr) '.' = false →
        (findGroup? s (pirg.getPIRGAdminsGroupDN cfg
          (trimPfx g.cn pirg.groupPrefixStr))).isSome) →
      ∃ s', pirg.PirgRemoveMember cfg name member s = (Except.ok (), s') ∧
        (∃ gTU', findGroup? s' pirg.topLevelUsersGroupDN = some gTU' ∧
          (inSomePfxGroup s' pirg.groupPrefixStr udn → gTU'.members = gTU.members) ∧
          (¬ inSomePfxGroup s' pirg.groupPrefixStr udn →
            gTU'.members = gTU.members.erase udn)) ∧
        (∃ gTA', findGroup? s' pirg.topLevelAdminsGroupDN = some gTA' ∧
          (adminOfSomePfxGroup s' pirg.groupPrefixStr
              (pirg.getPIRGAdminsGroupDN cfg) udn → gTA'.members = gTA.members) ∧
          (¬ adminOfSomePfxGroup s' pirg.groupPrefixStr
              (pirg.getPIRGAdminsGroupDN cfg) udn →
            gTA'.members = gTA.members.erase udn))) ∧
    (∀ cfg s name member udn gP gA gO,
      validShortName name → TidyDir s → (s.groups.map GroupEntry.dn).Nodup →
      s.users.find? (fun p => p.1 == member) = some (member, udn) → udn ≠ "" →
      findGroup? s (cephfs.getCEPHFSDN cfg name) = some gP → udn ∈ gP.members →
      findGroup? s (cephfs.getCEPHFSOWNERGroupDN cfg name) = some gO →
      udn ∉ gO.members →
      findGroup? s (cephfs.getCEPHFSAdminsGroupDN cfg name) = some gA →
      ∃ s', cephfs.CephfsRemoveMember cfg name member s = (Except.ok (), s') ∧
        ∀ dn, dn ≠ cephfs.getCEPHFSDN cfg name →
          dn ≠ cephfs.getCEPHFSAdminsGroupDN cfg name →
          dn ∉ (s.groups.filter
            (fun g => g.ou == cephfs.getCEPHFSSubgroupOUDN cfg name)).map GroupEntry.dn →
          findGroup? s' dn = findGroup? s dn) := by
  constructor
  · intro cfg s name member udn gP gA gPI gTU gTA hvn htidy hdnd husr hudn
      hP hPmem hPI hPInm hA hTU hTA hadm
    obtain ⟨s5, hrun, _, _, _, _, h5, h6, _⟩ :=
      PirgRemoveMember_run cfg s name member udn gP gA gPI gTU gTA hvn htidy hdnd
        husr hudn hP hPmem hPI hPInm hA hTU hTA hadm
    exact ⟨s5, hrun, h5, h6⟩
  · intro cfg s name member udn gP gA gO hvn htidy hdnd husr hudn hP hPmem hO hOnm hA
    obtain ⟨s3, hrun, _, _, _, _, hfr⟩ :=
      CephfsRemoveMember_run cfg s name member udn gP gA gO hvn htidy hdnd
        husr hudn hP hPmem hO hOnm hA
    refine ⟨s3, hrun, ?_⟩
    intro dn h1 h2 h3
    refine hfr.2.2 dn ?_
    intro hmem
    rcases List.mem_cons.1 hmem with h | hmem2
    · exact h1 h
    rcases List.mem_cons.1 hmem2 with h | h
    · exact h2 h
    · exact h3 h

/-- Witness for the amended C5 on the fixture: removing bob from PIRG
acme succeeds and yields the conditional roster demotion facts. -/
theorem C5_demotion_amended_witness :
    ∃ s', pirg.PirgRemoveMember cfgW "acme" "bob" dirW = (Except.ok (), s') ∧
      (∃ gTU', findGroup? s' pirg.topLevelUsersGroupDN = some gTU' ∧
        (inSomePfxGroup s' pirg.groupPrefixStr bobDN →
          gTU'.members = [aliceDN, bobDN]) ∧
        (¬ inSomePfxGroup s' pirg.groupPrefixStr bobDN →
          gTU'.members = [aliceDN, bobDN].erase bobDN)) ∧
      (∃ gTA', findGroup? s' pirg.topLevelAdminsGroupDN = some gTA' ∧
        (adminOfSomePfxGroup s' pirg.groupPrefixStr
            (pirg.getPIRGAdminsGroupDN cfgW) bobDN →
          gTA'.members = [aliceDN, bobDN]) ∧
        (¬ adminOfSomePfxGroup s' pirg.groupPrefixStr
            (pirg.getPIRGAdminsGroupDN cfgW) bobDN →
          gTA'.members = [aliceDN, bobDN].erase bobDN)) :=
  C5_demotion_amended.1 cfgW dirW "acme" "bob" bobDN
    ⟨"is.racs.pirg.acme", "OU=acme,OU=PIRGS,GB", 1500, [aliceDN, bobDN]⟩
    ⟨"is.racs.pirg.acme.admins", "OU=acme,OU=PIRGS,GB", 1501, [aliceDN, bobDN]⟩
    ⟨"is.racs.pirg.acme.pi", "OU=acme,OU=PIRGS,GB", 1502, [aliceDN]⟩
    ⟨"IS.RACS.Talapas.Users", rosterOU, 900, [aliceDN, bobDN]⟩
    ⟨"IS.RACS.Talapas.PirgAdmins", rosterOU, 901, [aliceDN, bobDN]⟩
    (by decide) (by decide) (by decide) (by decide) (by decide) (by decide)
    (by decide) (by decide) (by decide) (by decide) (by decide) (by decide)
    (by decide)

/-- Counterexample for C5 as stated: removing bob from cephfs vault
succeeds and leaves bob in no prefix-named cephfs group and an admin of
none, yet he remains listed in both the top-level users roster and the
top-level ceph-admins roster — the cephfs module performs no demotion. -/
theorem C5_cephfs_no_demotion_cx :
    (cephfs.CephfsRemoveMember cfgW "vault" "bob" dirW).1 = Except.ok () ∧
    ¬ inSomePfxGroup (cephfs.CephfsRemoveMember cfgW "vault" "bob" dirW).2
      cephfs.groupPrefixStr bobDN ∧
    ¬ adminOfSomePfxGroup (cephfs.CephfsRemoveMember cfgW "vault" "bob" dirW).2
      cephfs.groupPrefixStr (cephfs.getCEPHFSAdminsGroupDN cfgW) bobDN ∧
    (findGroup? (cephfs.CephfsRemoveMember cfgW "vault" "bob" dirW).2
      pirg.topLevelUsersGroupDN).map (fun gT => gT.members.contains bobDN) =
        some true ∧
    (findGroup? (cephfs.CephfsRemoveMember cfgW "vault" "bob" dirW).2
      ("CN=IS.RACS.Talapas.CephAdmins," ++ rosterOU)).map
        (fun gT => gT.members.contains bobDN) = some true := by
  decide

/-- Run equation for GetGroupMemberUsernames when every member DN
parses. -/
theorem GetGroupMemberUsernames_run {s : Directory} {dn : String} {g : GroupEntry}
    {ms : List String}
    (h : findGroup? s dn = some g)
    (hm : g.members.mapM ldap.ConvertDNToObjectName = Except.ok ms) :
    ldap.GetGroupMemberUsernames dn s = (Except.ok ms, s) := by
  have h2 : ldap.GetGroupMemberUsernames dn s =
      ((g.members.mapM ldap.ConvertDNToObjectName : Except String (List String)), s) := by
    simp [ldap.GetGroupMemberUsernames, readOnly, h]
  rw [h2, hm]

/-- Run equation for the recursive OU delete when the DN exists: every
group and OU at or under the DN disappears, users are untouched. -/
theorem DeleteOURecursively_run {s : Directory} {dn : String}
    (h : (s.ous.contains dn || s.groups.any (fun g => g.dn == dn)) = true) :
    ldap.DeleteOURecursively dn s = (Except.ok (),
      ⟨s.groups.filter (fun g => !(g.dn == dn || ("," ++ dn).data.isSuffixOf g.dn.data)),
       s.ous.filter (fun o => !(o == dn || ("," ++ dn).data.isSuffixOf o.data)),
       s.users⟩) := by
  simp only [ldap.DeleteOURecursively]
  rw [if_pos h]

/-- Run equation for the single-group delete when the DN exists. -/
theorem DeleteGroup_run {s : Directory} {dn : String}
    (h : s.groups.any (fun g => g.dn == dn) = true) :
    ldap.DeleteGroup dn s = (Except.ok (),
      ⟨s.groups.filter (fun g => !(g.dn == dn)), s.ous, s.users⟩) := by
  simp only [ldap.DeleteGroup]
  rw [if_pos h]

/-- C6 (amended): delete is a no-op when the entity is absent, and when
present the guard is a member count, not an owner comparison. PirgDelete
errors exactly when the primary group resolves more than one member
username — whoever they are — and otherwise deletes the whole PIRG OU
subtree; SoftwareDelete errors when the group resolves any member at
all, and otherwise deletes the group object. -/
theorem C6_delete_amended :
    (∀ cfg name s,
      (s.groups.find? (fun g => g.cn == pirg.getPIRGFullName name) = none →
        pirg.PirgDelete cfg name s = (Except.ok (), s)) ∧
      (∀ g ms, s.groups.find? (fun g0 => g0.cn == pirg.getPIRGFullName name) = some g →
        findGroup? s g.dn = some g →
        g.members.mapM ldap.ConvertDNToObjectName = Except.ok ms →
        (ms.length > 1 →
          pirg.PirgDelete cfg name s =
            (Except.error ("PIRG " ++ name ++ " has non-PI members, cannot delete"), s)) ∧
        (¬ ms.length > 1 →
          (s.ous.contains (pirg.getPIRGOUDN cfg name) ||
            s.groups.any (fun g0 => g0.dn == pirg.getPIRGOUDN cfg name)) = true →
          pirg.PirgDelete cfg name s = (Except.ok (),
            ⟨s.groups.filter (fun g0 => !(g0.dn == pirg.getPIRGOUDN cfg name ||
                ("," ++ pirg.getPIRGOUDN cfg name).data.isSuffixOf g0.dn.data)),
             s.ous.filter (fun o => !(o == pirg.getPIRGOUDN cfg name ||
                ("," ++ pirg.getPIRGOUDN cfg name).data.isSuffixOf o.data)),
             s.users⟩)))) ∧
    (∀ cfg name s,
      (s.groups.find? (fun g => g.cn == software.getSOFTWAREFullName name) = none →
        software.SoftwareDelete cfg name s = (Except.ok (), s)) ∧
      (∀ g g2 ms,
        s.groups.find? (fun g0 => g0.cn == software.getSOFTWAREFullName name) = some g →
        findGroup? s ("CN=" ++ software.getSOFTWAREFullName name ++ "," ++
          cfg.LDAPSoftwareDN) = some g2 →
        g2.members.mapM ldap.ConvertDNToObjectName = Except.ok ms →
        (ms.length > 0 →
          software.SoftwareDelete cfg name s =
            (Except.error ("software group is not empty. There are " ++
              toString ms.length ++ " members. Please remove all members and try again"),
             s)) ∧
        (¬ ms.length > 0 →
          s.groups.any (fun g0 => g0.dn == g.dn) = true →
          software.SoftwareDelete cfg name s = (Except.ok (),
            ⟨s.groups.filter (fun g0 => !(g0.dn == g.dn)), s.ous, s.users⟩)))) := by
  constructor
  · intro cfg name s
    constructor
    · intro hnone
      simp only [pirg.PirgDelete, pirg.findPIRGDN]
      rw [bind_run_ok _ (GetGroupDN_run_none hnone)]
      rw [if_pos (show (!("", false).2) = true from rfl)]
      rfl
    · intro g ms hfindcn hfg hms
      constructor
      · intro hlen
        simp only [pirg.PirgDelete, pirg.findPIRGDN]
        rw [bind_run_ok _ (GetGroupDN_run_some hfindcn)]
        rw [if_neg (show Not ((!(g.dn, true).2) = true) from by simp)]
        rw [bind_run_ok _ (GetGroupMemberUsernames_run hfg hms)]
        rw [if_pos hlen]
        rfl
      · intro hnlen hpre
        simp only [pirg.PirgDelete, pirg.findPIRGDN]
        rw [bind_run_ok _ (GetGroupDN_run_some hfindcn)]
        rw [if_neg (show Not ((!(g.dn, true).2) = true) from by simp)]
        rw [bind_run_ok _ (GetGroupMemberUsernames_run hfg hms)]
        rw [if_neg hnlen]
        exact DeleteOURecursively_run hpre
  · intro cfg name s
    constructor
    · intro hnone
      simp only [software.SoftwareDelete, software.findSWDN]
      rw [bind_run_ok _ (GetGroupDN_run_none hnone)]
      rw [if_pos (show (!("", false).2) = true from rfl)]
      rfl
    · intro g g2 ms hfindcn hfg hms
      constructor
      · intro hlen
        simp only [software.SoftwareDelete, software.findSWDN]
        rw [bind_run_ok _ (GetGroupDN_run_some hfindcn)]
        rw [if_neg (show Not ((!(g.dn, true).2) = true) from by simp)]
        rw [bind_run_ok _ (GetGroupMemberUsernames_run hfg hms)]
        rw [if_pos hlen]
        rfl
      · intro hnlen hpre
        simp only [software.SoftwareDelete, software.findSWDN]
        rw [bind_run_ok _ (GetGroupDN_run_some hfindcn)]
        rw [if_neg (show Not ((!(g.dn, true).2) = true) from by simp)]
        rw [bind_run_ok _ (GetGroupMemberUsernames_run hfg hms)]
        rw [if_neg hnlen]
        exact DeleteGroup_run hpre

/-- Witness for the amended C6: PIRG acme with two resolved members is
refused with the non-PI-members error on the unchanged state. -/
theorem C6_delete_amended_witness :
    pirg.PirgDelete cfgW "acme" dirW =
      (Except.error ("PIRG " ++ "acme" ++ " has non-PI members, cannot delete"), dirW) :=
  ((C6_delete_amended.1 cfgW "acme" dirW).2
    ⟨"is.racs.pirg.acme", "OU=acme,OU=PIRGS,GB", 1500, [aliceDN, bobDN]⟩
    ["alice", "bob"] (by decide) (by decide) (by decide)).1 (by decide)

/-- C6 counterexample: a primary group whose sole member is not the PI
is deleted without the promised NotEmptyError — the guard counts members
instead of comparing them with the owner. -/
theorem C6_delete_tolerates_nonowner_cx :
    (findGroup? dirD (pirg.getPIRGDN cfgW "acme")).map (fun g => g.members) =
      some [bobDN] ∧
    (findGroup? dirD (pirg.getPIRGPIGroupDN cfgW "acme")).map (fun g => g.members) =
      some [aliceDN] ∧
    bobDN ≠ aliceDN ∧
    (pirg.PirgDelete cfgW "acme" dirD).1 = Except.ok () := by
  decide

/-! Plumbing for entity creation: probing fresh DNs, appending new OU
and group objects, and following a cn-search through member rewrites. -/

/-- Searching an appended list starts with the prefix. -/
theorem find?_append_none {α : Type} {p : α → Bool} {l1 : List α} (l2 : List α)
    (h : l1.find? p = none) : (l1 ++ l2).find? p = l2.find? p := by
  rw [List.find?_append, h]
  rfl

/-- A search already settled in the prefix ignores the appended tail. -/
theorem find?_append_some {α : Type} {p : α → Bool} {l1 : List α} {a : α} (l2 : List α)
    (h : l1.find? p = some a) : (l1 ++ l2).find? p = some a := by
  rw [List.find?_append, h]
  rfl

/-- cn-keyed search commutes with a cn-preserving pointwise rewrite. -/
theorem find?_map_cn {l : List GroupEntry} {F : GroupEntry → GroupEntry}
    (hF : ∀ g, (F g).cn = g.cn) (cn : String) :
    (l.map F).find? (fun g0 => g0.cn == cn) =
      (l.find? (fun g0 => g0.cn == cn)).map F := by
  induction l with
  | nil => rfl
  | cons a t ih =>
    by_cases h : (a.cn == cn) = true
    · rw [List.map_cons, List.find?_cons_of_pos t h,
        List.find?_cons_of_pos (t.map F) (show ((F a).cn == cn) = true from by rw [hF a]; exact h)]
      rfl
    · rw [List.map_cons, List.find?_cons_of_neg t h,
        List.find?_cons_of_neg (t.map F) (show Not (((F a).cn == cn) = true) from by rw [hF a]; exact h),
        ih]

/-- A successful cn-search survives a member-rewriting evolution, with
DN, cn, gid and container intact. -/
theorem EvolveOf.find_cn {s s' : Directory} (h : EvolveOf s s') {cn : String}
    {g : GroupEntry}
    (hf : s.groups.find? (fun g0 => g0.cn == cn) = some g) :
    ∃ g', s'.groups.find? (fun g0 => g0.cn == cn) = some g' ∧
      g'.dn = g.dn ∧ g'.cn = g.cn ∧ g'.gid = g.gid ∧ g'.ou = g.ou := by
  obtain ⟨_, _, F, hm, hp⟩ := h
  refine ⟨F g, ?_, ?_, (hp g).1, (hp g).2.2, (hp g).2.1⟩
  · rw [hm, find?_map_cn (fun g0 => (hp g0).1) cn, hf]
    rfl
  · show "CN=" ++ (F g).cn ++ "," ++ (F g).ou = "CN=" ++ g.cn ++ "," ++ g.ou
    rw [(hp g).1, (hp g).2.1]

/-- EvolveOf keeps the user table. -/
theorem EvolveOf.users_eq {s s' : Directory} (h : EvolveOf s s') : s'.users = s.users :=
  h.2.1

/-- DNExists run equation on a fresh DN. -/
theorem dnExists_run_false {s : Directory} {d : String} (h : freshDN s d) :
    ldap.DNExists d s = (Except.ok false, s) := by
  obtain ⟨h1, h2, h3⟩ := h
  have e1 : s.ous.contains d = false :=
    Bool.eq_false_iff.2 (fun hc => h1 (List.elem_iff.1 hc))
  have e2 : s.groups.any (fun g => g.dn == d) = false := by
    rw [Bool.eq_false_iff]
    intro hc
    obtain ⟨g, hg, hgd⟩ := List.any_eq_true.1 hc
    exact h2 g hg (by simpa using hgd)
  have e3 : (s.users.map Prod.snd).contains d = false :=
    Bool.eq_false_iff.2 (fun hc => h3 (List.elem_iff.1 hc))
  show (Except.ok (s.ous.contains d || s.groups.any (fun g => g.dn == d) ||
    (s.users.map Prod.snd).contains d), s) = (Except.ok false, s)
  rw [e1, e2, e3]
  rfl

/-- CreateOU run equation when the OU DN is fresh: the OU is appended. -/
theorem CreateOU_run_new {s : Directory} (base name : String)
    (h : freshDN s ("OU=" ++ name ++ "," ++ base)) :
    ldap.CreateOU base name s =
      (Except.ok (), ⟨s.groups, s.ous ++ ["OU=" ++ name ++ "," ++ base], s.users⟩) := by
  simp only [ldap.CreateOU]
  rw [bind_run_ok _ (dnExists_run_false h)]
  rw [if_neg (show Not (false = true) from by decide)]
  rfl

/-- CreateGroup run equation when the group DN is fresh: a new group with
the requested gid and no members is appended. -/
theorem CreateGroup_run_new {s : Directory} (base name : String) (gid : Int)
    (h : freshDN s ("CN=" ++ name ++ "," ++ base)) :
    ldap.CreateGroup base name gid s =
      (Except.ok (), ⟨s.groups ++ [⟨name, base, gid, []⟩], s.ous, s.users⟩) := by
  simp only [ldap.CreateGroup]
  rw [bind_run_ok _ (dnExists_run_false h)]
  rw [if_neg (show Not (false = true) from by decide)]
  rfl

/-- Freshness survives appending a different OU. -/
theorem freshDN_addOU {s : Directory} {d o : String} (h : freshDN s d) (hne : d ≠ o) :
    freshDN ⟨s.groups, s.ous ++ [o], s.users⟩ d := by
  obtain ⟨h1, h2, h3⟩ := h
  refine ⟨?_, h2, h3⟩
  intro hm
  rcases List.mem_append.1 hm with hm | hm
  · exact h1 hm
  · simp only [List.mem_singleton] at hm
    exact hne hm

/-- Freshness survives appending a group at a different DN. -/
theorem freshDN_addGroup {s : Directory} {d : String} {gN : GroupEntry}
    (h : freshDN s d) (hne : gN.dn ≠ d) :
    freshDN ⟨s.groups ++ [gN], s.ous, s.users⟩ d := by
  obtain ⟨h1, h2, h3⟩ := h
  refine ⟨h1, ?_, h3⟩
  intro g hg
  rcases List.mem_append.1 hg with hg | hg
  · exact h2 g hg
  · simp only [List.mem_singleton] at hg
    subst hg
    exact hne

/-- Strings with distinct leading characters differ. -/
theorem ne_of_head {x y : String} {a b : Char} (hx : x.data.head? = some a)
    (hy : y.data.head? = some b) (hab : a ≠ b) : x ≠ y := by
  intro h
  rw [h, hy] at hx
  exact hab (Option.some.inj hx).symm

/-- The derived PIRG group DNs start with C. -/
theorem head_pirgDN (cfg : Config) (n : String) :
    (pirg.getPIRGDN cfg n).data.head? = some 'C' := by
  show ((("CN=" ++ pirg.getPIRGFullName n) ++ ",") ++ pirg.getPIRGOUDN cfg n).data.head? =
    some 'C'
  rw [String.data_append, String.data_append, String.data_append]
  rfl

/-- The derived PIRG admins group DN starts with C. -/
theorem head_pirgAdminsDN (cfg : Config) (n : String) :
    (pirg.getPIRGAdminsGroupDN cfg n).data.head? = some 'C' := by
  show ((("CN=" ++ pirg.getPIRGAdminsGroupFullName n) ++ ",") ++
    pirg.getPIRGOUDN cfg n).data.head? = some 'C'
  rw [String.data_append, String.data_append, String.data_append]
  rfl

/-- The derived PIRG PI group DN starts with C. -/
theorem head_pirgPIDN (cfg : Config) (n : String) :
    (pirg.getPIRGPIGroupDN cfg n).data.head? = some 'C' := by
  show ((("CN=" ++ pirg.getPIRGPIGroupFullName n) ++ ",") ++
    pirg.getPIRGOUDN cfg n).data.head? = some 'C'
  rw [String.data_append, String.data_append, String.data_append]
  rfl

/-- The PIRG OU DN starts with O. -/
theorem head_pirgOU (cfg : Config) (n : String) :
    (pirg.getPIRGOUDN cfg n).data.head? = some 'O' := by
  show ((("OU=" ++ n) ++ ",") ++ cfg.LDAPPirgDN).data.head? = some 'O'
  rw [String.data_append, String.data_append, String.data_append]
  rfl

/-- The PIRG subgroup OU DN starts with O. -/
theorem head_pirgSubOU (cfg : Config) (n : String) :
    (pirg.getPIRGSubgroupOUDN cfg n).data.head? = some 'O' := by
  show ("OU=Groups," ++ pirg.getPIRGOUDN cfg n).data.head? = some 'O'
  rw [String.data_append]
  rfl

/-- Allocator success run. -/
theorem GetNextGidNumber_run_ok {cfg : Config} {s : Directory}
    (h1 : highestGid s < cfg.LDAPMaxGid) (h2 : cfg.LDAPMinGid ≤ highestGid s + 1) :
    ldap.GetNextGidNumber cfg s = (Except.ok (highestGid s + 1), s) := by
  rw [GetNextGidNumber_run]
  rw [if_neg (not_le.2 h1), if_neg (not_lt.2 h2)]

/-- C1 (amended): a complete successful PirgCreate run, from a state
where the PIRG and all five derived DNs are absent, creates the primary,
admins and PI groups with gids v, v+1 and v+2, where v = highest+1 is
the allocator value. The allocator guarantees only minGid ≤ v ≤ maxGid —
the upper bound is inclusive, not strict — and the +1/+2 offsets are not
range-checked at all, so the admins and PI gids may exceed maxGid. -/
theorem C1_create_gids_amended (cfg : Config) (s : Directory) (name member udn : String)
    (hv1 : highestGid s < cfg.LDAPMaxGid)
    (hv2 : cfg.LDAPMinGid ≤ highestGid s + 1)
    (husr : s.users.find? (fun p => p.1 == member) = some (member, udn))
    (hudn : udn ≠ "")
    (hcn : s.groups.find? (fun g => g.cn == pirg.getPIRGFullName name) = none)
    (hex1 : freshDN s (pirg.getPIRGOUDN cfg name))
    (hex2 : freshDN s (pirg.getPIRGSubgroupOUDN cfg name))
    (hex3 : freshDN s (pirg.getPIRGDN cfg name))
    (hex4 : freshDN s (pirg.getPIRGAdminsGroupDN cfg name))
    (hex5 : freshDN s (pirg.getPIRGPIGroupDN cfg name)) :
    ∃ s', pirg.PirgCreate cfg name member s = (Except.ok (), s') ∧
      findGroup? s' (pirg.getPIRGDN cfg name) =
        some ⟨pirg.getPIRGFullName name, pirg.getPIRGOUDN cfg name,
          highestGid s + 1, [udn]⟩ ∧
      findGroup? s' (pirg.getPIRGAdminsGroupDN cfg name) =
        some ⟨pirg.getPIRGAdminsGroupFullName name, pirg.getPIRGOUDN cfg name,
          highestGid s + 1 + 1, [udn]⟩ ∧
      findGroup? s' (pirg.getPIRGPIGroupDN cfg name) =
        some ⟨pirg.getPIRGPIGroupFullName name, pirg.getPIRGOUDN cfg name,
          highestGid s + 1 + 2, [udn]⟩ ∧
      cfg.LDAPMinGid ≤ highestGid s + 1 ∧ highestGid s + 1 ≤ cfg.LDAPMaxGid := by
  have hne_d_a := pirg_dn_ne_admins cfg name
  have hne_d_p := pirg_dn_ne_pi cfg name
  have hne_p_a := pirg_pi_ne_admins cfg name
  have hOUne : pirg.getPIRGSubgroupOUDN cfg name ≠ pirg.getPIRGOUDN cfg name :=
    (pirg_ou_ne_subOU cfg name).symm
  have hne_g1_ou1 : pirg.getPIRGDN cfg name ≠ pirg.getPIRGOUDN cfg name :=
    ne_of_head (head_pirgDN cfg name) (head_pirgOU cfg name) (by decide)
  have hne_g1_ou2 : pirg.getPIRGDN cfg name ≠ pirg.getPIRGSubgroupOUDN cfg name :=
    ne_of_head (head_pirgDN cfg name) (head_pirgSubOU cfg name) (by decide)
  have hne_g2_ou1 : pirg.getPIRGAdminsGroupDN cfg name ≠ pirg.getPIRGOUDN cfg name :=
    ne_of_head (head_pirgAdminsDN cfg name) (head_pirgOU cfg name) (by decide)
  have hne_g2_ou2 : pirg.getPIRGAdminsGroupDN cfg name ≠
      pirg.getPIRGSubgroupOUDN cfg name :=
    ne_of_head (head_pirgAdminsDN cfg name) (head_pirgSubOU cfg name) (by decide)
  have hne_g3_ou1 : pirg.getPIRGPIGroupDN cfg name ≠ pirg.getPIRGOUDN cfg name :=
    ne_of_head (head_pirgPIDN cfg name) (head_pirgOU cfg name) (by decide)
  have hne_g3_ou2 : pirg.getPIRGPIGroupDN cfg name ≠
      pirg.getPIRGSubgroupOUDN cfg name :=
    ne_of_head (head_pirgPIDN cfg name) (head_pirgSubOU cfg name) (by decide)
  have hex2a : freshDN ⟨s.groups, s.ous ++ ["OU=" ++ name ++ "," ++ cfg.LDAPPirgDN], s.users⟩
      (pirg.getPIRGSubgroupOUDN cfg name) := freshDN_addOU hex2 hOUne
  have hex3a : freshDN ⟨s.groups, (s.ous ++ ["OU=" ++ name ++ "," ++ cfg.LDAPPirgDN]) ++ ["OU=" ++ "Groups" ++ "," ++ pirg.getPIRGOUDN cfg name], s.users⟩ (pirg.getPIRGDN cfg name) :=
    freshDN_addOU (freshDN_addOU hex3 hne_g1_ou1) hne_g1_ou2
  have hex4b : freshDN ⟨s.groups, (s.ous ++ ["OU=" ++ name ++ "," ++ cfg.LDAPPirgDN]) ++ ["OU=" ++ "Groups" ++ "," ++ pirg.getPIRGOUDN cfg name], s.users⟩
      (pirg.getPIRGAdminsGroupDN cfg name) :=
    freshDN_addOU (freshDN_addOU hex4 hne_g2_ou1) hne_g2_ou2
  have hex4a : freshDN ⟨s.groups ++ [(⟨pirg.getPIRGFullName name, pirg.getPIRGOUDN cfg name, highestGid s + 1, []⟩ : GroupEntry)], (s.ous ++ ["OU=" ++ name ++ "," ++ cfg.LDAPPirgDN]) ++ ["OU=" ++ "Groups" ++ "," ++ pirg.getPIRGOUDN cfg name], s.users⟩
      (pirg.getPIRGAdminsGroupDN cfg name) :=
    freshDN_addGroup hex4b
      (show (⟨pirg.getPIRGFullName name, pirg.getPIRGOUDN cfg name, highestGid s + 1, []⟩ : GroupEntry).dn ≠ pirg.getPIRGAdminsGroupDN cfg name from hne_d_a)
  have hex5b : freshDN ⟨s.groups, (s.ous ++ ["OU=" ++ name ++ "," ++ cfg.LDAPPirgDN]) ++ ["OU=" ++ "Groups" ++ "," ++ pirg.getPIRGOUDN cfg name], s.users⟩
      (pirg.getPIRGPIGroupDN cfg name) :=
    freshDN_addOU (freshDN_addOU hex5 hne_g3_ou1) hne_g3_ou2
  have hex5c : freshDN ⟨s.groups ++ [(⟨pirg.getPIRGFullName name, pirg.getPIRGOUDN cfg name, highestGid s + 1, []⟩ : GroupEntry)], (s.ous ++ ["OU=" ++ name ++ "," ++ cfg.LDAPPirgDN]) ++ ["OU=" ++ "Groups" ++ "," ++ pirg.getPIRGOUDN cfg name], s.users⟩
      (pirg.getPIRGPIGroupDN cfg name) :=
    freshDN_addGroup hex5b
      (show (⟨pirg.getPIRGFullName name, pirg.getPIRGOUDN cfg name, highestGid s + 1, []⟩ : GroupEntry).dn ≠ pirg.getPIRGPIGroupDN cfg name from hne_d_p)
  have hex5a : freshDN ⟨(s.groups ++ [(⟨pirg.getPIRGFullName name, pirg.getPIRGOUDN cfg name, highestGid s + 1, []⟩ : GroupEntry)]) ++ [(⟨pirg.getPIRGAdminsGroupFullName name, pirg.getPIRGOUDN cfg name, highestGid s + 1 + 1, []⟩ : GroupEntry)], (s.ous ++ ["OU=" ++ name ++ "," ++ cfg.LDAPPirgDN]) ++ ["OU=" ++ "Groups" ++ "," ++ pirg.getPIRGOUDN cfg name], s.users⟩
      (pirg.getPIRGPIGroupDN cfg name) :=
    freshDN_addGroup hex5c
      (show (⟨pirg.getPIRGAdminsGroupFullName name, pirg.getPIRGOUDN cfg name, highestGid s + 1 + 1, []⟩ : GroupEntry).dn ≠ pirg.getPIRGPIGroupDN cfg name from hne_p_a.symm)
  have hpre3 : s.groups.find? (fun g => g.dn == pirg.getPIRGDN cfg name) = none :=
    List.find?_eq_none.2 (fun g hg => by simpa using hex3.2.1 g hg)
  have hpre4 : s.groups.find? (fun g => g.dn == pirg.getPIRGAdminsGroupDN cfg name) =
      none := List.find?_eq_none.2 (fun g hg => by simpa using hex4.2.1 g hg)
  have hpre5 : s.groups.find? (fun g => g.dn == pirg.getPIRGPIGroupDN cfg name) =
      none := List.find?_eq_none.2 (fun g hg => by simpa using hex5.2.1 g hg)
  have hf5P : (((s.groups ++ [(⟨pirg.getPIRGFullName name, pirg.getPIRGOUDN cfg name, highestGid s + 1, []⟩ : GroupEntry)]) ++ [(⟨pirg.getPIRGAdminsGroupFullName name, pirg.getPIRGOUDN cfg name, highestGid s + 1 + 1, []⟩ : GroupEntry)]) ++ [(⟨pirg.getPIRGPIGroupFullName name, pirg.getPIRGOUDN cfg name, highestGid s + 1 + 2, []⟩ : GroupEntry)]).find? (fun g => g.dn == pirg.getPIRGDN cfg name) =
      some (⟨pirg.getPIRGFullName name, pirg.getPIRGOUDN cfg name, highestGid s + 1, []⟩ : GroupEntry) := by
    apply find?_append_some
    apply find?_append_some
    rw [find?_append_none _ hpre3]
    exact List.find?_cons_of_pos [] (beq_self_eq_true (pirg.getPIRGDN cfg name))
  have hf5A : (((s.groups ++ [(⟨pirg.getPIRGFullName name, pirg.getPIRGOUDN cfg name, highestGid s + 1, []⟩ : GroupEntry)]) ++ [(⟨pirg.getPIRGAdminsGroupFullName name, pirg.getPIRGOUDN cfg name, highestGid s + 1 + 1, []⟩ : GroupEntry)]) ++ [(⟨pirg.getPIRGPIGroupFullName name, pirg.getPIRGOUDN cfg name, highestGid s + 1 + 2, []⟩ : GroupEntry)]).find? (fun g => g.dn == pirg.getPIRGAdminsGroupDN cfg name) =
      some (⟨pirg.getPIRGAdminsGroupFullName name, pirg.getPIRGOUDN cfg name, highestGid s + 1 + 1, []⟩ : GroupEntry) := by
    apply find?_append_some
    rw [find?_append_none _ (by
      rw [find?_append_none _ hpre4]
      exact List.find?_eq_none.2 (fun x hx => by
        simp only [List.mem_singleton] at hx
        subst hx
        simpa using hne_d_a))]
    exact List.find?_cons_of_pos []
      (beq_self_eq_true (pirg.getPIRGAdminsGroupDN cfg name))
  have hf5PI : (((s.groups ++ [(⟨pirg.getPIRGFullName name, pirg.getPIRGOUDN cfg name, highestGid s + 1, []⟩ : GroupEntry)]) ++ [(⟨pirg.getPIRGAdminsGroupFullName name, pirg.getPIRGOUDN cfg name, highestGid s + 1 + 1, []⟩ : GroupEntry)]) ++ [(⟨pirg.getPIRGPIGroupFullName name, pirg.getPIRGOUDN cfg name, highestGid s + 1 + 2, []⟩ : GroupEntry)]).find? (fun g => g.dn == pirg.getPIRGPIGroupDN cfg name) =
      some (⟨pirg.getPIRGPIGroupFullName name, pirg.getPIRGOUDN cfg name, highestGid s + 1 + 2, []⟩ : GroupEntry) := by
    rw [find?_append_none _ (by
      rw [find?_append_none _ (by
        rw [find?_append_none _ hpre5]
        exact List.find?_eq_none.2 (fun x hx => by
          simp only [List.mem_singleton] at hx
          subst hx
          simpa using hne_d_p))]
      exact List.find?_eq_none.2 (fun x hx => by
        simp only [List.mem_singleton] at hx
        subst hx
        simpa using hne_p_a.symm))]
    exact List.find?_cons_of_pos []
      (beq_self_eq_true (pirg.getPIRGPIGroupDN cfg name))
  obtain ⟨s6, hrunSP, hfP6, hfPI6, hfA6, hfr6, hev6⟩ :=
    PirgSetPI_run cfg (⟨((s.groups ++ [(⟨pirg.getPIRGFullName name, pirg.getPIRGOUDN cfg name, highestGid s + 1, []⟩ : GroupEntry)]) ++ [(⟨pirg.getPIRGAdminsGroupFullName name, pirg.getPIRGOUDN cfg name, highestGid s + 1 + 1, []⟩ : GroupEntry)]) ++ [(⟨pirg.getPIRGPIGroupFullName name, pirg.getPIRGOUDN cfg name, highestGid s + 1 + 2, []⟩ : GroupEntry)], (s.ous ++ ["OU=" ++ name ++ "," ++ cfg.LDAPPirgDN]) ++ ["OU=" ++ "Groups" ++ "," ++ pirg.getPIRGOUDN cfg name], s.users⟩ : Directory) name member udn (⟨pirg.getPIRGFullName name, pirg.getPIRGOUDN cfg name, highestGid s + 1, []⟩ : GroupEntry) (⟨pirg.getPIRGAdminsGroupFullName name, pirg.getPIRGOUDN cfg name, highestGid s + 1 + 1, []⟩ : GroupEntry) (⟨pirg.getPIRGPIGroupFullName name, pirg.getPIRGOUDN cfg name, highestGid s + 1 + 2, []⟩ : GroupEntry)
      husr hudn hf5P hf5A hf5PI List.nodup_nil
  have hfP6n : findGroup? s6 (pirg.getPIRGDN cfg name) =
      some ⟨pirg.getPIRGFullName name, pirg.getPIRGOUDN cfg name,
        highestGid s + 1, [udn]⟩ := by
    rw [hfP6]
    simp [addMem]
  have hfA6n : findGroup? s6 (pirg.getPIRGAdminsGroupDN cfg name) =
      some ⟨pirg.getPIRGAdminsGroupFullName name, pirg.getPIRGOUDN cfg name,
        highestGid s + 1 + 1, [udn]⟩ := by
    rw [hfA6]
    simp [addMem]
  have hfPI6n : findGroup? s6 (pirg.getPIRGPIGroupDN cfg name) =
      some ⟨pirg.getPIRGPIGroupFullName name, pirg.getPIRGOUDN cfg name,
        highestGid s + 1 + 2, [udn]⟩ := hfPI6
  have hcn5 : (((s.groups ++ [(⟨pirg.getPIRGFullName name, pirg.getPIRGOUDN cfg name, highestGid s + 1, []⟩ : GroupEntry)]) ++ [(⟨pirg.getPIRGAdminsGroupFullName name, pirg.getPIRGOUDN cfg name, highestGid s + 1 + 1, []⟩ : GroupEntry)]) ++ [(⟨pirg.getPIRGPIGroupFullName name, pirg.getPIRGOUDN cfg name, highestGid s + 1 + 2, []⟩ : GroupEntry)]).find? (fun g0 => g0.cn == pirg.getPIRGFullName name) =
      some (⟨pirg.getPIRGFullName name, pirg.getPIRGOUDN cfg name, highestGid s + 1, []⟩ : GroupEntry) := by
    apply find?_append_some
    apply find?_append_some
    rw [find?_append_none _ hcn]
    exact List.find?_cons_of_pos [] (beq_self_eq_true (pirg.getPIRGFullName name))
  obtain ⟨g1', hcn6, hdn1', hcn1', hgid1', hou1'⟩ := hev6.find_cn hcn5
  have husr6 : s6.users.find? (fun p => p.1 == member) = some (member, udn) := by
    rw [hev6.users_eq]
    exact husr
  have hfP6d : findGroup? s6 g1'.dn =
      some ⟨pirg.getPIRGFullName name, pirg.getPIRGOUDN cfg name,
        highestGid s + 1, [udn]⟩ := by
    rw [hdn1']
    exact hfP6n
  have hrunAA : pirg.PirgAddAdmin cfg name member s6 = (Except.ok (), s6) := by
    simp only [pirg.PirgAddAdmin, pirg.findPIRGDN]
    rw [bind_run_ok _ (pirg_getUserDN_run husr6 hudn)]
    rw [bind_run_ok _ (GetGroupDN_run_some hcn6)]
    rw [if_neg (show Not ((!(g1'.dn, true).2) = true) from by simp)]
    rw [bind_run_ok _ (UserInGroup_run hfP6d udn)]
    rw [if_neg (show Not ((!((⟨pirg.getPIRGFullName name, pirg.getPIRGOUDN cfg name,
      highestGid s + 1, [udn]⟩ : GroupEntry)).members.contains udn) = true) from by simp)]
    rw [bind_run_ok _ (UserInGroup_run hfA6n udn)]
    rw [if_pos (show ((⟨pirg.getPIRGAdminsGroupFullName name,
      pirg.getPIRGOUDN cfg name, highestGid s + 1 + 1,
      [udn]⟩ : GroupEntry)).members.contains udn = true from by simp)]
    rfl
  have hrunAM : pirg.PirgAddMember cfg name member s6 = (Except.ok (), s6) := by
    simp only [pirg.PirgAddMember]
    rw [bind_run_ok _ (pirg_getUserDN_run husr6 hudn)]
    rw [bind_run_ok _ (UserInGroup_run hfP6n udn)]
    rw [if_pos (show ((⟨pirg.getPIRGFullName name, pirg.getPIRGOUDN cfg name,
      highestGid s + 1, [udn]⟩ : GroupEntry)).members.contains udn = true from by simp)]
    rfl
  refine ⟨s6, ?_, hfP6n, hfA6n, hfPI6n, hv2, by omega⟩
  simp only [pirg.PirgCreate, pirg.findPIRGDN]
  rw [bind_run_ok _ (GetGroupDN_run_none hcn)]
  rw [if_neg (show Not (("", false).2 = true) from by decide)]
  rw [bind_run_ok _ (GetNextGidNumber_run_ok hv1 hv2)]
  rw [bind_run_ok _ (CreateOU_run_new cfg.LDAPPirgDN name hex1)]
  rw [bind_run_ok _ (CreateOU_run_new (pirg.getPIRGOUDN cfg name) "Groups" hex2a)]
  rw [bind_run_ok _ (CreateGroup_run_new (pirg.getPIRGOUDN cfg name)
    (pirg.getPIRGFullName name) (highestGid s + 1) hex3a)]
  rw [bind_run_ok _ (CreateGroup_run_new (pirg.getPIRGOUDN cfg name)
    (pirg.getPIRGAdminsGroupFullName name) (highestGid s + 1 + 1) hex4a)]
  rw [bind_run_ok _ (CreateGroup_run_new (pirg.getPIRGOUDN cfg name)
    (pirg.getPIRGPIGroupFullName name) (highestGid s + 1 + 2) hex5a)]
  rw [bind_run_ok _ hrunSP]
  rw [bind_run_ok _ hrunAA]
  exact hrunAM

/-- Witness for the amended C1 on the fixture: creating PIRG acme with
the highest existing gid at 1999 yields groups at 2000, 2001 and 2002. -/
theorem C1_create_gids_amended_witness :
    ∃ s', pirg.PirgCreate cfgW "acme" "alice" dirC = (Except.ok (), s') ∧
      findGroup? s' (pirg.getPIRGDN cfgW "acme") =
        some ⟨pirg.getPIRGFullName "acme", pirg.getPIRGOUDN cfgW "acme",
          2000, [aliceDN]⟩ ∧
      findGroup? s' (pirg.getPIRGAdminsGroupDN cfgW "acme") =
        some ⟨pirg.getPIRGAdminsGroupFullName "acme", pirg.getPIRGOUDN cfgW "acme",
          2001, [aliceDN]⟩ ∧
      findGroup? s' (pirg.getPIRGPIGroupDN cfgW "acme") =
        some ⟨pirg.getPIRGPIGroupFullName "acme", pirg.getPIRGOUDN cfgW "acme",
          2002, [aliceDN]⟩ ∧
      cfgW.LDAPMinGid ≤ 2000 ∧ (2000 : Int) ≤ cfgW.LDAPMaxGid :=
  C1_create_gids_amended cfgW dirC "acme" "alice" aliceDN (by decide) (by decide)
    (by decide) (by decide) (by decide) (by decide) (by decide) (by decide)
    (by decide) (by decide)

/-- C1 counterexample: with the highest allocated gid one below the
maximum, creation succeeds and hands out the maximum itself to the
primary group and two values beyond it to the admins and PI groups,
violating the strict upper bound on every created group. -/
theorem C1_create_gid_out_of_range_cx :
    (pirg.PirgCreate cfgW "acme" "alice" dirC).1 = Except.ok () ∧
    (findGroup? (pirg.PirgCreate cfgW "acme" "alice" dirC).2
      (pirg.getPIRGDN cfgW "acme")).map (fun g => g.gid) = some 2000 ∧
    (findGroup? (pirg.PirgCreate cfgW "acme" "alice" dirC).2
      (pirg.getPIRGAdminsGroupDN cfgW "acme")).map (fun g => g.gid) = some 2001 ∧
    (findGroup? (pirg.PirgCreate cfgW "acme" "alice" dirC).2
      (pirg.getPIRGPIGroupDN cfgW "acme")).map (fun g => g.gid) = some 2002 ∧
    ¬((2000 : Int) < cfgW.LDAPMaxGid) := by
  decide

end DirMan
